import Mathlib

/-!
# cfd-dlc: transaction assembly of `cfddlc_transactions.cpp`

A shallow embedding of the transaction builders of `DlcManager`
(`src/src/cfddlc_transactions.cpp`) together with theorems about them.

Conventions of the embedding.

* `Amount`, serial ids, sizes and fee rates are natural numbers.  The source
  keeps amounts in 64-bit integers; the embedding does not model a wrap of a
  64-bit quantity, and every subtraction of amounts it performs is guarded by
  the same comparison that guards it in the source.
* 32-bit quantities that the source accumulates in a `uint32_t` are reduced
  modulo `2 ^ 32` at the place where the source narrows them.
* The fee arithmetic of the source is `ceil(weight / 4) * fee_rate` in double
  precision, on a `double` weight and a `uint64_t` fee rate.  Every value it
  meets is a non-negative integer, so a `double` is embedded as the integer it
  holds: a conversion to `double`, a sum and a product of doubles are the exact
  integer result rounded to 53 significant bits (`roundToDouble`); dividing by
  4 and `ceil` are exact.  A fee is converted back to a 64-bit integer where the
  source adds it to an `Amount` or returns it; like the wrap of a 64-bit
  quantity, a fee that does not fit is outside the embedding.
* Primitives that live outside the repository (script construction, the txid
  hash, the part of `std::sort` that the C++ standard leaves open, the
  Schnorr, ECDSA-adaptor, signing and signature-hash primitives) are fields of
  the structures `Collab`, `Crypto` and `Signer`, over which the theorems
  quantify.
* `libstdcxxSort` transcribes the `std::sort` of GNU libstdc++
  (`bits/stl_algo.h`, `bits/stl_heap.h`): introsort with its heapsort fallback
  and the final insertion sort.  The examples that depend on the order of
  equal serial ids in a range of more than 16 elements are stated for it.
* The builders work on `TransactionController`, which holds no witness data;
  the signing functions work on `WitnessedTransaction`, which adds the witness
  stacks pushed so far.  Signature hashes are taken of the transaction alone.
* A call that does not return is an `Except.error`: of a `CfdError` where only
  a `CfdException` can be thrown, of an `Abort` where the source can also read
  a vector past its end or throw something else.
* A vector has fewer than `2 ^ 32` elements, so an index that the source hands
  on as a `uint32_t` is handed on unchanged.
-/

namespace CfdDlc

/-! ## Data model -/

/-- Raw bytes. -/
abbrev ByteData := List Nat

/-- Locking or unlocking script, as its serialized bytes. -/
abbrev Script := ByteData

/-- Transaction id. -/
abbrev Txid := ByteData

/-- Public key, identified by the hex string `GetHex()` returns. -/
structure Pubkey where
  hex : String
  deriving DecidableEq, Repr

/-- Address: the string `GetAddress()` returns (empty for a default-constructed
address) and the script `GetLockingScript()` returns. -/
structure Address where
  address : String
  locking_script : Script
  deriving DecidableEq, Repr

/-- Error kinds raised through `CfdException`. -/
inductive CfdError where
  | kCfdIllegalArgumentError
  | kCfdInternalError
  deriving DecidableEq, Repr

/-- Transaction input: outpoint and unlocking script. -/
structure TxIn where
  txid : Txid
  vout : Nat
  unlocking_script : Script
  deriving DecidableEq, Repr

/-- Transaction output: `TxOut(value, locking_script)`. -/
structure TxOut where
  value : Nat
  locking_script : Script
  deriving DecidableEq, Repr

/-- Record `struct TxInputInfo`. -/
structure TxInputInfo where
  input : TxIn
  max_witness_length : Nat
  input_serial_id : Nat
  deriving DecidableEq, Repr

/-- Record `struct TxOutputInfo`. -/
structure TxOutputInfo where
  script : Script
  value : Nat
  output_serial_id : Nat
  deriving DecidableEq, Repr

/-- Record `struct PartyParams`. -/
structure PartyParams where
  fund_pubkey : Pubkey
  change_script_pubkey : Script
  final_script_pubkey : Script
  inputs_info : List TxInputInfo
  input_amount : Nat
  collateral : Nat
  payout_serial_id : Nat
  change_serial_id : Nat
  deriving DecidableEq, Repr

/-- Record `struct DlcOutcome`. -/
structure DlcOutcome where
  local_payout : Nat
  remote_payout : Nat
  deriving DecidableEq, Repr

/-- The transaction a `TransactionController` holds: version, locktime, inputs and
outputs in the order they were added.  The sequence number the controller
derives from the locktime is not part of the model. -/
structure TransactionController where
  version : Nat
  lock_time : Nat
  txins : List TxIn
  txouts : List TxOut
  deriving DecidableEq, Repr

/-- Record `struct DlcTransactions`. -/
structure DlcTransactions where
  fund_transaction : TransactionController
  cets : List TransactionController
  refund_transaction : TransactionController
  deriving DecidableEq, Repr

/-- Collaborators outside the repository.  `sortLong` is what `std::sort` does
with a range of more than 16 elements (see `stdSort`). -/
structure Collab where
  CreateMultisigRedeemScript : Nat → List Pubkey → Script
  CreateP2wshLockingScript : Script → Script
  GetTxid : TransactionController → Txid
  sortLong : (α : Type) → (α → α → Bool) → List α → List α

/-- What the C++ standard promises of `std::sort` for a comparator that orders
by a key: the result is a permutation of the range in non-descending key
order.  Nothing is promised about the relative order of equivalent elements. -/
def Collab.SortConforms (E : Collab) : Prop :=
  ∀ (α : Type) (key : α → Nat) (xs : List α),
    (E.sortLong α (fun a b => decide (key a < key b)) xs).Perm xs ∧
    (E.sortLong α (fun a b => decide (key a < key b)) xs).Pairwise
      (fun a b => key a ≤ key b)

/-! ## Constants -/

def TX_VERSION : Nat := 2

def DUST_LIMIT : Nat := 1000

def FUND_TX_BASE_WEIGHT : Nat := 214

def BATCH_FUND_TX_BASE_WEIGHT : Nat := 42

def FUNDING_OUTPUT_SIZE : Nat := 43

def CET_BASE_WEIGHT : Nat := 498

/-! ## `TransactionController` -/

/-- Constructor `TransactionController(version, locktime)`: an empty transaction; both
arguments are 32-bit. -/
def TransactionController.create (version lock_time : Nat) : TransactionController :=
  { version := version % 2 ^ 32, lock_time := lock_time % 2 ^ 32, txins := [], txouts := [] }

/-- Method `AddTxOut(locking_script, value)`: appends an output. -/
def TransactionController.AddTxOut (tx : TransactionController) (script : Script)
    (value : Nat) : TransactionController :=
  { tx with txouts := tx.txouts ++ [{ value := value, locking_script := script }] }

/-- Method `AddTxIn(txid, vout, unlocking_script)`: appends an input. -/
def TransactionController.AddTxInScript (tx : TransactionController) (txid : Txid)
    (vout : Nat) (unlocking_script : Script) : TransactionController :=
  { tx with txins := tx.txins ++
      [{ txid := txid, vout := vout, unlocking_script := unlocking_script }] }

/-- Method `AddTxIn(txid, vout)`: the overload without a script adds an input whose
unlocking script is empty. -/
def TransactionController.AddTxIn (tx : TransactionController) (txid : Txid)
    (vout : Nat) : TransactionController :=
  tx.AddTxInScript txid vout []

/-! ## Sorting -/

/-- Comparator `CompareSerialId`. -/
def CompareSerialId (i1 i2 : TxInputInfo) : Bool :=
  decide (i1.input_serial_id < i2.input_serial_id)

/-- Comparator `CompareOutputSerialId`. -/
def CompareOutputSerialId (i1 i2 : TxOutputInfo) : Bool :=
  decide (i1.output_serial_id < i2.output_serial_id)

/-- One step of insertion sort: `x` is placed in front of the first element it
compares less than.  On a sorted prefix this is the slot the backward scan of
`std::__unguarded_linear_insert` stops at. -/
def linearInsert {α : Type} (comp : α → α → Bool) (x : α) : List α → List α
  | [] => [x]
  | y :: ys => if comp x y then x :: y :: ys else y :: linearInsert comp x ys

/-- Insertion sort, left to right, with a strict comparator. -/
def insertionSort {α : Type} (comp : α → α → Bool) (xs : List α) : List α :=
  xs.foldl (fun acc x => linearInsert comp x acc) []

/-- Library call `std::sort(first, last, comp)`.  A range of at most 16 elements is sorted by
insertion sort alone (the introsort loop of GNU libstdc++ only partitions longer
ranges), which fixes the result completely.  For a longer range the outcome
depends on the library and is taken from the collaborator. -/
def stdSort (E : Collab) {α : Type} (comp : α → α → Bool) (xs : List α) : List α :=
  if xs.length ≤ 16 then insertionSort comp xs else E.sortLong α comp xs

/-! ## `std::sort` of GNU libstdc++ -/

/-- Library call `std::iter_swap` on the elements at two positions of a vector.  Reading
a vector takes a default `d`, which no in-range position uses. -/
def iterSwap {α : Type} (d : α) (xs : List α) (i j : Nat) : List α :=
  (xs.set i (xs.getD j d)).set j (xs.getD i d)

/-- Library function `std::__lg`: the floor of the binary logarithm, with fuel. -/
def lgFuel : Nat → Nat → Nat
  | 0, _ => 0
  | fuel + 1, n => if n < 2 then 0 else lgFuel fuel (n / 2) + 1

/-- Library function `std::__unguarded_linear_insert(last, comp)` with the value `val`
taken out of position `last`.  The library relies on a smaller element in front; the
embedding also stops at the front of the vector. -/
def unguardedLinearInsert {α : Type} (comp : α → α → Bool) (d val : α) :
    List α → Nat → List α
  | xs, 0 => xs.set 0 val
  | xs, next + 1 =>
    if comp val (xs.getD next d) then
      unguardedLinearInsert comp d val (xs.set (next + 1) (xs.getD next d)) next
    else xs.set (next + 1) val

/-- Library call `std::move_backward(first, i, i + 1)`: the elements of `[first, i)` move
one place up, the last one first; `n` is `i - first`. -/
def moveBackward {α : Type} (d : α) (first : Nat) : Nat → List α → List α
  | 0, xs => xs
  | n + 1, xs => moveBackward d first n (xs.set (first + n + 1) (xs.getD (first + n) d))

/-- The loop of `std::__insertion_sort(first, last, comp)` from position `i` on, for `n`
more elements. -/
def insertionSortLoop {α : Type} (comp : α → α → Bool) (d : α) (first : Nat) :
    Nat → List α → Nat → List α
  | 0, xs, _ => xs
  | n + 1, xs, i =>
    let val := xs.getD i d
    let xs :=
      if comp val (xs.getD first d) then (moveBackward d first (i - first) xs).set first val
      else unguardedLinearInsert comp d val xs i
    insertionSortLoop comp d first n xs (i + 1)

/-- Library function `std::__insertion_sort(first, last, comp)`. -/
def insertionSortRange {α : Type} (comp : α → α → Bool) (d : α) (xs : List α)
    (first last : Nat) : List α :=
  if first = last then xs
  else insertionSortLoop comp d first (last - (first + 1)) xs (first + 1)

/-- Library function `std::__unguarded_insertion_sort(first, last, comp)`; `n` is
`last - first`. -/
def unguardedInsertionSort {α : Type} (comp : α → α → Bool) (d : α) :
    Nat → List α → Nat → List α
  | 0, xs, _ => xs
  | n + 1, xs, i =>
    unguardedInsertionSort comp d n (unguardedLinearInsert comp d (xs.getD i d) xs i) (i + 1)

/-- Library function `std::__final_insertion_sort(first, last, comp)`. -/
def finalInsertionSort {α : Type} (comp : α → α → Bool) (d : α) (xs : List α)
    (first last : Nat) : List α :=
  if last - first > 16 then
    let xs := insertionSortRange comp d xs first (first + 16)
    unguardedInsertionSort comp d (last - (first + 16)) xs (first + 16)
  else insertionSortRange comp d xs first last

/-- Library function `std::__move_median_to_first(result, a, b, c, comp)`. -/
def moveMedianToFirst {α : Type} (comp : α → α → Bool) (d : α) (xs : List α)
    (result a b c : Nat) : List α :=
  if comp (xs.getD a d) (xs.getD b d) then
    if comp (xs.getD b d) (xs.getD c d) then iterSwap d xs result b
    else if comp (xs.getD a d) (xs.getD c d) then iterSwap d xs result c
    else iterSwap d xs result a
  else if comp (xs.getD a d) (xs.getD c d) then iterSwap d xs result a
  else if comp (xs.getD b d) (xs.getD c d) then iterSwap d xs result c
  else iterSwap d xs result b

/-- The loop `while (comp(first, pivot)) ++first` of `std::__unguarded_partition`.  The
library relies on the pivot to stop it; the embedding also stops after `fuel` steps. -/
def scanUp {α : Type} (comp : α → α → Bool) (d : α) (xs : List α) (pivot : Nat) :
    Nat → Nat → Nat
  | 0, first => first
  | fuel + 1, first =>
    if comp (xs.getD first d) (xs.getD pivot d) then scanUp comp d xs pivot fuel (first + 1)
    else first

/-- The loop `while (comp(pivot, last)) --last` of `std::__unguarded_partition`. -/
def scanDown {α : Type} (comp : α → α → Bool) (d : α) (xs : List α) (pivot : Nat) :
    Nat → Nat
  | 0 => 0
  | last + 1 =>
    if comp (xs.getD pivot d) (xs.getD (last + 1) d) then scanDown comp d xs pivot last
    else last + 1

/-- Library function `std::__unguarded_partition(first, last, pivot, comp)`: the vector
and the cut.  Every round moves `first` up, so `fuel` can be the length of the vector. -/
def unguardedPartition {α : Type} (comp : α → α → Bool) (d : α) (pivot : Nat) :
    Nat → List α → Nat → Nat → List α × Nat
  | 0, xs, first, _ => (xs, first)
  | fuel + 1, xs, first, last =>
    let first := scanUp comp d xs pivot xs.length first
    let last := scanDown comp d xs pivot (last - 1)
    if first < last then
      unguardedPartition comp d pivot fuel (iterSwap d xs first last) (first + 1) last
    else (xs, first)

/-- Library function `std::__unguarded_partition_pivot(first, last, comp)`. -/
def unguardedPartitionPivot {α : Type} (comp : α → α → Bool) (d : α) (xs : List α)
    (first last : Nat) : List α × Nat :=
  let mid := first + (last - first) / 2
  let xs := moveMedianToFirst comp d xs first (first + 1) mid (last - 1)
  unguardedPartition comp d first xs.length xs (first + 1) last

/-- Library function `std::__push_heap(first, holeIndex, topIndex, value, comp)`. -/
def pushHeap {α : Type} (comp : α → α → Bool) (d : α) (first topIndex : Nat) (value : α) :
    Nat → List α → Nat → List α
  | 0, xs, holeIndex => xs.set (first + holeIndex) value
  | fuel + 1, xs, holeIndex =>
    let parent := (holeIndex - 1) / 2
    if holeIndex > topIndex ∧ comp (xs.getD (first + parent) d) value = true then
      pushHeap comp d first topIndex value fuel
        (xs.set (first + holeIndex) (xs.getD (first + parent) d)) parent
    else xs.set (first + holeIndex) value

/-- The loop `while (secondChild < (len - 1) / 2)` of `std::__adjust_heap`, in which the
hole follows the second child: the vector and the hole. -/
def adjustHeapLoop {α : Type} (comp : α → α → Bool) (d : α) (first len : Nat) :
    Nat → List α → Nat → List α × Nat
  | 0, xs, holeIndex => (xs, holeIndex)
  | fuel + 1, xs, holeIndex =>
    if holeIndex < (len - 1) / 2 then
      let secondChild := 2 * (holeIndex + 1)
      let secondChild :=
        if comp (xs.getD (first + secondChild) d) (xs.getD (first + (secondChild - 1)) d)
        then secondChild - 1 else secondChild
      adjustHeapLoop comp d first len fuel
        (xs.set (first + holeIndex) (xs.getD (first + secondChild) d)) secondChild
    else (xs, holeIndex)

/-- Library function `std::__adjust_heap(first, holeIndex, len, value, comp)`; `len` is
signed in the library and at least 1 at every call. -/
def adjustHeap {α : Type} (comp : α → α → Bool) (d : α) (xs : List α)
    (first holeIndex len : Nat) (value : α) : List α :=
  let topIndex := holeIndex
  let (xs, holeIndex) := adjustHeapLoop comp d first len len xs holeIndex
  let (xs, holeIndex) :=
    if len % 2 = 0 ∧ 2 ≤ len ∧ holeIndex = (len - 2) / 2 then
      let secondChild := 2 * (holeIndex + 1)
      (xs.set (first + holeIndex) (xs.getD (first + (secondChild - 1)) d), secondChild - 1)
    else (xs, holeIndex)
  pushHeap comp d first topIndex value len xs holeIndex

/-- Library function `std::__pop_heap(first, last, result, comp)`. -/
def popHeap {α : Type} (comp : α → α → Bool) (d : α) (xs : List α)
    (first last result : Nat) : List α :=
  let value := xs.getD result d
  let xs := xs.set result (xs.getD first d)
  adjustHeap comp d xs first 0 (last - first) value

/-- The loop of `std::__make_heap` from `parent` down to 0. -/
def makeHeapLoop {α : Type} (comp : α → α → Bool) (d : α) (first len : Nat) :
    Nat → List α → List α
  | 0, xs => adjustHeap comp d xs first 0 len (xs.getD first d)
  | parent + 1, xs =>
    makeHeapLoop comp d first len parent
      (adjustHeap comp d xs first (parent + 1) len (xs.getD (first + (parent + 1)) d))

/-- Library function `std::__make_heap(first, last, comp)`. -/
def makeHeap {α : Type} (comp : α → α → Bool) (d : α) (xs : List α)
    (first last : Nat) : List α :=
  if last - first < 2 then xs
  else makeHeapLoop comp d first (last - first) ((last - first - 2) / 2) xs

/-- The loop of `std::__heap_select` from position `i` on, for `n` more elements. -/
def heapSelectLoop {α : Type} (comp : α → α → Bool) (d : α) (first middle : Nat) :
    Nat → List α → Nat → List α
  | 0, xs, _ => xs
  | n + 1, xs, i =>
    heapSelectLoop comp d first middle n
      (if comp (xs.getD i d) (xs.getD first d) then popHeap comp d xs first middle i else xs)
      (i + 1)

/-- Library function `std::__heap_select(first, middle, last, comp)`. -/
def heapSelect {α : Type} (comp : α → α → Bool) (d : α) (xs : List α)
    (first middle last : Nat) : List α :=
  heapSelectLoop comp d first middle (last - middle) (makeHeap comp d xs first middle) middle

/-- Library function `std::__sort_heap(first, last, comp)`; the argument is
`last - first`. -/
def sortHeap {α : Type} (comp : α → α → Bool) (d : α) (first : Nat) :
    Nat → List α → List α
  | n + 2, xs =>
    sortHeap comp d first (n + 1) (popHeap comp d xs first (first + n + 1) (first + n + 1))
  | _, xs => xs

/-- Library function `std::__partial_sort(first, middle, last, comp)`. -/
def partialSort {α : Type} (comp : α → α → Bool) (d : α) (xs : List α)
    (first middle last : Nat) : List α :=
  sortHeap comp d first (middle - first) (heapSelect comp d xs first middle last)

/-- Library function `std::__introsort_loop(first, last, depth_limit, comp)`, by recursion
on `depth_limit`, which every round of the loop takes one off. -/
def introsortLoop {α : Type} (comp : α → α → Bool) (d : α) :
    Nat → List α → Nat → Nat → List α
  | 0, xs, first, last =>
    if last - first > 16 then partialSort comp d xs first last last else xs
  | depth_limit + 1, xs, first, last =>
    if last - first > 16 then
      let (xs, cut) := unguardedPartitionPivot comp d xs first last
      let xs := introsortLoop comp d depth_limit xs cut last
      introsortLoop comp d depth_limit xs first cut
    else xs

/-- Library call `std::sort(first, last, comp)` as GNU libstdc++ implements it
(`std::__sort` of `bits/stl_algo.h`) on a whole vector. -/
def libstdcxxSort {α : Type} (comp : α → α → Bool) : List α → List α
  | [] => []
  | d :: xs =>
    let n := (d :: xs).length
    finalInsertionSort comp d (introsortLoop comp d (lgFuel n n * 2) (d :: xs) 0 n) 0 n

/-! ## Dust -/

/-- Function `DlcManager::IsDustOutput`. -/
def IsDustOutput (output : TxOut) : Bool :=
  decide (output.value < DUST_LIMIT)

/-- Function `DlcManager::IsDustOutputInfo`. -/
def IsDustOutputInfo (output : TxOutputInfo) : Bool :=
  decide (output.value < DUST_LIMIT)

/-! ## CETs -/

/-- Function `DlcManager::CreateCet`. -/
def CreateCet (E : Collab) (local_output remote_output : TxOut) (fund_tx_id : Txid)
    (fund_vout : Nat) (lock_time : Nat) (local_serial_id remote_serial_id : Nat) :
    TransactionController :=
  let cet_tx := TransactionController.create TX_VERSION lock_time
  let local_output_info : TxOutputInfo :=
    { script := local_output.locking_script, value := local_output.value,
      output_serial_id := local_serial_id }
  let remote_output_info : TxOutputInfo :=
    { script := remote_output.locking_script, value := remote_output.value,
      output_serial_id := remote_serial_id }
  let outputs_info := stdSort E CompareOutputSerialId [local_output_info, remote_output_info]
  let cet_tx := outputs_info.foldl
    (fun tx o => if !IsDustOutputInfo o then tx.AddTxOut o.script o.value else tx) cet_tx
  cet_tx.AddTxIn fund_tx_id fund_vout

/-- Function `DlcManager::CreateCets`. -/
def CreateCets (E : Collab) (fund_tx_id : Txid) (fund_vout : Nat)
    (local_final_script_pubkey remote_final_script_pubkey : Script)
    (outcomes : List DlcOutcome) (lock_time : Nat)
    (local_serial_id remote_serial_id : Nat) : List TransactionController :=
  outcomes.map fun outcome =>
    CreateCet E
      { value := outcome.local_payout, locking_script := local_final_script_pubkey }
      { value := outcome.remote_payout, locking_script := remote_final_script_pubkey }
      fund_tx_id fund_vout lock_time local_serial_id remote_serial_id

/-! ## Funding transaction -/

/-- Comparison `operator<` of `std::string`: lexicographic comparison, character by character. -/
def stringLess : List Char → List Char → Bool
  | _, [] => false
  | [], _ :: _ => true
  | a :: as, b :: bs =>
    if a.toNat < b.toNat then true
    else if b.toNat < a.toNat then false
    else stringLess as bs

/-- Function `GetOrderedPubkeys`: the two keys in ascending order of their hex strings. -/
def GetOrderedPubkeys (a b : Pubkey) : List Pubkey :=
  if stringLess a.hex.data b.hex.data then [a, b] else [b, a]

/-- Function `DlcManager::CreateFundTxLockingScript`. -/
def CreateFundTxLockingScript (E : Collab) (local_fund_pubkey remote_fund_pubkey : Pubkey) :
    Script :=
  E.CreateMultisigRedeemScript 2 (GetOrderedPubkeys local_fund_pubkey remote_fund_pubkey)

/-- Function `DlcManager::CreateFundTransaction`. -/
def CreateFundTransaction (E : Collab) (local_fund_pubkey remote_fund_pubkey : Pubkey)
    (output_amount : Nat) (local_inputs_info : List TxInputInfo)
    (local_change_output : TxOut) (remote_inputs_info : List TxInputInfo)
    (remote_change_output : TxOut) (option_dest : Address) (option_premium : Nat)
    (lock_time : Nat) (local_serial_id remote_serial_id output_serial_id : Nat) :
    TransactionController :=
  let transaction := TransactionController.create TX_VERSION lock_time
  let multi_sig_script := CreateFundTxLockingScript E local_fund_pubkey remote_fund_pubkey
  let wit_script := E.CreateP2wshLockingScript multi_sig_script
  let fund_output_info : TxOutputInfo :=
    { script := wit_script, value := output_amount, output_serial_id := output_serial_id }
  let local_output_info : TxOutputInfo :=
    { script := local_change_output.locking_script, value := local_change_output.value,
      output_serial_id := local_serial_id }
  let remote_output_info : TxOutputInfo :=
    { script := remote_change_output.locking_script, value := remote_change_output.value,
      output_serial_id := remote_serial_id }
  let outputs_info := stdSort E CompareOutputSerialId
    [fund_output_info, local_output_info, remote_output_info]
  let transaction := outputs_info.foldl (fun tx o => tx.AddTxOut o.script o.value) transaction
  let inputs_info := stdSort E CompareSerialId (local_inputs_info ++ remote_inputs_info)
  let inputs := inputs_info.map fun i => i.input
  let transaction := inputs.foldl
    (fun tx i => tx.AddTxInScript i.txid i.vout i.unlocking_script) transaction
  if 0 < option_premium then
    let option_out : TxOut :=
      { value := option_premium, locking_script := option_dest.locking_script }
    if !IsDustOutput option_out then
      transaction.AddTxOut option_out.locking_script option_out.value
    else transaction
  else transaction

/-- Function `DlcManager::CreateRefundTransaction`. -/
def CreateRefundTransaction (local_final_script_pubkey remote_final_script_pubkey : Script)
    (local_amount remote_amount : Nat) (lock_time : Nat) (fund_tx_id : Txid)
    (fund_vout : Nat) : TransactionController :=
  let transaction_controller := TransactionController.create TX_VERSION lock_time
  let transaction_controller := transaction_controller.AddTxIn fund_tx_id fund_vout
  let transaction_controller :=
    transaction_controller.AddTxOut local_final_script_pubkey local_amount
  transaction_controller.AddTxOut remote_final_script_pubkey remote_amount

/-! ## Fees and change -/

/-- Function `GetInputsWeight`: the accumulator `total` is a `uint32_t`, so every addition is
reduced modulo `2 ^ 32`. -/
def GetInputsWeight (inputs_info : List TxInputInfo) : Nat :=
  inputs_info.foldl
    (fun total input_info =>
      let script := input_info.input.unlocking_script
      let script_size := if script.isEmpty then 0 else script.length
      (total + (164 + 4 * script_size + input_info.max_witness_length)) % 2 ^ 32)
    0

/-- The number of low bits a `double` cannot hold of `n`: how often `n` is halved until
it is below `2 ^ 53`. -/
def doubleExponent : Nat → Nat → Nat
  | 0, _ => 0
  | fuel + 1, n => if n < 2 ^ 53 then 0 else doubleExponent fuel (n / 2) + 1

/-- The integer a `double` holds after the conversion of a non-negative integer, or after
an operation on doubles whose exact result is that integer: the nearest integer with 53
significant bits, the one with an even last bit on a tie. -/
def roundToDouble (n : Nat) : Nat :=
  if n < 2 ^ 53 then n
  else
    let e := doubleExponent n n
    let q := n / 2 ^ e
    let r := n % 2 ^ e
    if 2 * r < 2 ^ e ∨ (2 * r = 2 ^ e ∧ q % 2 = 0) then q * 2 ^ e else (q + 1) * 2 ^ e

/-- The value of `ceil(weight / 4) * fee_rate` for a `double` `weight` and a `uint64_t`
`fee_rate`: the quotient and its ceiling are exact, the fee rate is converted to
`double` and the product is rounded. -/
def feeOfWeight (weight fee_rate : Nat) : Nat :=
  roundToDouble (((weight + 3) / 4) * roundToDouble fee_rate)

/-- Function `DlcManager::GetChangeOutputAndFees`: the change output, the fund fee and the
CET fee of one party.  `FUND_TX_BASE_WEIGHT / 2 + inputs_size` is a sum of two
`uint32_t` values and wraps at `2 ^ 32`; the remaining terms are added in
`size_t`, and the sum is stored in a `double`, as is the CET weight; `+=` on
`fund_weight` is a sum of doubles. -/
def GetChangeOutputAndFees (params : PartyParams) (fee_rate : Nat) (option_premium : Nat)
    (option_dest : Address) : Except CfdError (TxOut × Nat × Nat) :=
  let inputs_size := GetInputsWeight params.inputs_info
  let change_size := params.change_script_pubkey.length
  let fund_weight :=
    roundToDouble ((FUND_TX_BASE_WEIGHT / 2 + inputs_size) % 2 ^ 32 + change_size * 4 + 36)
  if 0 < option_premium ∧ option_dest.address = "" then
    .error .kCfdIllegalArgumentError
  else
    let fund_weight :=
      if 0 < option_premium then
        roundToDouble
          (fund_weight + roundToDouble (36 + option_dest.locking_script.length * 4))
      else fund_weight
    let fund_fee := feeOfWeight fund_weight fee_rate
    let cet_weight :=
      roundToDouble (CET_BASE_WEIGHT / 2 + params.final_script_pubkey.length * 4)
    let cet_fee := feeOfWeight cet_weight fee_rate
    let fund_out := params.collateral + fund_fee + cet_fee
    if params.input_amount < fund_out + option_premium then
      .error .kCfdIllegalArgumentError
    else
      let change_output : TxOut :=
        { value := params.input_amount - fund_out - option_premium,
          locking_script := params.change_script_pubkey }
      .ok (change_output, fund_fee, cet_fee)

/-! ## Orchestrator -/

/-- The loop over `outcomes` at the head of `CreateDlcTransactions`: it throws at the
first outcome whose payouts do not add up to the total collateral. -/
def checkOutcomes (total_collateral : Nat) : List DlcOutcome → Except CfdError Unit
  | [] => .ok ()
  | outcome :: rest =>
    if outcome.local_payout + outcome.remote_payout ≠ total_collateral then
      .error .kCfdIllegalArgumentError
    else checkOutcomes total_collateral rest

/-- The loop that resolves `fund_vout`: the first index at which the sorted serial ids
hold `fund_output_serial_id`, and 0 when there is none. -/
def findFundVout (fund_output_serial_id : Nat) : List Nat → Nat → Nat
  | [], _ => 0
  | id :: rest, i =>
    if id = fund_output_serial_id then i % 2 ^ 32
    else findFundVout fund_output_serial_id rest (i + 1)

/-- The default-constructed `Address()` that `GetChangeOutputAndFees` receives when
the caller leaves `option_dest` out. -/
def Address.empty : Address := { address := "", locking_script := [] }

/-- Function `DlcManager::CreateDlcTransactions`. -/
def CreateDlcTransactions (E : Collab) (outcomes : List DlcOutcome)
    (local_params remote_params : PartyParams) (refund_locktime : Nat) (fee_rate : Nat)
    (option_dest : Address) (option_premium : Nat)
    (fund_lock_time cet_lock_time fund_output_serial_id : Nat) :
    Except CfdError DlcTransactions :=
  let total_collateral := local_params.collateral + remote_params.collateral
  match checkOutcomes total_collateral outcomes with
  | .error e => .error e
  | .ok _ =>
  match GetChangeOutputAndFees local_params fee_rate option_premium option_dest with
  | .error e => .error e
  | .ok (local_change_output, local_fund_fee, local_cet_fee) =>
  match GetChangeOutputAndFees remote_params fee_rate 0 Address.empty with
  | .error e => .error e
  | .ok (remote_change_output, remote_fund_fee, remote_cet_fee) =>
  let fund_output_value :=
    local_params.input_amount + remote_params.input_amount - local_change_output.value -
      remote_change_output.value - local_fund_fee - remote_fund_fee - option_premium
  if total_collateral + local_cet_fee + remote_cet_fee ≠ fund_output_value then
    .error .kCfdInternalError
  else
    let fund_tx := CreateFundTransaction E local_params.fund_pubkey remote_params.fund_pubkey
      fund_output_value local_params.inputs_info local_change_output
      remote_params.inputs_info remote_change_output option_dest option_premium
      fund_lock_time local_params.change_serial_id remote_params.change_serial_id
      fund_output_serial_id
    let fund_tx_id := E.GetTxid fund_tx
    let change_serial_ids := stdSort E (fun a b : Nat => decide (a < b))
      [fund_output_serial_id, local_params.change_serial_id, remote_params.change_serial_id]
    let fund_vout := findFundVout fund_output_serial_id change_serial_ids 0
    let cets := CreateCets E fund_tx_id fund_vout local_params.final_script_pubkey
      remote_params.final_script_pubkey outcomes cet_lock_time
      local_params.payout_serial_id remote_params.payout_serial_id
    let refund_tx := CreateRefundTransaction local_params.final_script_pubkey
      remote_params.final_script_pubkey local_params.collateral remote_params.collateral
      refund_locktime fund_tx_id fund_vout
    .ok { fund_transaction := fund_tx, cets := cets, refund_transaction := refund_tx }

/-! ## Adaptor signatures -/

/-- A 32-byte value (message hash, signature hash). -/
abbrev ByteData256 := ByteData

/-- Private key. -/
abbrev Privkey := ByteData

/-- Schnorr (x-only) public key: the oracle key and the oracle nonces. -/
abbrev SchnorrPubkey := ByteData

/-- Encrypted ECDSA signature. -/
abbrev AdaptorSignature := ByteData

/-- The DLEQ proof that accompanies an adaptor signature. -/
abbrev AdaptorProof := ByteData

/-- Record `struct AdaptorPair`. -/
structure AdaptorPair where
  signature : AdaptorSignature
  proof : AdaptorProof
  deriving DecidableEq, Repr

/-- Cryptographic primitives outside the repository, taken as total functions: a
primitive that throws is not part of the model.  `GetSignatureHash tx index script
amount` is the segwit v0 `SIGHASH_ALL` hash of input `index` of `tx`. -/
structure Crypto where
  ComputeSigPoint : ByteData256 → SchnorrPubkey → SchnorrPubkey → Pubkey
  ComputeSigPointBatch : List ByteData256 → List SchnorrPubkey → SchnorrPubkey → Pubkey
  GetSignatureHash : TransactionController → Nat → ByteData → Nat → ByteData256
  AdaptorSign : ByteData256 → Privkey → Pubkey → AdaptorPair
  AdaptorVerify : AdaptorSignature → AdaptorProof → Pubkey → ByteData256 → Pubkey → Bool

/-- Function `DlcManager::ComputeAdaptorPoint`.  After the size check both vectors have
the same length, so `msgs.size() == 1` makes `msgs[0]` and `r_values[0]` the only
elements. -/
def ComputeAdaptorPoint (C : Crypto) (msgs : List ByteData256)
    (r_values : List SchnorrPubkey) (pubkey : SchnorrPubkey) : Except CfdError Pubkey :=
  if r_values.length ≠ msgs.length then .error .kCfdIllegalArgumentError
  else
    match msgs, r_values with
    | [m], r :: _ => .ok (C.ComputeSigPoint m r pubkey)
    | _, _ => .ok (C.ComputeSigPointBatch msgs r_values pubkey)

/-- Function `DlcManager::CreateCetAdaptorSignature`. -/
def CreateCetAdaptorSignature (C : Crypto) (cet : TransactionController)
    (oracle_pubkey : SchnorrPubkey) (oracle_r_values : List SchnorrPubkey)
    (funding_sk : Privkey) (funding_script_pubkey : Script) (total_collateral : Nat)
    (msgs : List ByteData256) : Except CfdError AdaptorPair :=
  match ComputeAdaptorPoint C msgs oracle_r_values oracle_pubkey with
  | .error e => .error e
  | .ok adaptor_point =>
    let sig_hash := C.GetSignatureHash cet 0 funding_script_pubkey total_collateral
    .ok (C.AdaptorSign sig_hash funding_sk adaptor_point)

/-- The loop of `CreateCetAdaptorSignatures` over `i = 0 .. nb - 1`, on the CETs and
message lists from index `i` on: the nonce count is checked, the first
`msgs[i].size()` nonces are copied to `r_values`, the signature is made and pushed. -/
def createCetAdaptorSignaturesLoop (C : Crypto) (oracle_pubkey : SchnorrPubkey)
    (oracle_r_values : List SchnorrPubkey) (funding_sk : Privkey)
    (funding_script_pubkey : Script) (total_collateral : Nat) :
    List TransactionController → List (List ByteData256) → Except CfdError (List AdaptorPair)
  | cet :: cets, m :: msgs =>
    if oracle_r_values.length < m.length then .error .kCfdIllegalArgumentError
    else
      let r_values := oracle_r_values.take m.length
      match CreateCetAdaptorSignature C cet oracle_pubkey r_values funding_sk
          funding_script_pubkey total_collateral m with
      | .error e => .error e
      | .ok sig =>
        match createCetAdaptorSignaturesLoop C oracle_pubkey oracle_r_values funding_sk
            funding_script_pubkey total_collateral cets msgs with
        | .error e => .error e
        | .ok sigs => .ok (sig :: sigs)
  | _, _ => .ok []

/-- Function `DlcManager::CreateCetAdaptorSignatures`. -/
def CreateCetAdaptorSignatures (C : Crypto) (cets : List TransactionController)
    (oracle_pubkey : SchnorrPubkey) (oracle_r_values : List SchnorrPubkey)
    (funding_sk : Privkey) (funding_script_pubkey : Script) (total_collateral : Nat)
    (msgs : List (List ByteData256)) : Except CfdError (List AdaptorPair) :=
  if cets.length ≠ msgs.length then .error .kCfdIllegalArgumentError
  else
    createCetAdaptorSignaturesLoop C oracle_pubkey oracle_r_values funding_sk
      funding_script_pubkey total_collateral cets msgs

/-- Function `DlcManager::VerifyCetAdaptorSignature`. -/
def VerifyCetAdaptorSignature (C : Crypto) (adaptor_pair : AdaptorPair)
    (cet : TransactionController) (pubkey : Pubkey) (oracle_pubkey : SchnorrPubkey)
    (oracle_r_values : List SchnorrPubkey) (funding_script_pubkey : Script)
    (total_collateral : Nat) (msgs : List ByteData256) : Except CfdError Bool :=
  match ComputeAdaptorPoint C msgs oracle_r_values oracle_pubkey with
  | .error e => .error e
  | .ok adaptor_point =>
    let sig_hash := C.GetSignatureHash cet 0 funding_script_pubkey total_collateral
    .ok (C.AdaptorVerify adaptor_pair.signature adaptor_pair.proof adaptor_point sig_hash
      pubkey)

/-- The loop `for (i = 0; i < nb && all_valid; i++)` of `VerifyCetAdaptorSignatures`,
entered with `all_valid` true, on the CETs, pairs and message lists from index `i` on.
The loop ends as soon as one pair does not verify, and the lists behind it are not
looked at. -/
def verifyCetAdaptorSignaturesLoop (C : Crypto) (pubkey : Pubkey)
    (oracle_pubkey : SchnorrPubkey) (oracle_r_values : List SchnorrPubkey)
    (funding_script_pubkey : Script) (total_collateral : Nat) :
    List TransactionController → List AdaptorPair → List (List ByteData256) →
      Except CfdError Bool
  | cet :: cets, pair :: pairs, m :: msgs =>
    if oracle_r_values.length < m.length then .error .kCfdIllegalArgumentError
    else
      let r_values := oracle_r_values.take m.length
      match VerifyCetAdaptorSignature C pair cet pubkey oracle_pubkey r_values
          funding_script_pubkey total_collateral m with
      | .error e => .error e
      | .ok valid =>
        if valid then
          verifyCetAdaptorSignaturesLoop C pubkey oracle_pubkey oracle_r_values
            funding_script_pubkey total_collateral cets pairs msgs
        else .ok false
  | _, _, _ => .ok true

/-- Function `DlcManager::VerifyCetAdaptorSignatures`. -/
def VerifyCetAdaptorSignatures (C : Crypto) (cets : List TransactionController)
    (signature_and_proofs : List AdaptorPair) (msgs : List (List ByteData256))
    (pubkey : Pubkey) (oracle_pubkey : SchnorrPubkey)
    (oracle_r_values : List SchnorrPubkey) (funding_script_pubkey : Script)
    (total_collateral : Nat) : Except CfdError Bool :=
  if cets.length ≠ signature_and_proofs.length ∨ cets.length ≠ msgs.length then
    .error .kCfdIllegalArgumentError
  else
    verifyCetAdaptorSignaturesLoop C pubkey oracle_pubkey oracle_r_values
      funding_script_pubkey total_collateral cets signature_and_proofs msgs

/-! ## Signing -/

/-- An oracle's Schnorr signature: the nonce and the scalar that `GetPrivkey()` returns. -/
structure SchnorrSignature where
  nonce : SchnorrPubkey
  privkey : Privkey
  deriving DecidableEq, Repr

/-- Type `SigHashAlgorithm`. -/
inductive SigHashAlgorithm where
  | kSigHashAll
  | kSigHashNone
  | kSigHashSingle
  deriving DecidableEq, Repr

/-- Type `SigHashType`, reduced to its algorithm: this file never sets the
anyone-can-pay flag. -/
structure SigHashType where
  algorithm : SigHashAlgorithm
  deriving DecidableEq, Repr

/-- The default-constructed `SigHashType()`.  The library makes it `SIGHASH_ALL`; the test
`FundTransactionTest` depends on it, where `SignFundTransactionInput` and
`AddSignatureToFundTransaction` have to produce the same serialized transaction. -/
def SigHashType.default : SigHashType := { algorithm := .kSigHashAll }

/-- One element of a witness stack: bytes given as a hex string (a signature, a script,
the empty string) or a public key. -/
inductive WitnessItem where
  | bytes (data : ByteData)
  | pubkey (key : Pubkey)
  deriving DecidableEq, Repr

/-- The elements one call of `AddWitnessStack` pushes for the input that spends the
outpoint `(txid, vout)`. -/
structure InputWitness where
  txid : Txid
  vout : Nat
  stack : List WitnessItem
  deriving DecidableEq, Repr

/-- A `TransactionController` as the signing functions see it: the transaction and the
witness data added to it so far, in the order of the calls.  The builders above never
touch the witness data, which is why they work on `TransactionController` alone. -/
structure WitnessedTransaction where
  transaction : TransactionController
  witness : List InputWitness
  deriving DecidableEq, Repr

/-- Ways in which a call ends without returning a value. -/
inductive Abort where
  /-- Statement `throw CfdException(e, ...)`. -/
  | exception (e : CfdError)
  /-- Statement `throw new CfdException(e, ...)`: what is thrown is a pointer to a
  `CfdException`, which a handler for `CfdException` does not catch. -/
  | exceptionPointer (e : CfdError)
  /-- An operation without defined behaviour: an element of a vector is read at an index
  past its end, or a value that is not a number is converted to an integer. -/
  | undefined
  deriving DecidableEq, Repr

/-- Signing primitives outside the repository, taken as total functions.
`CreateSignatureHash tx txid vout pubkey hash_type value` is the segwit v0 hash of the
input of `tx` that spends `(txid, vout)` with a pay-to-pubkey-hash script code;
`VerifyEcSignature hash pubkey signature` is plain ECDSA verification. -/
structure Signer where
  GeneratePubkey : Privkey → Pubkey
  CalculateEcSignature : ByteData256 → Privkey → ByteData
  ConvertSignatureToDer : ByteData → SigHashType → ByteData
  CreateSignatureHash :
    TransactionController → Txid → Nat → Pubkey → SigHashType → Nat → ByteData256
  CreateTweakAdd : Privkey → ByteData256 → Privkey
  Adapt : AdaptorSignature → Privkey → ByteData
  ExtractPubkeysFromMultisigScript : Script → List Pubkey
  VerifyEcSignature : ByteData256 → Pubkey → ByteData → Bool

/-- Method `AddWitnessStack(txid, vout, ...)` of the controller: the elements are pushed
for the input that spends `(txid, vout)`.  The lookup of that input is not modelled. -/
def WitnessedTransaction.AddWitnessStack (tx : WitnessedTransaction) (txid : Txid)
    (vout : Nat) (stack : List WitnessItem) : WitnessedTransaction :=
  { tx with witness := tx.witness ++ [{ txid := txid, vout := vout, stack := stack }] }

/-- Function `DlcManager::GetRawFundingTransactionInputSignature`. -/
def GetRawFundingTransactionInputSignature (S : Signer)
    (funding_transaction : WitnessedTransaction) (privkey : Privkey) (prev_tx_id : Txid)
    (prev_tx_vout : Nat) (value : Nat) : ByteData :=
  let hash_type := SigHashType.default
  let sig_hash := S.CreateSignatureHash funding_transaction.transaction prev_tx_id
    prev_tx_vout (S.GeneratePubkey privkey) hash_type value
  S.CalculateEcSignature sig_hash privkey

/-- Function `DlcManager::SignFundTransactionInput`. -/
def SignFundTransactionInput (S : Signer) (fund_transaction : WitnessedTransaction)
    (privkey : Privkey) (prev_tx_id : Txid) (prev_tx_vout : Nat) (value : Nat) :
    WitnessedTransaction :=
  let raw_signature := GetRawFundingTransactionInputSignature S fund_transaction privkey
    prev_tx_id prev_tx_vout value
  let hash_type : SigHashType := { algorithm := .kSigHashAll }
  let signature := S.ConvertSignatureToDer raw_signature hash_type
  fund_transaction.AddWitnessStack prev_tx_id prev_tx_vout
    [.bytes signature, .pubkey (S.GeneratePubkey privkey)]

/-- Function `DlcManager::AddSignatureToFundTransaction`. -/
def AddSignatureToFundTransaction (S : Signer) (fund_transaction : WitnessedTransaction)
    (signature : ByteData) (pubkey : Pubkey) (prev_tx_id : Txid) (prev_tx_vout : Nat) :
    WitnessedTransaction :=
  let der_signature := S.ConvertSignatureToDer signature SigHashType.default
  fund_transaction.AddWitnessStack prev_tx_id prev_tx_vout
    [.bytes der_signature, .pubkey pubkey]

/-- Function `DlcManager::AddSignaturesForMultiSigInput`: the vector of strings starts
with an empty string, the DER signatures follow, and `AddWitnessStack` pushes the
script after them. -/
def AddSignaturesForMultiSigInput (S : Signer) (transaction : WitnessedTransaction)
    (prev_tx_id : Txid) (prev_tx_vout : Nat) (multisig_script : Script)
    (signatures : List ByteData) : WitnessedTransaction :=
  let signatures_str : List WitnessItem :=
    .bytes [] :: signatures.map fun data =>
      .bytes (S.ConvertSignatureToDer data { algorithm := .kSigHashAll })
  transaction.AddWitnessStack prev_tx_id prev_tx_vout
    (signatures_str ++ [.bytes multisig_script])

/-- The adaptation secret of `SignCet`: the scalar of the first oracle signature, to
which the loop adds the scalars of the others with `CreateTweakAdd`. -/
def adaptorSecret (S : Signer) (first : SchnorrSignature) (rest : List SchnorrSignature) :
    Privkey :=
  rest.foldl (fun adaptor_secret sig => S.CreateTweakAdd adaptor_secret sig.privkey)
    first.privkey

/-- Function `DlcManager::SignCet`.  `pubkeys[0]` and `pubkeys[1]` are read without a
check of the size of `pubkeys`. -/
def SignCet (C : Crypto) (S : Signer) (cet : WitnessedTransaction)
    (adaptor_sig : AdaptorSignature) (oracle_signatures : List SchnorrSignature)
    (funding_sk : Privkey) (funding_script_pubkey : Script) (fund_tx_id : Txid)
    (fund_vout : Nat) (fund_amount : Nat) : Except Abort WitnessedTransaction :=
  match oracle_signatures with
  | [] => .error (.exception .kCfdIllegalArgumentError)
  | first :: rest =>
    let adaptor_secret := adaptorSecret S first rest
    let adapted_sig := S.Adapt adaptor_sig adaptor_secret
    let sig_hash := C.GetSignatureHash cet.transaction 0 funding_script_pubkey fund_amount
    let own_sig := S.CalculateEcSignature sig_hash funding_sk
    let pubkeys := S.ExtractPubkeysFromMultisigScript funding_script_pubkey
    let own_pubkey := S.GeneratePubkey funding_sk
    match pubkeys[0]? with
    | none => .error .undefined
    | some first_pubkey =>
      if own_pubkey = first_pubkey then
        .ok (AddSignaturesForMultiSigInput S cet fund_tx_id fund_vout funding_script_pubkey
          [own_sig, adapted_sig])
      else
        match pubkeys[1]? with
        | none => .error .undefined
        | some second_pubkey =>
          if own_pubkey = second_pubkey then
            .ok (AddSignaturesForMultiSigInput S cet fund_tx_id fund_vout
              funding_script_pubkey [adapted_sig, own_sig])
          else .error (.exceptionPointer .kCfdIllegalArgumentError)

/-- Function `DlcManager::AddSignaturesToRefundTx`, the overload that takes the lock
script of the funding output. -/
def AddSignaturesToRefundTx (S : Signer) (refund_tx : WitnessedTransaction)
    (fund_lockscript : Script) (signatures : List ByteData) (fund_tx_id : Txid)
    (fund_tx_vout : Nat) : WitnessedTransaction :=
  AddSignaturesForMultiSigInput S refund_tx fund_tx_id fund_tx_vout fund_lockscript
    signatures

/-- Function `DlcManager::AddSignaturesToRefundTx`, the overload that takes the two fund
pubkeys and builds the lock script from them. -/
def AddSignaturesToRefundTxPubkeys (E : Collab) (S : Signer)
    (refund_tx : WitnessedTransaction) (local_pubkey remote_pubkey : Pubkey)
    (signatures : List ByteData) (fund_tx_id : Txid) (fund_tx_vout : Nat) :
    WitnessedTransaction :=
  let script := CreateFundTxLockingScript E local_pubkey remote_pubkey
  AddSignaturesToRefundTx S refund_tx script signatures fund_tx_id fund_tx_vout

/-! ## Batch -/

/-- Record `struct BatchPartyParams`. -/
structure BatchPartyParams where
  fund_pubkeys : List Pubkey
  change_script_pubkey : Script
  final_script_pubkeys : List Script
  inputs_info : List TxInputInfo
  input_amount : Nat
  collaterals : List Nat
  payout_serial_ids : List Nat
  change_serial_id : Nat
  deriving DecidableEq, Repr

/-- Record `struct BatchDlcTransactions`. -/
structure BatchDlcTransactions where
  fund_transaction : TransactionController
  cets_list : List (List TransactionController)
  refund_transactions : List TransactionController
  deriving DecidableEq, Repr

/-- Expression `v[i]` on a vector: the element at index `i`; a read past the end is
undefined. -/
def elemAt {α : Type} (v : List α) (i : Nat) : Except Abort α :=
  match v[i]? with
  | some a => .ok a
  | none => .error .undefined

/-- A loop over indices whose body pushes one element per round: the elements in order,
or the first abort of the body. -/
def forEachIndex {α : Type} (body : Nat → Except Abort α) : List Nat → Except Abort (List α)
  | [] => .ok []
  | i :: rest =>
    match body i with
    | .error e => .error e
    | .ok a =>
      match forEachIndex body rest with
      | .error e => .error e
      | .ok as => .ok (a :: as)

/-- A `CfdException` that leaves a callee leaves the caller as well. -/
def liftCfd {α : Type} : Except CfdError α → Except Abort α
  | .ok a => .ok a
  | .error e => .error (.exception e)

/-- Function `DlcManager::GetBatchChangeOutputAndFees`.  The base weight and the size of
the funding outputs are added in `size_t`; `inputs_size` is the `uint32_t` that
`GetInputsWeight` returns.  Both weights are doubles; the CET weight is accumulated
with `+=`, a sum of doubles per final script. -/
def GetBatchChangeOutputAndFees (params : BatchPartyParams) (fee_rate : Nat) :
    Except CfdError (TxOut × Nat × Nat) :=
  let inputs_size := GetInputsWeight params.inputs_info
  let change_size := params.change_script_pubkey.length
  let fund_weight :=
    roundToDouble
      ((BATCH_FUND_TX_BASE_WEIGHT + FUNDING_OUTPUT_SIZE * params.fund_pubkeys.length * 4) / 2 +
        inputs_size + change_size * 4 + 36)
  let fund_fee := feeOfWeight fund_weight fee_rate
  let cet_weight := params.final_script_pubkeys.foldl
    (fun cet_weight final_script_pubkey =>
      roundToDouble
        (cet_weight + roundToDouble (CET_BASE_WEIGHT / 2 + final_script_pubkey.length * 4)))
    0
  let cet_fee := feeOfWeight cet_weight fee_rate
  let collateral := params.collaterals.foldl (fun a b => a + b) 0
  let fund_out := collateral + fund_fee + cet_fee
  if params.input_amount < fund_out then .error .kCfdIllegalArgumentError
  else
    let change_output : TxOut :=
      { value := params.input_amount - fund_out,
        locking_script := params.change_script_pubkey }
    .ok (change_output, fund_fee, cet_fee)

/-- The funding output record the loop of `CreateBatchFundTransaction` pushes in round
`i`. -/
def batchFundOutputInfo (E : Collab) (local_fund_pubkeys remote_fund_pubkeys : List Pubkey)
    (output_amounts : List Nat) (output_serial_ids : List Nat) (i : Nat) :
    Except Abort TxOutputInfo := do
  let local_fund_pubkey ← elemAt local_fund_pubkeys i
  let remote_fund_pubkey ← elemAt remote_fund_pubkeys i
  let multi_sig_script := CreateFundTxLockingScript E local_fund_pubkey remote_fund_pubkey
  let wit_script := E.CreateP2wshLockingScript multi_sig_script
  let serial_id ← if output_serial_ids.isEmpty then pure 0 else elemAt output_serial_ids i
  let output_amount ← elemAt output_amounts i
  pure { script := wit_script, value := output_amount, output_serial_id := serial_id }

/-- Function `DlcManager::CreateBatchFundTransaction`. -/
def CreateBatchFundTransaction (E : Collab) (local_fund_pubkeys remote_fund_pubkeys : List Pubkey)
    (output_amounts : List Nat) (local_inputs_info : List TxInputInfo)
    (local_change_output : TxOut) (remote_inputs_info : List TxInputInfo)
    (remote_change_output : TxOut) (lock_time : Nat)
    (local_serial_id remote_serial_id : Nat) (output_serial_ids : List Nat) :
    Except Abort TransactionController :=
  if local_fund_pubkeys.length ≠ remote_fund_pubkeys.length ∨
      local_fund_pubkeys.length ≠ output_amounts.length then
    .error (.exception .kCfdIllegalArgumentError)
  else
    let transaction := TransactionController.create TX_VERSION lock_time
    match forEachIndex
        (batchFundOutputInfo E local_fund_pubkeys remote_fund_pubkeys output_amounts
          output_serial_ids)
        (List.range local_fund_pubkeys.length) with
    | .error e => .error e
    | .ok outputs_info =>
      let local_output_info : TxOutputInfo :=
        { script := local_change_output.locking_script, value := local_change_output.value,
          output_serial_id := local_serial_id }
      let remote_output_info : TxOutputInfo :=
        { script := remote_change_output.locking_script,
          value := remote_change_output.value, output_serial_id := remote_serial_id }
      let outputs_info := outputs_info ++ [local_output_info, remote_output_info]
      let outputs_info := stdSort E CompareOutputSerialId outputs_info
      let transaction :=
        outputs_info.foldl (fun tx o => tx.AddTxOut o.script o.value) transaction
      let inputs_info := stdSort E CompareSerialId (local_inputs_info ++ remote_inputs_info)
      let inputs := inputs_info.map fun i => i.input
      .ok (inputs.foldl (fun tx i => tx.AddTxInScript i.txid i.vout i.unlocking_script)
        transaction)

/-- Round `i` of the first loop of `CreateBatchDlcTransactions`: the payouts of every
outcome of contract `i` have to add up to the two collaterals of that contract. -/
def batchCheckOutcomes (outcomes_list : List (List DlcOutcome))
    (local_collaterals remote_collaterals : List Nat) (i : Nat) : Except Abort Unit := do
  let outcomes ← elemAt outcomes_list i
  let local_collateral ← elemAt local_collaterals i
  let remote_collateral ← elemAt remote_collaterals i
  liftCfd (checkOutcomes (local_collateral + remote_collateral) outcomes)

/-- The value of `ceil(a / n)` in double precision for `n` of at least 1. -/
def ceilDiv (a n : Nat) : Nat :=
  (a + n - 1) / n

/-- Round `i` of the loop that fills `fund_output_values`. -/
def batchFundOutputValue (local_collaterals remote_collaterals : List Nat)
    (local_cet_fee remote_cet_fee : Nat) (i : Nat) : Except Abort Nat := do
  let local_collateral ← elemAt local_collaterals i
  let remote_collateral ← elemAt remote_collaterals i
  pure (local_collateral + remote_collateral + local_cet_fee + remote_cet_fee)

/-- The inner loop that resolves one entry of `fund_vouts`: the first index `j` at which
the sorted serial ids hold `serial_id`; the entry keeps the 0 of `resize` when there is
none. -/
def findBatchVout (serial_id : Nat) : List Nat → Nat → Nat
  | [], _ => 0
  | id :: rest, j =>
    if serial_id = id then j else findBatchVout serial_id rest (j + 1)

/-- Round `i` of the last loop of `CreateBatchDlcTransactions`: the CETs and the refund
transaction of contract `i`. -/
def batchContract (E : Collab) (outcomes_list : List (List DlcOutcome))
    (local_params remote_params : BatchPartyParams) (refund_locktimes : List Nat)
    (cet_lock_time : Nat) (fund_tx_id : Txid) (fund_vouts : List Nat) (i : Nat) :
    Except Abort (List TransactionController × TransactionController) := do
  let fund_vout ← elemAt fund_vouts i
  let local_final_script_pubkey ← elemAt local_params.final_script_pubkeys i
  let remote_final_script_pubkey ← elemAt remote_params.final_script_pubkeys i
  let outcomes ← elemAt outcomes_list i
  let local_payout_serial_id ← elemAt local_params.payout_serial_ids i
  let remote_payout_serial_id ← elemAt remote_params.payout_serial_ids i
  let cets := CreateCets E fund_tx_id fund_vout local_final_script_pubkey
    remote_final_script_pubkey outcomes cet_lock_time local_payout_serial_id
    remote_payout_serial_id
  let local_collateral ← elemAt local_params.collaterals i
  let remote_collateral ← elemAt remote_params.collaterals i
  let refund_locktime ← elemAt refund_locktimes i
  let refund_tx := CreateRefundTransaction local_final_script_pubkey
    remote_final_script_pubkey local_collateral remote_collateral refund_locktime
    fund_tx_id fund_vout
  pure (cets, refund_tx)

/-- Function `DlcManager::CreateBatchDlcTransactions`.  With no contract at all the
per-contract fee is a division by zero in double precision; its value is used only when
`local_params.collaterals` is not empty, and the conversion of that value to an amount
is undefined. -/
def CreateBatchDlcTransactions (E : Collab) (outcomes_list : List (List DlcOutcome))
    (local_params remote_params : BatchPartyParams) (refund_locktimes : List Nat)
    (fee_rate : Nat) (fund_lock_time cet_lock_time : Nat)
    (fund_output_serial_ids : List Nat) : Except Abort BatchDlcTransactions :=
  if outcomes_list.length ≠ local_params.fund_pubkeys.length ∨
      outcomes_list.length ≠ remote_params.fund_pubkeys.length then
    .error (.exception .kCfdIllegalArgumentError)
  else do
    let _ ← forEachIndex
      (batchCheckOutcomes outcomes_list local_params.collaterals remote_params.collaterals)
      (List.range outcomes_list.length)
    let (local_change_output, _, local_cet_fees) ←
      liftCfd (GetBatchChangeOutputAndFees local_params fee_rate)
    let (remote_change_output, _, remote_cet_fees) ←
      liftCfd (GetBatchChangeOutputAndFees remote_params fee_rate)
    if outcomes_list.length = 0 ∧ local_params.collaterals ≠ [] then .error .undefined
    else do
      let local_cet_fee := ceilDiv local_cet_fees outcomes_list.length
      let remote_cet_fee := ceilDiv remote_cet_fees outcomes_list.length
      let fund_output_values ← forEachIndex
        (batchFundOutputValue local_params.collaterals remote_params.collaterals
          local_cet_fee remote_cet_fee)
        (List.range local_params.collaterals.length)
      let total_fund_output_value : Nat := fund_output_values.foldl (fun a b => a + b) 0
      let total_collateral : Nat :=
        local_params.collaterals.foldl (fun a b => a + b) 0 +
          remote_params.collaterals.foldl (fun a b => a + b) 0
      let collateral_and_fees : Nat := total_collateral + local_cet_fees + remote_cet_fees
      let collateral_diff : Nat :=
        Int.natAbs ((collateral_and_fees : Int) - (total_fund_output_value : Int))
      if 20 < collateral_diff then .error (.exception .kCfdInternalError)
      else do
        let fund_tx ← CreateBatchFundTransaction E local_params.fund_pubkeys
          remote_params.fund_pubkeys fund_output_values local_params.inputs_info
          local_change_output remote_params.inputs_info remote_change_output fund_lock_time
          local_params.change_serial_id remote_params.change_serial_id
          fund_output_serial_ids
        let fund_tx_id := E.GetTxid fund_tx
        let fund_vouts :=
          if fund_output_serial_ids.isEmpty then List.range fund_output_values.length
          else
            let change_serial_ids := stdSort E (fun a b : Nat => decide (a < b))
              (fund_output_serial_ids ++
                [local_params.change_serial_id, remote_params.change_serial_id])
            fund_output_serial_ids.map fun serial_id =>
              findBatchVout serial_id change_serial_ids 0
        let contracts ← forEachIndex
          (batchContract E outcomes_list local_params remote_params refund_locktimes
            cet_lock_time fund_tx_id fund_vouts)
          (List.range fund_vouts.length)
        pure
          { fund_transaction := fund_tx
            cets_list := contracts.map fun c => c.1
            refund_transactions := contracts.map fun c => c.2 }

/-! ## Quantities derived from the builders -/

/-- The output `AddTxOut` emits for an output record. -/
def TxOutputInfo.toTxOut (o : TxOutputInfo) : TxOut :=
  { value := o.value, locking_script := o.script }

/-- The three candidate outputs of the funding transaction, in insertion order. -/
def fundOutputsInfo (E : Collab) (local_fund_pubkey remote_fund_pubkey : Pubkey)
    (output_amount : Nat) (local_change_output remote_change_output : TxOut)
    (local_serial_id remote_serial_id output_serial_id : Nat) : List TxOutputInfo :=
  [{ script := E.CreateP2wshLockingScript
        (CreateFundTxLockingScript E local_fund_pubkey remote_fund_pubkey),
     value := output_amount, output_serial_id := output_serial_id },
   { script := local_change_output.locking_script, value := local_change_output.value,
     output_serial_id := local_serial_id },
   { script := remote_change_output.locking_script, value := remote_change_output.value,
     output_serial_id := remote_serial_id }]

/-- Weight one input adds to the funding transaction. -/
def inputWeight (i : TxInputInfo) : Nat :=
  164 + 4 * i.input.unlocking_script.length + i.max_witness_length

/-- Weight of the funding transaction charged to one party, as the source computes it. -/
def fundWeight (params : PartyParams) (option_premium : Nat) (option_dest : Address) : Nat :=
  (107 + (params.inputs_info.map inputWeight).sum) % 2 ^ 32 +
    4 * params.change_script_pubkey.length + 36 +
    (if 0 < option_premium then 36 + 4 * option_dest.locking_script.length else 0)

/-- Weight of a CET charged to one party. -/
def cetWeight (params : PartyParams) : Nat :=
  249 + 4 * params.final_script_pubkey.length

/-- The `double` in which the source holds the weight of the funding transaction: the
integer sum is converted, and the weight of the premium output is added to it as a
double. -/
def fundWeightDouble (params : PartyParams) (option_premium : Nat) (option_dest : Address) :
    Nat :=
  if 0 < option_premium then
    roundToDouble
      (roundToDouble
          ((107 + (params.inputs_info.map inputWeight).sum) % 2 ^ 32 +
            4 * params.change_script_pubkey.length + 36) +
        roundToDouble (36 + 4 * option_dest.locking_script.length))
  else
    roundToDouble
      ((107 + (params.inputs_info.map inputWeight).sum) % 2 ^ 32 +
        4 * params.change_script_pubkey.length + 36)

/-- Fund fee of one party. -/
def fundFee (params : PartyParams) (fee_rate option_premium : Nat) (option_dest : Address) :
    Nat :=
  feeOfWeight (fundWeightDouble params option_premium option_dest) fee_rate

/-- CET fee of one party. -/
def cetFee (params : PartyParams) (fee_rate : Nat) : Nat :=
  feeOfWeight (roundToDouble (cetWeight params)) fee_rate

/-- What a party has to bring: collateral, both fees and the premium. -/
def requiredInput (params : PartyParams) (fee_rate option_premium : Nat)
    (option_dest : Address) : Nat :=
  params.collateral + fundFee params fee_rate option_premium option_dest +
    cetFee params fee_rate + option_premium

/-- The change output of one party. -/
def changeOutput (params : PartyParams) (fee_rate option_premium : Nat)
    (option_dest : Address) : TxOut :=
  { value := params.input_amount - requiredInput params fee_rate option_premium option_dest,
    locking_script := params.change_script_pubkey }

/-- The condition under which `GetChangeOutputAndFees` throws. -/
def changeFails (params : PartyParams) (fee_rate option_premium : Nat)
    (option_dest : Address) : Prop :=
  (0 < option_premium ∧ option_dest.address = "") ∨
    params.input_amount < requiredInput params fee_rate option_premium option_dest

instance (params : PartyParams) (fee_rate option_premium : Nat) (option_dest : Address) :
    Decidable (changeFails params fee_rate option_premium option_dest) := by
  unfold changeFails
  infer_instance

/-- The index `CreateDlcTransactions` resolves for the funding output. -/
def fundVout (E : Collab) (local_params remote_params : PartyParams)
    (fund_output_serial_id : Nat) : Nat :=
  findFundVout fund_output_serial_id
    (stdSort E (fun a b : Nat => decide (a < b))
      [fund_output_serial_id, local_params.change_serial_id, remote_params.change_serial_id]) 0

/-- The funding transaction `CreateDlcTransactions` builds when its checks pass. -/
def fundTransaction (E : Collab) (local_params remote_params : PartyParams) (fee_rate : Nat)
    (option_dest : Address) (option_premium fund_lock_time fund_output_serial_id : Nat) :
    TransactionController :=
  CreateFundTransaction E local_params.fund_pubkey remote_params.fund_pubkey
    (local_params.collateral + remote_params.collateral + cetFee local_params fee_rate +
      cetFee remote_params fee_rate)
    local_params.inputs_info (changeOutput local_params fee_rate option_premium option_dest)
    remote_params.inputs_info (changeOutput remote_params fee_rate 0 Address.empty)
    option_dest option_premium fund_lock_time local_params.change_serial_id
    remote_params.change_serial_id fund_output_serial_id

/-- The point `ComputeAdaptorPoint` returns when the two lists have the same length. -/
def adaptorPointOf (C : Crypto) (msgs : List ByteData256) (r_values : List SchnorrPubkey)
    (pubkey : SchnorrPubkey) : Pubkey :=
  match msgs, r_values with
  | [m], r :: _ => C.ComputeSigPoint m r pubkey
  | _, _ => C.ComputeSigPointBatch msgs r_values pubkey

/-- The check the loop of `VerifyCetAdaptorSignatures` runs on one CET, its adaptor pair
and its message list, with the first `msgs.size()` oracle nonces. -/
def verifyEntry (C : Crypto) (pubkey : Pubkey) (oracle_pubkey : SchnorrPubkey)
    (oracle_r_values : List SchnorrPubkey) (funding_script_pubkey : Script)
    (total_collateral : Nat)
    (x : TransactionController × AdaptorPair × List ByteData256) : Except CfdError Bool :=
  VerifyCetAdaptorSignature C x.2.1 x.1 pubkey oracle_pubkey
    (oracle_r_values.take x.2.2.length) funding_script_pubkey total_collateral x.2.2

/-- The adaptor pair the loop of `CreateCetAdaptorSignatures` makes for one CET and its
message list, with the first `msgs.size()` oracle nonces. -/
def createEntry (C : Crypto) (oracle_pubkey : SchnorrPubkey)
    (oracle_r_values : List SchnorrPubkey) (funding_sk : Privkey)
    (funding_script_pubkey : Script) (total_collateral : Nat)
    (x : TransactionController × List ByteData256) : Except CfdError AdaptorPair :=
  CreateCetAdaptorSignature C x.1 oracle_pubkey (oracle_r_values.take x.2.length)
    funding_sk funding_script_pubkey total_collateral x.2

/-- Weight of the batch funding transaction charged to one party, as the source
computes it: the weight of the inputs is the `uint32_t` that `GetInputsWeight` returns. -/
def batchFundWeight (params : BatchPartyParams) : Nat :=
  21 + 86 * params.fund_pubkeys.length + (params.inputs_info.map inputWeight).sum % 2 ^ 32 +
    4 * params.change_script_pubkey.length + 36

/-- Weight of the CETs of all contracts charged to one party. -/
def batchCetWeight (params : BatchPartyParams) : Nat :=
  (params.final_script_pubkeys.map fun s => 249 + 4 * s.length).sum

/-- The `double` in which the source accumulates the weight of the CETs of all
contracts: one sum of doubles per final script. -/
def batchCetWeightDouble (params : BatchPartyParams) : Nat :=
  params.final_script_pubkeys.foldl
    (fun cet_weight s => roundToDouble (cet_weight + roundToDouble (249 + 4 * s.length))) 0

/-- Fund fee of one party of a batch. -/
def batchFundFee (params : BatchPartyParams) (fee_rate : Nat) : Nat :=
  feeOfWeight (roundToDouble (batchFundWeight params)) fee_rate

/-- CET fee of one party of a batch, over all contracts. -/
def batchCetFee (params : BatchPartyParams) (fee_rate : Nat) : Nat :=
  feeOfWeight (batchCetWeightDouble params) fee_rate

/-- What a party of a batch has to bring: its collaterals and both fees. -/
def batchRequiredInput (params : BatchPartyParams) (fee_rate : Nat) : Nat :=
  params.collaterals.sum + batchFundFee params fee_rate + batchCetFee params fee_rate

/-- The change output of one party of a batch. -/
def batchChangeOutput (params : BatchPartyParams) (fee_rate : Nat) : TxOut :=
  { value := params.input_amount - batchRequiredInput params fee_rate,
    locking_script := params.change_script_pubkey }

/-- The vector `fund_vouts` of `CreateBatchDlcTransactions` for `n` funding outputs. -/
def batchFundVouts (E : Collab) (local_params remote_params : BatchPartyParams)
    (fund_output_serial_ids : List Nat) (n : Nat) : List Nat :=
  if fund_output_serial_ids.isEmpty then List.range n
  else
    fund_output_serial_ids.map fun serial_id =>
      findBatchVout serial_id
        (stdSort E (fun a b : Nat => decide (a < b))
          (fund_output_serial_ids ++
            [local_params.change_serial_id, remote_params.change_serial_id])) 0

/-- The batch of one contract that carries the parameters of a single DLC. -/
def PartyParams.toBatch (params : PartyParams) : BatchPartyParams :=
  { fund_pubkeys := [params.fund_pubkey]
    change_script_pubkey := params.change_script_pubkey
    final_script_pubkeys := [params.final_script_pubkey]
    inputs_info := params.inputs_info
    input_amount := params.input_amount
    collaterals := [params.collateral]
    payout_serial_ids := [params.payout_serial_id]
    change_serial_id := params.change_serial_id }

/-- The result of a batch of one contract that carries the result of a single DLC. -/
def DlcTransactions.toBatch (r : DlcTransactions) : BatchDlcTransactions :=
  { fund_transaction := r.fund_transaction
    cets_list := [r.cets]
    refund_transactions := [r.refund_transaction] }

/-! ## Reference data -/

/-- A collaborator whose `std::sort` keeps equal elements in order on long ranges as well. -/
def stableCollab : Collab :=
  { CreateMultisigRedeemScript := fun n ks => n :: ks.map fun k => k.hex.length
    CreateP2wshLockingScript := fun s => 0 :: 32 :: s
    GetTxid := fun tx => [tx.version, tx.lock_time, tx.txins.length, tx.txouts.length]
    sortLong := fun _ comp xs => insertionSort comp xs }

/-- A collaborator whose `std::sort` is a correct sort that reverses runs of equal
elements on long ranges: a sort the C++ standard allows, not the one of a particular
library (for GNU libstdc++ see `libstdcxxCollab`). -/
def reversingCollab : Collab :=
  { stableCollab with sortLong := fun _ comp xs => insertionSort comp xs.reverse }

/-- A collaborator whose `std::sort` is the one of GNU libstdc++ on long ranges as
well. -/
def libstdcxxCollab : Collab :=
  { stableCollab with sortLong := fun _ comp xs => libstdcxxSort comp xs }

/-- An input with empty unlocking script and a 108-byte witness, as in the reference
vectors. -/
def sampleInput (tag serial_id : Nat) : TxInputInfo :=
  { input := { txid := [tag], vout := 0, unlocking_script := [] },
    max_witness_length := 108, input_serial_id := serial_id }

/-- Local party of the reference scenario: 50 BTC in, 1 BTC collateral, 22-byte scripts. -/
def sampleLocal : PartyParams :=
  { fund_pubkey := { hex := "0279be" }
    change_script_pubkey := List.replicate 22 1
    final_script_pubkey := List.replicate 22 2
    inputs_info := [sampleInput 1 0]
    input_amount := 5000000000
    collateral := 100000000
    payout_serial_id := 0
    change_serial_id := 0 }

/-- Remote party of the reference scenario. -/
def sampleRemote : PartyParams :=
  { fund_pubkey := { hex := "02c604" }
    change_script_pubkey := List.replicate 22 3
    final_script_pubkey := List.replicate 22 4
    inputs_info := [sampleInput 2 0]
    input_amount := 5000000000
    collateral := 100000000
    payout_serial_id := 0
    change_serial_id := 0 }

/-- A party whose three inputs each declare a witness of 2000000000 bytes, so that the
input weights add up to more than `2 ^ 32`. -/
def heavyParams : PartyParams :=
  { sampleLocal with
    inputs_info :=
      [{ input := { txid := [1], vout := 0, unlocking_script := [] },
         max_witness_length := 2000000000, input_serial_id := 0 },
       { input := { txid := [2], vout := 0, unlocking_script := [] },
         max_witness_length := 2000000000, input_serial_id := 0 },
       { input := { txid := [3], vout := 0, unlocking_script := [] },
         max_witness_length := 2000000000, input_serial_id := 0 }] }

/-- The local party of the reference scenario with an input amount of 2 * 10 ^ 18 sats,
enough for fees at a fee rate beyond `2 ^ 53`. -/
def richLocal : PartyParams :=
  { sampleLocal with input_amount := 2000000000000000000 }

/-- Seventeen inputs that all carry serial id 0. -/
def seventeenInputs : List TxInputInfo :=
  (List.range 17).map fun t => sampleInput t 0

/-- The two outcomes of the reference scenario. -/
def sampleOutcomes : List DlcOutcome :=
  [{ local_payout := 199900000, remote_payout := 100000 },
   { local_payout := 100000, remote_payout := 199900000 }]

/-- What `CreateDlcTransactions` returns on the reference scenario with `stableCollab`,
refund locktime 100 and fee rate 1. -/
def sampleTransactions : DlcTransactions :=
  { fund_transaction :=
      { version := 2, lock_time := 0
        txins := [{ txid := [1], vout := 0, unlocking_script := [] },
          { txid := [2], vout := 0, unlocking_script := [] }]
        txouts := [{ value := 200000170, locking_script := [0, 32, 2, 6, 6] },
          { value := 4899999789, locking_script := List.replicate 22 1 },
          { value := 4899999789, locking_script := List.replicate 22 3 }] }
    cets :=
      [{ version := 2, lock_time := 0
         txins := [{ txid := [2, 0, 2, 3], vout := 0, unlocking_script := [] }]
         txouts := [{ value := 199900000, locking_script := List.replicate 22 2 },
           { value := 100000, locking_script := List.replicate 22 4 }] },
       { version := 2, lock_time := 0
         txins := [{ txid := [2, 0, 2, 3], vout := 0, unlocking_script := [] }]
         txouts := [{ value := 100000, locking_script := List.replicate 22 2 },
           { value := 199900000, locking_script := List.replicate 22 4 }] }]
    refund_transaction :=
      { version := 2, lock_time := 100
        txins := [{ txid := [2, 0, 2, 3], vout := 0, unlocking_script := [] }]
        txouts := [{ value := 100000000, locking_script := List.replicate 22 2 },
          { value := 100000000, locking_script := List.replicate 22 4 }] } }

/-- Primitives for the examples: the adaptor point records its arguments, signing
returns the hash and the key, and no adaptor pair verifies. -/
def rejectingCrypto : Crypto :=
  { ComputeSigPoint := fun m r p => { hex := String.mk ((m ++ r ++ p).map Char.ofNat) }
    ComputeSigPointBatch := fun ms rs p =>
      { hex := String.mk ((ms.flatten ++ rs.flatten ++ p).map Char.ofNat) }
    GetSignatureHash := fun tx index script amount =>
      index :: amount :: tx.txouts.length :: script
    AdaptorSign := fun h sk _ => { signature := h, proof := sk }
    AdaptorVerify := fun _ _ _ _ _ => false }

/-- Primitives for the examples under which every adaptor pair verifies. -/
def acceptingCrypto : Crypto :=
  { rejectingCrypto with AdaptorVerify := fun _ _ _ _ _ => true }

/-- Destination of the premium in the examples. -/
def sampleDest : Address :=
  { address := "bcrt1qxyz", locking_script := List.replicate 22 5 }

/-- The remote party of the reference scenario with an input amount that covers its
collateral and its two fees (126 and 85 sats at fee rate 1) and nothing more. -/
def tightRemote : PartyParams :=
  { sampleRemote with input_amount := 100000211 }

/-- An adaptor pair for the examples. -/
def samplePair : AdaptorPair := { signature := [5], proof := [6] }

/-- Two message lists for the examples: one message for the first CET, two for the
second. -/
def sampleMsgs : List (List ByteData256) := [[[1]], [[1], [2]]]

/-- Signing primitives for the examples.  A scalar counts as the number of its bytes and
a point as the number of characters of its hex string: `CreateTweakAdd` appends, the
public key of a private key spells its bytes, `Adapt` subtracts the scalar from the
point an adaptor signature starts with, and a signature verifies when it is the hash
behind a leading zero.  The script of a multisig lists one byte per key. -/
def sampleSigner : Signer :=
  { GeneratePubkey := fun sk => { hex := String.mk (sk.map Char.ofNat) }
    CalculateEcSignature := fun h sk => sk ++ h
    ConvertSignatureToDer := fun sig t =>
      48 :: sig ++ [match t.algorithm with
        | .kSigHashAll => 1
        | .kSigHashNone => 2
        | .kSigHashSingle => 3]
    CreateSignatureHash := fun tx txid vout pk _ value =>
      vout :: value :: tx.txins.length :: pk.hex.length :: txid
    CreateTweakAdd := fun a b => a ++ b
    Adapt := fun sig t => (sig.headD 0 - t.length) :: sig.tail
    ExtractPubkeysFromMultisigScript := fun script =>
      script.map fun b => { hex := String.mk [Char.ofNat b] }
    VerifyEcSignature := fun h _ sig => decide (sig = 0 :: h) }

/-- Primitives for the examples that fit `sampleSigner`: the point of a message and a
nonce has as many characters as the two have bytes, the batch point adds these up, an
adaptor signature is the hash behind the size of the adaptor point, its proof is the
private key, and verification checks both. -/
def additiveCrypto : Crypto :=
  { ComputeSigPoint := fun m r _ =>
      { hex := String.mk (List.replicate (m.length + r.length) 'a') }
    ComputeSigPointBatch := fun ms rs _ =>
      { hex := String.mk (List.replicate
          ((List.zip ms rs).map fun x => x.1.length + x.2.length).sum 'a') }
    GetSignatureHash := fun tx index script amount =>
      index :: amount :: tx.txouts.length :: script
    AdaptorSign := fun h sk T => { signature := T.hex.length :: h, proof := sk }
    AdaptorVerify := fun sig proof T h pk =>
      decide (sig = T.hex.length :: h) && decide (pk = sampleSigner.GeneratePubkey proof) }

/-- The first CET of the reference scenario. -/
def sampleCet : TransactionController :=
  { version := 2, lock_time := 0
    txins := [{ txid := [2, 0, 2, 3], vout := 0, unlocking_script := [] }]
    txouts := [{ value := 199900000, locking_script := List.replicate 22 2 },
      { value := 100000, locking_script := List.replicate 22 4 }] }

/-- Two oracle signatures for the examples. -/
def sampleOracleSignatures : List SchnorrSignature :=
  [{ nonce := [9], privkey := [1, 9] }, { nonce := [8], privkey := [2, 8] }]

/-- Local party of the reference batch: two contracts of 1 BTC collateral each. -/
def sampleBatchLocal : BatchPartyParams :=
  { fund_pubkeys := [{ hex := "0279be" }, { hex := "02f9308a" }]
    change_script_pubkey := List.replicate 22 1
    final_script_pubkeys := [List.replicate 22 2, List.replicate 22 6]
    inputs_info := [sampleInput 1 0]
    input_amount := 5000000000
    collaterals := [100000000, 100000000]
    payout_serial_ids := [0, 0]
    change_serial_id := 0 }

/-- Remote party of the reference batch. -/
def sampleBatchRemote : BatchPartyParams :=
  { fund_pubkeys := [{ hex := "02c604" }, { hex := "02e493db" }]
    change_script_pubkey := List.replicate 22 3
    final_script_pubkeys := [List.replicate 22 4, List.replicate 22 8]
    inputs_info := [sampleInput 2 0]
    input_amount := 5000000000
    collaterals := [100000000, 100000000]
    payout_serial_ids := [0, 0]
    change_serial_id := 0 }

/-- A batch party whose three inputs each declare a witness of 2000000000 bytes. -/
def heavyBatchParams : BatchPartyParams :=
  { sampleBatchLocal with inputs_info := heavyParams.inputs_info }

/-- The local party of the reference batch with an input amount of 4 * 10 ^ 18 sats,
enough for fees at a fee rate beyond `2 ^ 53`. -/
def richBatchLocal : BatchPartyParams :=
  { sampleBatchLocal with input_amount := 4000000000000000000 }

/-- A batch party of `n` contracts of 1 BTC collateral each: fund pubkey `i` is `i + 1`
times the character `key`, the final scripts are 22 bytes long except the last ones,
whose sizes are `last_sizes`, and all serial ids are 0. -/
def uniformBatch (n : Nat) (key : Char) (script_byte input_tag : Nat)
    (last_sizes : List Nat) : BatchPartyParams :=
  { fund_pubkeys := (List.range n).map fun i => { hex := String.mk (List.replicate (i + 1) key) }
    change_script_pubkey := List.replicate 22 script_byte
    final_script_pubkeys :=
      List.replicate (n - last_sizes.length) (List.replicate 22 (script_byte + 1)) ++
        last_sizes.map fun size => List.replicate size (script_byte + 1)
    inputs_info := [sampleInput input_tag 0]
    input_amount := 5000000000
    collaterals := List.replicate n 100000000
    payout_serial_ids := List.replicate n 0
    change_serial_id := 0 }

/-- The local party of the reference scenario with one input whose declared witness
length makes its weight `2 ^ 32 - 50`. -/
def wrappingLocal : PartyParams :=
  { sampleLocal with
    inputs_info :=
      [{ input := { txid := [1], vout := 0, unlocking_script := [] },
         max_witness_length := 4294967082, input_serial_id := 0 }] }

/-! ## Facts about the builders -/

theorem AddTxOut_txouts (tx : TransactionController) (script : Script) (value : Nat) :
    (tx.AddTxOut script value).txouts =
      tx.txouts ++ [{ value := value, locking_script := script }] := rfl

theorem AddTxOut_txins (tx : TransactionController) (script : Script) (value : Nat) :
    (tx.AddTxOut script value).txins = tx.txins := rfl

theorem AddTxInScript_txins (tx : TransactionController) (txid : Txid) (vout : Nat)
    (script : Script) :
    (tx.AddTxInScript txid vout script).txins =
      tx.txins ++ [{ txid := txid, vout := vout, unlocking_script := script }] := rfl

theorem AddTxInScript_txouts (tx : TransactionController) (txid : Txid) (vout : Nat)
    (script : Script) : (tx.AddTxInScript txid vout script).txouts = tx.txouts := rfl

theorem foldl_AddTxOut_txouts (l : List TxOutputInfo) (tx : TransactionController) :
    (l.foldl (fun tx o => tx.AddTxOut o.script o.value) tx).txouts =
      tx.txouts ++ l.map TxOutputInfo.toTxOut := by
  induction l generalizing tx with
  | nil => simp
  | cons o l ih =>
    rw [List.foldl_cons, ih]
    simp [TransactionController.AddTxOut, TxOutputInfo.toTxOut]

theorem foldl_AddTxOut_txins (l : List TxOutputInfo) (tx : TransactionController) :
    (l.foldl (fun tx o => tx.AddTxOut o.script o.value) tx).txins = tx.txins := by
  induction l generalizing tx with
  | nil => simp
  | cons o l ih =>
    rw [List.foldl_cons, ih]
    simp [TransactionController.AddTxOut]

theorem foldl_AddTxOut_nondust_txouts (l : List TxOutputInfo) (tx : TransactionController) :
    (l.foldl (fun tx o => if !IsDustOutputInfo o then tx.AddTxOut o.script o.value else tx)
        tx).txouts =
      tx.txouts ++ (l.filter fun o => !IsDustOutputInfo o).map TxOutputInfo.toTxOut := by
  induction l generalizing tx with
  | nil => simp
  | cons o l ih =>
    rw [List.foldl_cons, ih]
    cases h : IsDustOutputInfo o <;>
      simp [h, TransactionController.AddTxOut, TxOutputInfo.toTxOut]

theorem foldl_AddTxOut_nondust_txins (l : List TxOutputInfo) (tx : TransactionController) :
    (l.foldl (fun tx o => if !IsDustOutputInfo o then tx.AddTxOut o.script o.value else tx)
        tx).txins = tx.txins := by
  induction l generalizing tx with
  | nil => simp
  | cons o l ih =>
    rw [List.foldl_cons, ih]
    cases h : IsDustOutputInfo o <;> simp [h, TransactionController.AddTxOut]

theorem foldl_AddTxInScript_txins (l : List TxIn) (tx : TransactionController) :
    (l.foldl (fun tx i => tx.AddTxInScript i.txid i.vout i.unlocking_script) tx).txins =
      tx.txins ++ l := by
  induction l generalizing tx with
  | nil => simp
  | cons i l ih =>
    rw [List.foldl_cons, ih]
    simp [TransactionController.AddTxInScript]

theorem foldl_AddTxInScript_txouts (l : List TxIn) (tx : TransactionController) :
    (l.foldl (fun tx i => tx.AddTxInScript i.txid i.vout i.unlocking_script) tx).txouts =
      tx.txouts := by
  induction l generalizing tx with
  | nil => simp
  | cons i l ih =>
    rw [List.foldl_cons, ih]
    simp [TransactionController.AddTxInScript]

/-- The two payout records of a CET in the order `std::sort` leaves them. -/
theorem stdSort_pair (E : Collab) (a b : TxOutputInfo) :
    stdSort E CompareOutputSerialId [a, b] =
      if b.output_serial_id < a.output_serial_id then [b, a] else [a, b] := by
  simp only [stdSort, insertionSort, List.foldl_cons, List.foldl_nil, linearInsert,
    CompareOutputSerialId, List.length_cons, List.length_nil]
  by_cases h : b.output_serial_id < a.output_serial_id <;> simp [h]

/-- Outputs of a CET: the sorted payout records without the dust ones. -/
theorem CreateCet_txouts (E : Collab) (local_output remote_output : TxOut) (fund_tx_id : Txid)
    (fund_vout lock_time local_serial_id remote_serial_id : Nat) :
    (CreateCet E local_output remote_output fund_tx_id fund_vout lock_time local_serial_id
        remote_serial_id).txouts =
      (if remote_serial_id < local_serial_id then [remote_output, local_output]
        else [local_output, remote_output]).filter fun o => decide (DUST_LIMIT ≤ o.value) := by
  simp only [CreateCet, stdSort_pair, TransactionController.AddTxIn,
    TransactionController.AddTxInScript, foldl_AddTxOut_nondust_txouts,
    TransactionController.create, List.nil_append]
  by_cases h : remote_serial_id < local_serial_id
  · simp only [h, if_true, List.filter_cons, List.filter_nil, IsDustOutputInfo]
    by_cases h1 : remote_output.value < DUST_LIMIT <;>
      by_cases h2 : local_output.value < DUST_LIMIT <;>
      simp [h1, h2, TxOutputInfo.toTxOut, Nat.not_le.mpr, Nat.not_lt.mp]
  · simp only [h, if_false, List.filter_cons, List.filter_nil, IsDustOutputInfo]
    by_cases h1 : remote_output.value < DUST_LIMIT <;>
      by_cases h2 : local_output.value < DUST_LIMIT <;>
      simp [h1, h2, TxOutputInfo.toTxOut, Nat.not_le.mpr, Nat.not_lt.mp]

/-- Inputs of a CET: the single input spending the funding outpoint. -/
theorem CreateCet_txins (E : Collab) (local_output remote_output : TxOut) (fund_tx_id : Txid)
    (fund_vout lock_time local_serial_id remote_serial_id : Nat) :
    (CreateCet E local_output remote_output fund_tx_id fund_vout lock_time local_serial_id
        remote_serial_id).txins =
      [{ txid := fund_tx_id, vout := fund_vout, unlocking_script := [] }] := by
  simp only [CreateCet, TransactionController.AddTxIn, TransactionController.AddTxInScript,
    foldl_AddTxOut_nondust_txins, TransactionController.create, List.nil_append]

theorem linearInsert_perm {α : Type} (comp : α → α → Bool) (x : α) (l : List α) :
    (linearInsert comp x l).Perm (x :: l) := by
  induction l with
  | nil => simp [linearInsert]
  | cons y ys ih =>
    unfold linearInsert
    by_cases h : comp x y = true
    · simp [h]
    · simp only [h]
      exact (List.Perm.cons y ih).trans (List.Perm.swap x y ys)

theorem foldl_linearInsert_perm {α : Type} (comp : α → α → Bool) (xs acc : List α) :
    (xs.foldl (fun acc x => linearInsert comp x acc) acc).Perm (acc ++ xs) := by
  induction xs generalizing acc with
  | nil => simp
  | cons x xs ih =>
    rw [List.foldl_cons]
    refine (ih (linearInsert comp x acc)).trans ?_
    refine ((linearInsert_perm comp x acc).append_right xs).trans ?_
    exact (@List.perm_middle _ x acc xs).symm

theorem insertionSort_perm {α : Type} (comp : α → α → Bool) (xs : List α) :
    (insertionSort comp xs).Perm xs := by
  simpa [insertionSort] using foldl_linearInsert_perm comp xs []

theorem linearInsert_sorted {α : Type} (key : α → Nat) (comp : α → α → Bool)
    (hcomp : ∀ a b, comp a b = decide (key a < key b)) (x : α) (l : List α)
    (hl : l.Pairwise fun a b => key a ≤ key b) :
    (linearInsert comp x l).Pairwise fun a b => key a ≤ key b := by
  induction l with
  | nil => simp [linearInsert]
  | cons y ys ih =>
    obtain ⟨hy, hys⟩ := List.pairwise_cons.mp hl
    unfold linearInsert
    by_cases h : key x < key y
    · simp only [hcomp, h, decide_True, if_true]
      refine List.pairwise_cons.mpr ⟨?_, hl⟩
      intro a ha
      rcases List.mem_cons.mp ha with rfl | ha
      · exact Nat.le_of_lt h
      · exact Nat.le_trans (Nat.le_of_lt h) (hy a ha)
    · simp only [hcomp, h, decide_False]
      refine List.pairwise_cons.mpr ⟨?_, ih hys⟩
      intro a ha
      rcases List.mem_cons.mp ((linearInsert_perm comp x ys).mem_iff.mp ha) with rfl | ha
      · exact Nat.le_of_not_lt h
      · exact hy a ha

theorem foldl_linearInsert_sorted {α : Type} (key : α → Nat) (comp : α → α → Bool)
    (hcomp : ∀ a b, comp a b = decide (key a < key b)) (xs acc : List α)
    (hacc : acc.Pairwise fun a b => key a ≤ key b) :
    (xs.foldl (fun acc x => linearInsert comp x acc) acc).Pairwise
      fun a b => key a ≤ key b := by
  induction xs generalizing acc with
  | nil => simpa using hacc
  | cons x xs ih =>
    rw [List.foldl_cons]
    exact ih _ (linearInsert_sorted key comp hcomp x acc hacc)

theorem insertionSort_sorted {α : Type} (key : α → Nat) (comp : α → α → Bool)
    (hcomp : ∀ a b, comp a b = decide (key a < key b)) (xs : List α) :
    (insertionSort comp xs).Pairwise fun a b => key a ≤ key b :=
  foldl_linearInsert_sorted key comp hcomp xs [] List.Pairwise.nil

/-- Inserting into a sorted list puts `x` behind every element with the same key. -/
theorem linearInsert_filter {α : Type} (key : α → Nat) (comp : α → α → Bool)
    (hcomp : ∀ a b, comp a b = decide (key a < key b)) (k : Nat) (x : α) (l : List α)
    (hl : l.Pairwise fun a b => key a ≤ key b) :
    (linearInsert comp x l).filter (fun a => decide (key a = k)) =
      l.filter (fun a => decide (key a = k)) ++ [x].filter (fun a => decide (key a = k)) := by
  induction l with
  | nil => simp [linearInsert]
  | cons y ys ih =>
    obtain ⟨hy, hys⟩ := List.pairwise_cons.mp hl
    unfold linearInsert
    by_cases h : key x < key y
    · simp only [hcomp, h, decide_True, if_true]
      by_cases hx : key x = k
      · have hnone : (y :: ys).filter (fun a => decide (key a = k)) = [] := by
          apply List.filter_eq_nil_iff.mpr
          intro a ha
          have hle : key y ≤ key a := by
            rcases List.mem_cons.mp ha with rfl | ha
            · exact Nat.le_refl _
            · exact hy a ha
          simp only [decide_eq_true_eq]
          omega
        rw [List.filter_cons, hnone]
        simp [hx]
      · rw [List.filter_cons]
        simp [hx]
    · simp only [hcomp, h, decide_False, Bool.false_eq_true, if_false]
      rw [List.filter_cons, ih hys, List.filter_cons]
      by_cases hyk : key y = k <;> simp [hyk]

theorem foldl_linearInsert_filter {α : Type} (key : α → Nat) (comp : α → α → Bool)
    (hcomp : ∀ a b, comp a b = decide (key a < key b)) (k : Nat) (xs acc : List α)
    (hacc : acc.Pairwise fun a b => key a ≤ key b) :
    (xs.foldl (fun acc x => linearInsert comp x acc) acc).filter (fun a => decide (key a = k)) =
      acc.filter (fun a => decide (key a = k)) ++ xs.filter (fun a => decide (key a = k)) := by
  induction xs generalizing acc with
  | nil => simp
  | cons x xs ih =>
    rw [List.foldl_cons, ih _ (linearInsert_sorted key comp hcomp x acc hacc),
      linearInsert_filter key comp hcomp k x acc hacc, List.append_assoc,
      ← List.filter_append]
    rfl

/-- Insertion sort is stable: the elements of any one key keep their order. -/
theorem insertionSort_filter {α : Type} (key : α → Nat) (comp : α → α → Bool)
    (hcomp : ∀ a b, comp a b = decide (key a < key b)) (k : Nat) (xs : List α) :
    (insertionSort comp xs).filter (fun a => decide (key a = k)) =
      xs.filter (fun a => decide (key a = k)) := by
  simpa [insertionSort] using
    foldl_linearInsert_filter key comp hcomp k xs [] List.Pairwise.nil

theorem CreateFundTransaction_txouts (E : Collab) (local_fund_pubkey remote_fund_pubkey : Pubkey)
    (output_amount : Nat) (local_inputs_info : List TxInputInfo)
    (local_change_output : TxOut) (remote_inputs_info : List TxInputInfo)
    (remote_change_output : TxOut) (option_dest : Address) (option_premium : Nat)
    (lock_time : Nat) (local_serial_id remote_serial_id output_serial_id : Nat) :
    (CreateFundTransaction E local_fund_pubkey remote_fund_pubkey output_amount
        local_inputs_info local_change_output remote_inputs_info remote_change_output
        option_dest option_premium lock_time local_serial_id remote_serial_id
        output_serial_id).txouts =
      (insertionSort CompareOutputSerialId
          (fundOutputsInfo E local_fund_pubkey remote_fund_pubkey output_amount
            local_change_output remote_change_output local_serial_id remote_serial_id
            output_serial_id)).map TxOutputInfo.toTxOut ++
        (if DUST_LIMIT ≤ option_premium then
          [{ value := option_premium, locking_script := option_dest.locking_script }]
        else []) := by
  have hsort : ∀ l : List TxOutputInfo, l.length = 3 →
      stdSort E CompareOutputSerialId l = insertionSort CompareOutputSerialId l := by
    intro l hl
    simp [stdSort, hl]
  simp only [CreateFundTransaction, fundOutputsInfo]
  rw [hsort _ (by simp)]
  by_cases h0 : 0 < option_premium
  · by_cases h1 : option_premium < DUST_LIMIT
    · have h2 : ¬ DUST_LIMIT ≤ option_premium := Nat.not_le.mpr h1
      simp only [h0, if_true, IsDustOutput, h1, decide_True, Bool.not_true, Bool.false_eq_true,
        if_false, h2, foldl_AddTxInScript_txouts, foldl_AddTxOut_txouts,
        TransactionController.create, List.nil_append, List.append_nil]
    · have h2 : DUST_LIMIT ≤ option_premium := Nat.not_lt.mp h1
      simp only [h0, if_true, IsDustOutput, h1, decide_False, Bool.not_false, h2,
        AddTxOut_txouts, foldl_AddTxInScript_txouts, foldl_AddTxOut_txouts,
        TransactionController.create, List.nil_append]
  · have h2 : ¬ DUST_LIMIT ≤ option_premium := by
      simp only [DUST_LIMIT]
      omega
    simp only [h0, if_false, h2, foldl_AddTxInScript_txouts, foldl_AddTxOut_txouts,
      TransactionController.create, List.nil_append, List.append_nil]

theorem CreateFundTransaction_txins (E : Collab) (local_fund_pubkey remote_fund_pubkey : Pubkey)
    (output_amount : Nat) (local_inputs_info : List TxInputInfo)
    (local_change_output : TxOut) (remote_inputs_info : List TxInputInfo)
    (remote_change_output : TxOut) (option_dest : Address) (option_premium : Nat)
    (lock_time : Nat) (local_serial_id remote_serial_id output_serial_id : Nat) :
    (CreateFundTransaction E local_fund_pubkey remote_fund_pubkey output_amount
        local_inputs_info local_change_output remote_inputs_info remote_change_output
        option_dest option_premium lock_time local_serial_id remote_serial_id
        output_serial_id).txins =
      (stdSort E CompareSerialId (local_inputs_info ++ remote_inputs_info)).map
        fun i => i.input := by
  simp only [CreateFundTransaction]
  split_ifs <;>
    simp only [AddTxOut_txins, foldl_AddTxInScript_txins,
      foldl_AddTxOut_txins, TransactionController.create, List.nil_append]

theorem foldl_inputs_weight (l : List TxInputInfo) (acc : Nat) :
    l.foldl
        (fun total input_info =>
          let script := input_info.input.unlocking_script
          let script_size := if script.isEmpty then 0 else script.length
          (total + (164 + 4 * script_size + input_info.max_witness_length)) % 2 ^ 32)
        (acc % 2 ^ 32) =
      (acc + (l.map inputWeight).sum) % 2 ^ 32 := by
  induction l generalizing acc with
  | nil => simp
  | cons x xs ih =>
    have hsize : (if x.input.unlocking_script.isEmpty then 0
        else x.input.unlocking_script.length) = x.input.unlocking_script.length := by
      cases x.input.unlocking_script <;> simp
    simp only [List.foldl_cons, List.map_cons, List.sum_cons, hsize]
    rw [ih]
    simp only [inputWeight]
    norm_num
    omega

/-- The result of `GetInputsWeight` is the sum of the input weights reduced modulo `2 ^ 32`. -/
theorem GetInputsWeight_eq (l : List TxInputInfo) :
    GetInputsWeight l = (l.map inputWeight).sum % 2 ^ 32 := by
  have h := foldl_inputs_weight l 0
  simpa [GetInputsWeight] using h

/-! ## Double precision -/

theorem doubleExponent_spec (fuel n : Nat) (hf : n ≤ fuel) (hn : 2 ^ 53 ≤ n) :
    1 ≤ doubleExponent fuel n ∧ 2 ^ 52 ≤ n / 2 ^ doubleExponent fuel n ∧
      n / 2 ^ doubleExponent fuel n < 2 ^ 53 := by
  induction fuel generalizing n with
  | zero =>
    have : n = 0 := by omega
    rw [this] at hn
    norm_num at hn
  | succ fuel ih =>
    unfold doubleExponent
    rw [if_neg (by omega)]
    by_cases hhalf : n / 2 < 2 ^ 53
    · have h0 : doubleExponent fuel (n / 2) = 0 := by
        cases fuel with
        | zero => rfl
        | succ f =>
          unfold doubleExponent
          rw [if_pos hhalf]
      rw [h0]
      refine ⟨by omega, ?_, ?_⟩
      · show 2 ^ 52 ≤ n / 2 ^ 1
        rw [Nat.pow_one]
        omega
      · show n / 2 ^ 1 < 2 ^ 53
        rw [Nat.pow_one]
        exact hhalf
    · obtain ⟨h1, h2, h3⟩ := ih (n / 2) (by omega) (by omega)
      have hdiv : n / 2 ^ (doubleExponent fuel (n / 2) + 1) =
          n / 2 / 2 ^ doubleExponent fuel (n / 2) := by
        rw [Nat.div_div_eq_div_mul, Nat.pow_succ, Nat.mul_comm]
      rw [hdiv]
      exact ⟨by omega, h2, h3⟩

theorem roundToDouble_of_lt (n : Nat) (h : n < 2 ^ 53) : roundToDouble n = n := by
  unfold roundToDouble
  rw [if_pos h]

/-- Beyond 53 bits the conversion keeps the 53 leading bits `q` and the exponent `e`, or
moves to the next such number. -/
theorem roundToDouble_cases (n : Nat) (h : 2 ^ 53 ≤ n) :
    ∃ e q, 1 ≤ e ∧ 2 ^ 52 ≤ q ∧ q < 2 ^ 53 ∧ q * 2 ^ e ≤ n ∧ n < (q + 1) * 2 ^ e ∧
      (roundToDouble n = q * 2 ^ e ∨ roundToDouble n = (q + 1) * 2 ^ e) := by
  obtain ⟨h1, h2, h3⟩ := doubleExponent_spec n n (Nat.le_refl n) h
  have hpos : 0 < 2 ^ doubleExponent n n := Nat.two_pow_pos _
  have hdm := Nat.div_add_mod n (2 ^ doubleExponent n n)
  have hm := Nat.mod_lt n hpos
  refine ⟨doubleExponent n n, n / 2 ^ doubleExponent n n, h1, h2, h3, ?_, ?_, ?_⟩
  · rw [Nat.mul_comm]
    omega
  · rw [Nat.add_mul, Nat.one_mul, Nat.mul_comm]
    omega
  · unfold roundToDouble
    rw [if_neg (by omega)]
    simp only
    split_ifs
    · exact Or.inl rfl
    · exact Or.inr rfl

/-- A value that fits a `double` is kept. -/
theorem roundToDouble_mul_pow (m e : Nat) (hm : m ≤ 2 ^ 53) :
    roundToDouble (m * 2 ^ e) = m * 2 ^ e := by
  by_cases hlt : m * 2 ^ e < 2 ^ 53
  · exact roundToDouble_of_lt _ hlt
  · obtain ⟨h1, h2, h3⟩ := doubleExponent_spec (m * 2 ^ e) (m * 2 ^ e) (Nat.le_refl _)
      (by omega)
    have hpos : 0 < 2 ^ doubleExponent (m * 2 ^ e) (m * 2 ^ e) := Nat.two_pow_pos _
    have hq : 2 ^ 52 * 2 ^ doubleExponent (m * 2 ^ e) (m * 2 ^ e) ≤ m * 2 ^ e :=
      (Nat.le_div_iff_mul_le hpos).mp h2
    have hup : m * 2 ^ e ≤ 2 ^ 53 * 2 ^ e := Nat.mul_le_mul_right _ hm
    have hexp : doubleExponent (m * 2 ^ e) (m * 2 ^ e) ≤ e + 1 := by
      have h4 : 2 ^ (52 + doubleExponent (m * 2 ^ e) (m * 2 ^ e)) ≤ 2 ^ (53 + e) := by
        rw [Nat.pow_add, Nat.pow_add]
        exact le_trans hq hup
      have := (Nat.pow_le_pow_iff_right (by norm_num : 1 < 2)).mp h4
      omega
    have hdvd : 2 ^ doubleExponent (m * 2 ^ e) (m * 2 ^ e) ∣ m * 2 ^ e := by
      by_cases hle : doubleExponent (m * 2 ^ e) (m * 2 ^ e) ≤ e
      · exact Dvd.dvd.mul_left (Nat.pow_dvd_pow 2 hle) m
      · have heq : doubleExponent (m * 2 ^ e) (m * 2 ^ e) = e + 1 := by omega
        rw [heq] at hq ⊢
        have h5 : 2 ^ 53 * 2 ^ e ≤ m * 2 ^ e := by
          calc 2 ^ 53 * 2 ^ e = 2 ^ 52 * 2 ^ (e + 1) := by ring
            _ ≤ m * 2 ^ e := hq
        have hm2 : 2 ^ 53 ≤ m := Nat.le_of_mul_le_mul_right h5 (Nat.two_pow_pos e)
        have hmeq : m = 2 ^ 53 := Nat.le_antisymm hm hm2
        rw [hmeq]
        exact ⟨2 ^ 52, by ring⟩
    unfold roundToDouble
    rw [if_neg hlt]
    simp only
    rw [Nat.mod_eq_zero_of_dvd hdvd, if_pos (Or.inl (by
      rw [Nat.mul_zero]
      exact Nat.two_pow_pos _))]
    exact Nat.div_mul_cancel hdvd

theorem roundToDouble_idem (n : Nat) : roundToDouble (roundToDouble n) = roundToDouble n := by
  by_cases h : n < 2 ^ 53
  · rw [roundToDouble_of_lt n h, roundToDouble_of_lt n h]
  · obtain ⟨e, q, -, -, hq, -, -, hr⟩ := roundToDouble_cases n (by omega)
    rcases hr with hr | hr <;> rw [hr] <;> exact roundToDouble_mul_pow _ _ (by omega)

theorem roundToDouble_zero : roundToDouble 0 = 0 :=
  roundToDouble_of_lt 0 (by norm_num)

/-- A fee whose operands and product fit 53 bits is the exact product. -/
theorem feeOfWeight_exact (weight fee_rate : Nat) (hr : fee_rate < 2 ^ 53)
    (hp : (weight + 3) / 4 * fee_rate < 2 ^ 53) :
    feeOfWeight weight fee_rate = (weight + 3) / 4 * fee_rate := by
  unfold feeOfWeight
  rw [roundToDouble_of_lt fee_rate hr, roundToDouble_of_lt _ hp]

theorem feeOfWeight_zero_rate (weight : Nat) : feeOfWeight weight 0 = 0 := by
  unfold feeOfWeight
  rw [roundToDouble_zero, Nat.mul_zero, roundToDouble_zero]

/-- The three results of a successful `GetChangeOutputAndFees`, and when it succeeds. -/
theorem GetChangeOutputAndFees_eq (params : PartyParams) (fee_rate option_premium : Nat)
    (option_dest : Address) :
    GetChangeOutputAndFees params fee_rate option_premium option_dest =
      if (0 < option_premium ∧ option_dest.address = "") ∨
          params.input_amount <
            params.collateral +
              feeOfWeight (fundWeightDouble params option_premium option_dest) fee_rate +
              feeOfWeight (roundToDouble (cetWeight params)) fee_rate + option_premium then
        .error .kCfdIllegalArgumentError
      else
        .ok ({ value := params.input_amount -
                (params.collateral +
                  feeOfWeight (fundWeightDouble params option_premium option_dest) fee_rate +
                  feeOfWeight (roundToDouble (cetWeight params)) fee_rate) - option_premium,
               locking_script := params.change_script_pubkey },
             feeOfWeight (fundWeightDouble params option_premium option_dest) fee_rate,
             feeOfWeight (roundToDouble (cetWeight params)) fee_rate) := by
  have hw : (FUND_TX_BASE_WEIGHT / 2 + GetInputsWeight params.inputs_info) % 2 ^ 32 +
      params.change_script_pubkey.length * 4 + 36 =
      (107 + (params.inputs_info.map inputWeight).sum) % 2 ^ 32 +
        4 * params.change_script_pubkey.length + 36 := by
    rw [GetInputsWeight_eq]
    simp only [FUND_TX_BASE_WEIGHT]
    norm_num
    omega
  have hc : CET_BASE_WEIGHT / 2 + params.final_script_pubkey.length * 4 = cetWeight params := by
    simp only [CET_BASE_WEIGHT, cetWeight]
    omega
  have hp : 36 + option_dest.locking_script.length * 4 =
      36 + 4 * option_dest.locking_script.length := by omega
  unfold GetChangeOutputAndFees
  simp only [hw, hc, hp]
  by_cases h1 : 0 < option_premium ∧ option_dest.address = ""
  · simp [h1]
  · by_cases h0 : 0 < option_premium
    · have hd : ¬ option_dest.address = "" := fun h => h1 ⟨h0, h⟩
      simp only [fundWeightDouble, h0, hd, and_false, if_true, if_false, false_or]
    · simp only [fundWeightDouble, h0, false_and, if_false, false_or]

theorem GetChangeOutputAndFees_cases (params : PartyParams) (fee_rate option_premium : Nat)
    (option_dest : Address) :
    GetChangeOutputAndFees params fee_rate option_premium option_dest =
      if changeFails params fee_rate option_premium option_dest then
        .error .kCfdIllegalArgumentError
      else
        .ok (changeOutput params fee_rate option_premium option_dest,
             fundFee params fee_rate option_premium option_dest, cetFee params fee_rate) := by
  rw [GetChangeOutputAndFees_eq]
  simp only [changeFails, requiredInput, fundFee, cetFee, changeOutput]
  split_ifs
  · rfl
  · congr 3
    omega

theorem checkOutcomes_eq (total_collateral : Nat) (outcomes : List DlcOutcome) :
    checkOutcomes total_collateral outcomes =
      if ∃ o ∈ outcomes, o.local_payout + o.remote_payout ≠ total_collateral then
        .error .kCfdIllegalArgumentError
      else .ok () := by
  induction outcomes with
  | nil => simp [checkOutcomes]
  | cons o os ih =>
    unfold checkOutcomes
    by_cases h : o.local_payout + o.remote_payout = total_collateral
    · simp only [ne_eq, h, not_true_eq_false, if_false, ih, List.mem_cons, exists_eq_or_imp,
        false_or]
    · simp [h]

/-- The function `CreateDlcTransactions` case by case: the three ways it throws, and the result it
returns otherwise. -/
theorem CreateDlcTransactions_cases (E : Collab) (outcomes : List DlcOutcome)
    (local_params remote_params : PartyParams) (refund_locktime fee_rate : Nat)
    (option_dest : Address)
    (option_premium fund_lock_time cet_lock_time fund_output_serial_id : Nat) :
    CreateDlcTransactions E outcomes local_params remote_params refund_locktime fee_rate
        option_dest option_premium fund_lock_time cet_lock_time fund_output_serial_id =
      if ∃ o ∈ outcomes,
          o.local_payout + o.remote_payout ≠ local_params.collateral + remote_params.collateral
      then .error .kCfdIllegalArgumentError
      else if changeFails local_params fee_rate option_premium option_dest then
        .error .kCfdIllegalArgumentError
      else if changeFails remote_params fee_rate 0 Address.empty then
        .error .kCfdIllegalArgumentError
      else
        .ok
          { fund_transaction := fundTransaction E local_params remote_params fee_rate
              option_dest option_premium fund_lock_time fund_output_serial_id
            cets := CreateCets E
              (E.GetTxid (fundTransaction E local_params remote_params fee_rate option_dest
                option_premium fund_lock_time fund_output_serial_id))
              (fundVout E local_params remote_params fund_output_serial_id)
              local_params.final_script_pubkey remote_params.final_script_pubkey outcomes
              cet_lock_time local_params.payout_serial_id remote_params.payout_serial_id
            refund_transaction := CreateRefundTransaction local_params.final_script_pubkey
              remote_params.final_script_pubkey local_params.collateral
              remote_params.collateral refund_locktime
              (E.GetTxid (fundTransaction E local_params remote_params fee_rate option_dest
                option_premium fund_lock_time fund_output_serial_id))
              (fundVout E local_params remote_params fund_output_serial_id) } := by
  unfold CreateDlcTransactions
  simp only [checkOutcomes_eq, GetChangeOutputAndFees_cases]
  by_cases hc : ∃ o ∈ outcomes,
      o.local_payout + o.remote_payout ≠ local_params.collateral + remote_params.collateral
  · simp only [hc, if_true]
  · by_cases hl : changeFails local_params fee_rate option_premium option_dest
    · simp only [hc, hl, if_true, if_false]
    · by_cases hr : changeFails remote_params fee_rate 0 Address.empty
      · simp only [hc, hl, hr, if_true, if_false]
      · have hl2 : ¬ local_params.input_amount <
            requiredInput local_params fee_rate option_premium option_dest :=
          fun h => hl (Or.inr h)
        have hr2 : ¬ remote_params.input_amount <
            requiredInput remote_params fee_rate 0 Address.empty :=
          fun h => hr (Or.inr h)
        have hv : local_params.input_amount + remote_params.input_amount -
            (changeOutput local_params fee_rate option_premium option_dest).value -
            (changeOutput remote_params fee_rate 0 Address.empty).value -
            fundFee local_params fee_rate option_premium option_dest -
            fundFee remote_params fee_rate 0 Address.empty - option_premium =
            local_params.collateral + remote_params.collateral +
              cetFee local_params fee_rate + cetFee remote_params fee_rate := by
          simp only [changeOutput, requiredInput] at *
          omega
        simp only [hc, hl, hr, if_false, hv, ne_eq, not_true_eq_false, fundTransaction,
          fundVout]

/-- The entry of the sorted output triple at the index resolved from the sorted serial
ids is the first record of the triple, whatever the three serial ids are. -/
theorem sorted_triple_at_fundVout (E : Collab) (f l r : TxOutputInfo) :
    (insertionSort CompareOutputSerialId [f, l, r])[findFundVout f.output_serial_id
        (stdSort E (fun a b : Nat => decide (a < b))
          [f.output_serial_id, l.output_serial_id, r.output_serial_id]) 0]? = some f := by
  simp only [stdSort, insertionSort, List.foldl_cons, List.foldl_nil, linearInsert,
    CompareOutputSerialId, List.length_cons, List.length_nil]
  by_cases h1 : l.output_serial_id < f.output_serial_id <;>
    by_cases h2 : r.output_serial_id < f.output_serial_id <;>
    by_cases h3 : r.output_serial_id < l.output_serial_id <;>
    simp only [h1, h2, h3, linearInsert, findFundVout, CompareOutputSerialId, decide_True,
      decide_False, if_true, if_false, Bool.false_eq_true] <;>
    first
      | rfl
      | (split_ifs <;> first
          | rfl
          | (exfalso; omega))

theorem stableCollab_conforms : stableCollab.SortConforms := by
  intro α key xs
  exact ⟨insertionSort_perm _ xs, insertionSort_sorted key _ (fun _ _ => rfl) xs⟩

theorem reversingCollab_conforms : reversingCollab.SortConforms := by
  intro α key xs
  exact ⟨(insertionSort_perm _ xs.reverse).trans (List.reverse_perm xs),
    insertionSort_sorted key _ (fun _ _ => rfl) xs.reverse⟩

theorem GetChangeOutputAndFees_ok_iff (params : PartyParams)
    (fee_rate option_premium : Nat) (option_dest : Address) (co : TxOut) (ff cf : Nat) :
    GetChangeOutputAndFees params fee_rate option_premium option_dest = .ok (co, ff, cf) ↔
      ¬ changeFails params fee_rate option_premium option_dest ∧
        co = changeOutput params fee_rate option_premium option_dest ∧
        ff = fundFee params fee_rate option_premium option_dest ∧
        cf = cetFee params fee_rate := by
  rw [GetChangeOutputAndFees_cases]
  by_cases h : changeFails params fee_rate option_premium option_dest
  · simp [h]
  · simp only [h, if_false, Except.ok.injEq, Prod.mk.injEq, not_false_eq_true, true_and]
    constructor
    · rintro ⟨h1, h2, h3⟩
      exact ⟨h1.symm, h2.symm, h3.symm⟩
    · rintro ⟨h1, h2, h3⟩
      exact ⟨h1.symm, h2.symm, h3.symm⟩

/-- Integer ceiling division by 4 is the ceiling of the quotient. -/
theorem ceil_quarter (weight : Nat) : ⌈(weight : ℚ) / 4⌉₊ = (weight + 3) / 4 := by
  apply le_antisymm
  · apply Nat.ceil_le.mpr
    have h1 : weight ≤ 4 * ((weight + 3) / 4) := by omega
    have h2 : (weight : ℚ) ≤ 4 * (((weight + 3) / 4 : ℕ) : ℚ) := by exact_mod_cast h1
    linarith
  · have h1 : (weight : ℚ) / 4 ≤ (⌈(weight : ℚ) / 4⌉₊ : ℚ) := Nat.le_ceil _
    have h2 : (weight : ℚ) ≤ ((4 * ⌈(weight : ℚ) / 4⌉₊ : ℕ) : ℚ) := by
      push_cast
      linarith
    have h3 : weight ≤ 4 * ⌈(weight : ℚ) / 4⌉₊ := by exact_mod_cast h2
    omega

/-- As long as the fee rate and the product fit 53 bits, `feeOfWeight` is the ceiling of
`weight / 4` times the fee rate. -/
theorem feeOfWeight_eq_ceil (weight fee_rate : Nat) (hr : fee_rate < 2 ^ 53)
    (hp : (weight + 3) / 4 * fee_rate < 2 ^ 53) :
    feeOfWeight weight fee_rate = ⌈(weight : ℚ) / 4⌉₊ * fee_rate := by
  rw [feeOfWeight_exact weight fee_rate hr hp, ceil_quarter]

/-- A fee whose weight times the fee rate fits 53 bits is the exact product, given that
the double holds the weight whenever the weight fits. -/
theorem feeOfWeight_small (w d fee_rate : Nat) (hd : w < 2 ^ 53 → d = w)
    (h : w * fee_rate < 2 ^ 53) : feeOfWeight d fee_rate = (w + 3) / 4 * fee_rate := by
  rcases Nat.eq_zero_or_pos fee_rate with h0 | hpos
  · rw [h0, feeOfWeight_zero_rate, Nat.mul_zero]
  · have hw : w < 2 ^ 53 := lt_of_le_of_lt (Nat.le_mul_of_pos_right w hpos) h
    rw [hd hw]
    rcases Nat.eq_zero_or_pos w with hw0 | hwpos
    · rw [hw0]
      unfold feeOfWeight
      rw [show (0 + 3) / 4 = 0 from rfl, Nat.zero_mul, Nat.zero_mul, roundToDouble_zero]
    · have hr : fee_rate < 2 ^ 53 := lt_of_le_of_lt (Nat.le_mul_of_pos_left fee_rate hwpos) h
      have hq : (w + 3) / 4 ≤ w := by omega
      exact feeOfWeight_exact w fee_rate hr
        (lt_of_le_of_lt (Nat.mul_le_mul_right fee_rate hq) h)

/-- A funding weight that fits 53 bits is held exactly. -/
theorem fundWeightDouble_of_lt (params : PartyParams) (option_premium : Nat)
    (option_dest : Address) (h : fundWeight params option_premium option_dest < 2 ^ 53) :
    fundWeightDouble params option_premium option_dest =
      fundWeight params option_premium option_dest := by
  unfold fundWeightDouble
  unfold fundWeight at h ⊢
  by_cases h0 : 0 < option_premium
  · simp only [h0, if_true] at h ⊢
    have e1 : roundToDouble
        ((107 + (params.inputs_info.map inputWeight).sum) % 2 ^ 32 +
          4 * params.change_script_pubkey.length + 36) =
        (107 + (params.inputs_info.map inputWeight).sum) % 2 ^ 32 +
          4 * params.change_script_pubkey.length + 36 :=
      roundToDouble_of_lt _ (by omega)
    have e2 : roundToDouble (36 + 4 * option_dest.locking_script.length) =
        36 + 4 * option_dest.locking_script.length :=
      roundToDouble_of_lt _ (by omega)
    rw [e1, e2]
    exact roundToDouble_of_lt _ (by omega)
  · simp only [h0, if_false, Nat.add_zero] at h ⊢
    exact roundToDouble_of_lt _ h

theorem foldl_cet_weight_double (l : List Script) (acc : Nat)
    (h : acc + (l.map fun s => 249 + 4 * s.length).sum < 2 ^ 53) :
    l.foldl
        (fun cet_weight s => roundToDouble (cet_weight + roundToDouble (249 + 4 * s.length)))
        acc =
      acc + (l.map fun s => 249 + 4 * s.length).sum := by
  induction l generalizing acc with
  | nil => simp
  | cons s rest ih =>
    rw [List.map_cons, List.sum_cons] at h
    rw [List.foldl_cons, roundToDouble_of_lt (249 + 4 * s.length) (by omega),
      roundToDouble_of_lt _ (by omega), ih _ (by omega), List.map_cons, List.sum_cons]
    omega

/-- An accumulated CET weight that fits 53 bits is held exactly. -/
theorem batchCetWeightDouble_of_lt (params : BatchPartyParams)
    (h : batchCetWeight params < 2 ^ 53) :
    batchCetWeightDouble params = batchCetWeight params := by
  unfold batchCetWeightDouble batchCetWeight at *
  rw [foldl_cet_weight_double _ 0 (by omega), Nat.zero_add]

/-- A successful `CreateDlcTransactions` passed all three checks and returned the
transactions built from the fees of the two parties. -/
theorem CreateDlcTransactions_ok (E : Collab) (outcomes : List DlcOutcome)
    (local_params remote_params : PartyParams) (refund_locktime fee_rate : Nat)
    (option_dest : Address)
    (option_premium fund_lock_time cet_lock_time fund_output_serial_id : Nat)
    (r : DlcTransactions)
    (h : CreateDlcTransactions E outcomes local_params remote_params refund_locktime fee_rate
        option_dest option_premium fund_lock_time cet_lock_time fund_output_serial_id =
      .ok r) :
    ¬ changeFails local_params fee_rate option_premium option_dest ∧
    ¬ changeFails remote_params fee_rate 0 Address.empty ∧
    r.fund_transaction = fundTransaction E local_params remote_params fee_rate option_dest
      option_premium fund_lock_time fund_output_serial_id ∧
    r.cets = CreateCets E (E.GetTxid r.fund_transaction)
      (fundVout E local_params remote_params fund_output_serial_id)
      local_params.final_script_pubkey remote_params.final_script_pubkey outcomes
      cet_lock_time local_params.payout_serial_id remote_params.payout_serial_id ∧
    r.refund_transaction = CreateRefundTransaction local_params.final_script_pubkey
      remote_params.final_script_pubkey local_params.collateral remote_params.collateral
      refund_locktime (E.GetTxid r.fund_transaction)
      (fundVout E local_params remote_params fund_output_serial_id) := by
  rw [CreateDlcTransactions_cases] at h
  split_ifs at h with h1 h2 h3
  simp only [Except.ok.injEq] at h
  subst h
  exact ⟨h2, h3, rfl, rfl, rfl⟩

/-- The funding output is the entry of the funding transaction at the resolved index. -/
theorem fundTransaction_at_fundVout (E : Collab) (local_params remote_params : PartyParams)
    (fee_rate : Nat) (option_dest : Address)
    (option_premium fund_lock_time fund_output_serial_id : Nat) :
    (fundTransaction E local_params remote_params fee_rate option_dest option_premium
        fund_lock_time fund_output_serial_id).txouts[fundVout E local_params remote_params
          fund_output_serial_id]? =
      some
        { value := local_params.collateral + remote_params.collateral +
            cetFee local_params fee_rate + cetFee remote_params fee_rate,
          locking_script := E.CreateP2wshLockingScript
            (E.CreateMultisigRedeemScript 2
              (GetOrderedPubkeys local_params.fund_pubkey remote_params.fund_pubkey)) } := by
  unfold fundTransaction fundVout
  rw [CreateFundTransaction_txouts]
  have hs := sorted_triple_at_fundVout E
    { script := E.CreateP2wshLockingScript
        (CreateFundTxLockingScript E local_params.fund_pubkey remote_params.fund_pubkey),
      value := local_params.collateral + remote_params.collateral +
        cetFee local_params fee_rate + cetFee remote_params fee_rate,
      output_serial_id := fund_output_serial_id }
    { script := (changeOutput local_params fee_rate option_premium option_dest).locking_script,
      value := (changeOutput local_params fee_rate option_premium option_dest).value,
      output_serial_id := local_params.change_serial_id }
    { script := (changeOutput remote_params fee_rate 0 Address.empty).locking_script,
      value := (changeOutput remote_params fee_rate 0 Address.empty).value,
      output_serial_id := remote_params.change_serial_id }
  simp only [fundOutputsInfo]
  obtain ⟨hlt, -⟩ := List.getElem?_eq_some.mp hs
  rw [List.getElem?_append_left (by rw [List.length_map]; exact hlt), List.getElem?_map, hs]
  rfl

/-- The function `CreateDlcTransactions` never throws the `Internal` error. -/
theorem CreateDlcTransactions_never_internal (E : Collab) (outcomes : List DlcOutcome)
    (local_params remote_params : PartyParams) (refund_locktime fee_rate : Nat)
    (option_dest : Address)
    (option_premium fund_lock_time cet_lock_time fund_output_serial_id : Nat) :
    CreateDlcTransactions E outcomes local_params remote_params refund_locktime fee_rate
        option_dest option_premium fund_lock_time cet_lock_time fund_output_serial_id ≠
      .error .kCfdInternalError := by
  rw [CreateDlcTransactions_cases]
  split_ifs <;> simp

/-- The outputs of the funding transaction: three outputs whose values add up to the
fund output value plus the two change values, then the premium output if there is one. -/
theorem fundTransaction_three (E : Collab) (local_params remote_params : PartyParams)
    (fee_rate : Nat) (option_dest : Address)
    (option_premium fund_lock_time fund_output_serial_id : Nat) :
    ∃ three : List TxOut, three.length = 3 ∧
      (three.map fun o => o.value).sum =
        local_params.collateral + remote_params.collateral + cetFee local_params fee_rate +
          cetFee remote_params fee_rate +
          (changeOutput local_params fee_rate option_premium option_dest).value +
          (changeOutput remote_params fee_rate 0 Address.empty).value ∧
      (fundTransaction E local_params remote_params fee_rate option_dest option_premium
          fund_lock_time fund_output_serial_id).txouts =
        three ++
          (if DUST_LIMIT ≤ option_premium then
            [{ value := option_premium, locking_script := option_dest.locking_script }]
          else []) := by
  have hperm := insertionSort_perm CompareOutputSerialId
    (fundOutputsInfo E local_params.fund_pubkey remote_params.fund_pubkey
      (local_params.collateral + remote_params.collateral + cetFee local_params fee_rate +
        cetFee remote_params fee_rate)
      (changeOutput local_params fee_rate option_premium option_dest)
      (changeOutput remote_params fee_rate 0 Address.empty)
      local_params.change_serial_id remote_params.change_serial_id fund_output_serial_id)
  refine ⟨_, ?_, ?_, CreateFundTransaction_txouts _ _ _ _ _ _ _ _ _ _ _ _ _ _⟩
  · rw [List.length_map, hperm.length_eq]
    rfl
  · rw [((hperm.map TxOutputInfo.toTxOut).map fun o => o.value).sum_eq]
    simp only [fundOutputsInfo, List.map_cons, List.map_nil, List.sum_cons, List.sum_nil,
      TxOutputInfo.toTxOut]
    omega

theorem CreateFundTransaction_version (E : Collab)
    (local_fund_pubkey remote_fund_pubkey : Pubkey) (output_amount : Nat)
    (local_inputs_info : List TxInputInfo) (local_change_output : TxOut)
    (remote_inputs_info : List TxInputInfo) (remote_change_output : TxOut)
    (option_dest : Address) (option_premium : Nat) (lock_time : Nat)
    (local_serial_id remote_serial_id output_serial_id : Nat) :
    (CreateFundTransaction E local_fund_pubkey remote_fund_pubkey output_amount
        local_inputs_info local_change_output remote_inputs_info remote_change_output
        option_dest option_premium lock_time local_serial_id remote_serial_id
        output_serial_id).version = 2 ∧
    (CreateFundTransaction E local_fund_pubkey remote_fund_pubkey output_amount
        local_inputs_info local_change_output remote_inputs_info remote_change_output
        option_dest option_premium lock_time local_serial_id remote_serial_id
        output_serial_id).lock_time = lock_time % 2 ^ 32 := by
  have hout : ∀ (l : List TxOutputInfo) (tx : TransactionController),
      (l.foldl (fun tx o => tx.AddTxOut o.script o.value) tx).version = tx.version ∧
      (l.foldl (fun tx o => tx.AddTxOut o.script o.value) tx).lock_time = tx.lock_time := by
    intro l
    induction l with
    | nil => intro tx; exact ⟨rfl, rfl⟩
    | cons o l ih => intro tx; rw [List.foldl_cons]; exact ih _
  have hin : ∀ (l : List TxIn) (tx : TransactionController),
      (l.foldl (fun tx i => tx.AddTxInScript i.txid i.vout i.unlocking_script) tx).version =
        tx.version ∧
      (l.foldl (fun tx i => tx.AddTxInScript i.txid i.vout i.unlocking_script)
        tx).lock_time = tx.lock_time := by
    intro l
    induction l with
    | nil => intro tx; exact ⟨rfl, rfl⟩
    | cons i l ih => intro tx; rw [List.foldl_cons]; exact ih _
  simp only [CreateFundTransaction]
  split_ifs <;>
    exact ⟨(hin _ _).1.trans ((hout _ _).1.trans rfl),
      (hin _ _).2.trans ((hout _ _).2.trans rfl)⟩

/-- A transaction is determined by its four components. -/
theorem TransactionController.eq_of_fields (a b : TransactionController)
    (hv : a.version = b.version) (hl : a.lock_time = b.lock_time) (hi : a.txins = b.txins)
    (ho : a.txouts = b.txouts) : a = b := by
  cases a
  cases b
  simp only [TransactionController.mk.injEq]
  exact ⟨hv, hl, hi, ho⟩

/-- The outputs of the funding transaction: three sorted outputs, then the premium output
when the premium is not dust. -/
theorem CreateFundTransaction_txouts_split (E : Collab)
    (local_fund_pubkey remote_fund_pubkey : Pubkey) (output_amount : Nat)
    (local_inputs_info : List TxInputInfo) (local_change_output : TxOut)
    (remote_inputs_info : List TxInputInfo) (remote_change_output : TxOut)
    (option_dest : Address) (option_premium : Nat) (lock_time : Nat)
    (local_serial_id remote_serial_id output_serial_id : Nat) :
    ∃ a b c : TxOut,
      (CreateFundTransaction E local_fund_pubkey remote_fund_pubkey output_amount
          local_inputs_info local_change_output remote_inputs_info remote_change_output
          option_dest option_premium lock_time local_serial_id remote_serial_id
          output_serial_id).txouts =
        [a, b, c] ++
          (if DUST_LIMIT ≤ option_premium then
            [{ value := option_premium, locking_script := option_dest.locking_script }]
          else []) := by
  have hlen : ((insertionSort CompareOutputSerialId
      (fundOutputsInfo E local_fund_pubkey remote_fund_pubkey output_amount
        local_change_output remote_change_output local_serial_id remote_serial_id
        output_serial_id)).map TxOutputInfo.toTxOut).length = 3 := by
    rw [List.length_map, (insertionSort_perm _ _).length_eq]
    rfl
  rw [CreateFundTransaction_txouts]
  generalize (insertionSort CompareOutputSerialId
      (fundOutputsInfo E local_fund_pubkey remote_fund_pubkey output_amount
        local_change_output remote_change_output local_serial_id remote_serial_id
        output_serial_id)).map TxOutputInfo.toTxOut = three at hlen ⊢
  match three, hlen with
  | [a, b, c], _ => exact ⟨a, b, c, rfl⟩

/-- A successful `CreateDlcTransactions` was given outcomes that all add up to the two
collaterals. -/
theorem CreateDlcTransactions_ok_outcomes (E : Collab) (outcomes : List DlcOutcome)
    (local_params remote_params : PartyParams) (refund_locktime fee_rate : Nat)
    (option_dest : Address)
    (option_premium fund_lock_time cet_lock_time fund_output_serial_id : Nat)
    (r : DlcTransactions)
    (h : CreateDlcTransactions E outcomes local_params remote_params refund_locktime fee_rate
        option_dest option_premium fund_lock_time cet_lock_time fund_output_serial_id =
      .ok r) :
    ∀ o ∈ outcomes,
      o.local_payout + o.remote_payout = local_params.collateral + remote_params.collateral := by
  intro o ho
  by_contra hne
  rw [CreateDlcTransactions_cases, if_pos ⟨o, ho, hne⟩] at h
  cases h

/-! ## Ordering of the fund pubkeys -/

theorem stringLess_asymm (a b : List Char) (h : stringLess a b = true) :
    stringLess b a = false := by
  induction a generalizing b with
  | nil =>
    cases b with
    | nil => simp [stringLess] at h
    | cons y ys => simp [stringLess]
  | cons x xs ih =>
    cases b with
    | nil => simp [stringLess] at h
    | cons y ys =>
      simp only [stringLess] at h ⊢
      by_cases h1 : x.toNat < y.toNat
      · have h2 : ¬ y.toNat < x.toNat := by omega
        simp only [h1, h2, if_true, if_false]
      · by_cases h2 : y.toNat < x.toNat
        · simp [h1, h2] at h
        · simp only [h1, h2, if_false] at h ⊢
          exact ih ys h

theorem stringLess_total (a b : List Char) (hab : stringLess a b = false)
    (hba : stringLess b a = false) : a = b := by
  induction a generalizing b with
  | nil =>
    cases b with
    | nil => rfl
    | cons y ys => simp [stringLess] at hab
  | cons x xs ih =>
    cases b with
    | nil => simp [stringLess] at hba
    | cons y ys =>
      simp only [stringLess] at hab hba
      by_cases h1 : x.toNat < y.toNat
      · simp [h1] at hab
      · by_cases h2 : y.toNat < x.toNat
        · simp [h2] at hba
        · simp only [h1, h2, if_false] at hab hba
          have hnat : x.toNat = y.toNat := by omega
          have hxy : x = y := Char.ext (UInt32.ext hnat)
          rw [hxy, ih ys hab hba]

/-- The ordered key list does not depend on the order of the two arguments. -/
theorem GetOrderedPubkeys_comm (a b : Pubkey) :
    GetOrderedPubkeys a b = GetOrderedPubkeys b a := by
  unfold GetOrderedPubkeys
  by_cases hab : stringLess a.hex.data b.hex.data = true
  · rw [if_pos hab, stringLess_asymm _ _ hab]
    rfl
  · by_cases hba : stringLess b.hex.data a.hex.data = true
    · rw [if_neg hab, if_pos hba]
    · have heq : a = b := by
        have hdata := stringLess_total _ _ (Bool.not_eq_true _ ▸ hab)
          (Bool.not_eq_true _ ▸ hba)
        cases a with
        | mk ha =>
          cases b with
          | mk hb =>
            simp only at hdata
            rw [String.ext hdata]
      rw [heq]

theorem CreateFundTxLockingScript_comm (E : Collab) (a b : Pubkey) :
    CreateFundTxLockingScript E a b = CreateFundTxLockingScript E b a := by
  unfold CreateFundTxLockingScript
  rw [GetOrderedPubkeys_comm]

/-! ## Sorted lists with the same elements per key -/

/-- Two lists in non-decreasing key order that agree, key by key, on the sublist of the
elements of that key are equal. -/
theorem sorted_eq_of_filter_eq {α : Type} (key : α → Nat) (s t : List α)
    (hs : s.Pairwise fun a b => key a ≤ key b) (ht : t.Pairwise fun a b => key a ≤ key b)
    (hf : ∀ k : Nat, s.filter (fun a => decide (key a = k)) =
      t.filter (fun a => decide (key a = k))) : s = t := by
  induction s generalizing t with
  | nil =>
    cases t with
    | nil => rfl
    | cons b t =>
      have h := hf (key b)
      simp [List.filter_cons] at h
  | cons a s ih =>
    cases t with
    | nil =>
      have h := hf (key a)
      simp [List.filter_cons] at h
    | cons b t =>
      obtain ⟨ha, hs2⟩ := List.pairwise_cons.mp hs
      obtain ⟨hb, ht2⟩ := List.pairwise_cons.mp ht
      have hmem_b : b ∈ a :: s := by
        have h := hf (key b)
        have hb2 : b ∈ (b :: t).filter (fun x => decide (key x = key b)) := by
          simp [List.filter_cons]
        rw [← h] at hb2
        exact (List.mem_filter.mp hb2).1
      have hmem_a : a ∈ b :: t := by
        have h := hf (key a)
        have ha2 : a ∈ (a :: s).filter (fun x => decide (key x = key a)) := by
          simp [List.filter_cons]
        rw [h] at ha2
        exact (List.mem_filter.mp ha2).1
      have hab : key a ≤ key b := by
        rcases List.mem_cons.mp hmem_b with h | h
        · rw [h]
        · exact ha b h
      have hba : key b ≤ key a := by
        rcases List.mem_cons.mp hmem_a with h | h
        · rw [h]
        · exact hb a h
      have hkey : key a = key b := Nat.le_antisymm hab hba
      have h0 := hf (key a)
      simp only [List.filter_cons, decide_True, if_true, hkey.symm] at h0
      obtain ⟨hhead, htail⟩ := List.cons.inj h0
      have hrest : ∀ k : Nat, s.filter (fun x => decide (key x = k)) =
          t.filter (fun x => decide (key x = k)) := by
        intro k
        by_cases hk : key a = k
        · rw [← hk]
          exact htail
        · have h := hf k
          have hk2 : ¬ key b = k := by rw [← hkey]; exact hk
          simpa [List.filter_cons, hk, hk2] using h
      rw [hhead, ih t hs2 ht2 hrest]

/-- With pairwise distinct keys there is at most one element of each key. -/
theorem filter_length_le_one {α : Type} (key : α → Nat) (l : List α)
    (hl : l.Pairwise fun a b => key a ≠ key b) (k : Nat) :
    (l.filter (fun a => decide (key a = k))).length ≤ 1 := by
  induction l with
  | nil => simp
  | cons a l ih =>
    obtain ⟨ha, hl2⟩ := List.pairwise_cons.mp hl
    by_cases hk : key a = k
    · have hnone : l.filter (fun x => decide (key x = k)) = [] := by
        apply List.filter_eq_nil_iff.mpr
        intro x hx
        have := ha x hx
        simp only [decide_eq_true_eq]
        omega
      simp [List.filter_cons, hk, hnone]
    · simpa [List.filter_cons, hk] using ih hl2

/-- A permutation of a list with at most one element is that list. -/
theorem perm_eq_of_length_le_one {α : Type} (l₁ l₂ : List α) (hp : l₁.Perm l₂)
    (hlen : l₂.length ≤ 1) : l₁ = l₂ := by
  match l₂, hlen with
  | [], _ => exact List.perm_nil.mp hp
  | [a], _ => exact List.perm_singleton.mp hp

theorem stdSort_perm (E : Collab) (hE : E.SortConforms) {α : Type} (key : α → Nat)
    (xs : List α) : (stdSort E (fun a b => decide (key a < key b)) xs).Perm xs := by
  unfold stdSort
  split_ifs
  · exact insertionSort_perm _ _
  · exact (hE α key xs).1

theorem stdSort_sorted (E : Collab) (hE : E.SortConforms) {α : Type} (key : α → Nat)
    (xs : List α) :
    (stdSort E (fun a b => decide (key a < key b)) xs).Pairwise
      fun a b => key a ≤ key b := by
  unfold stdSort
  split_ifs
  · exact insertionSort_sorted key _ (fun _ _ => rfl) _
  · exact (hE α key xs).2

/-- Sorting the concatenation of two lists in either order gives the same result when
the range is short and no key occurs in both lists, or when all keys are distinct. -/
theorem stdSort_append_comm (E : Collab) (hE : E.SortConforms) {α : Type} (key : α → Nat)
    (l r : List α)
    (h : (l.length + r.length ≤ 16 ∧ ∀ i ∈ l, ∀ j ∈ r, key i ≠ key j) ∨
      (l ++ r).Pairwise fun a b => key a ≠ key b) :
    stdSort E (fun a b => decide (key a < key b)) (l ++ r) =
      stdSort E (fun a b => decide (key a < key b)) (r ++ l) := by
  apply sorted_eq_of_filter_eq key _ _ (stdSort_sorted E hE key _) (stdSort_sorted E hE key _)
  intro k
  rcases h with ⟨hlen, hcross⟩ | hdist
  · have h1 : (l ++ r).length ≤ 16 := by rw [List.length_append]; exact hlen
    have h2 : (r ++ l).length ≤ 16 := by rw [List.length_append]; omega
    unfold stdSort
    rw [if_pos h1, if_pos h2, insertionSort_filter key _ (fun _ _ => rfl),
      insertionSort_filter key _ (fun _ _ => rfl), List.filter_append, List.filter_append]
    by_cases hl : l.filter (fun a => decide (key a = k)) = []
    · rw [hl, List.nil_append, List.append_nil]
    · have hr : r.filter (fun a => decide (key a = k)) = [] := by
        apply List.filter_eq_nil_iff.mpr
        intro j hj hjk
        obtain ⟨i, hi⟩ := List.exists_mem_of_ne_nil _ hl
        obtain ⟨hil, hik⟩ := List.mem_filter.mp hi
        simp only [decide_eq_true_eq] at hik hjk
        exact hcross i hil j hj (hik.trans hjk.symm)
      rw [hr, List.nil_append, List.append_nil]
  · have hlen := filter_length_le_one key (l ++ r) hdist k
    have hp1 := (stdSort_perm E hE key (l ++ r)).filter (fun a => decide (key a = k))
    have hp2 := ((stdSort_perm E hE key (r ++ l)).trans List.perm_append_comm).filter
      (fun a => decide (key a = k))
    rw [perm_eq_of_length_le_one _ _ hp1 hlen, perm_eq_of_length_le_one _ _ hp2 hlen]

/-- The sorted output triple is the same with the two change records exchanged, as long
as their serial ids differ. -/
theorem insertionSort_change_swap (f l r : TxOutputInfo)
    (h : l.output_serial_id ≠ r.output_serial_id) :
    insertionSort CompareOutputSerialId [f, l, r] =
      insertionSort CompareOutputSerialId [f, r, l] := by
  apply sorted_eq_of_filter_eq (fun o : TxOutputInfo => o.output_serial_id) _ _
    (insertionSort_sorted _ _ (fun _ _ => rfl) _) (insertionSort_sorted _ _ (fun _ _ => rfl) _)
  intro k
  rw [insertionSort_filter (fun o : TxOutputInfo => o.output_serial_id) _ (fun _ _ => rfl),
    insertionSort_filter (fun o : TxOutputInfo => o.output_serial_id) _ (fun _ _ => rfl)]
  by_cases hl : l.output_serial_id = k
  · have hr : ¬ r.output_serial_id = k := fun hr => h (hl.trans hr.symm)
    simp [List.filter_cons, hl, hr]
  · simp [List.filter_cons, hl]

/-! ## Adaptor signatures -/

theorem ComputeAdaptorPoint_eq (C : Crypto) (msgs : List ByteData256)
    (r_values : List SchnorrPubkey) (pubkey : SchnorrPubkey) :
    ComputeAdaptorPoint C msgs r_values pubkey =
      if r_values.length ≠ msgs.length then .error .kCfdIllegalArgumentError
      else .ok (adaptorPointOf C msgs r_values pubkey) := by
  unfold ComputeAdaptorPoint adaptorPointOf
  split_ifs
  · rfl
  · split <;> rfl

theorem CreateCetAdaptorSignature_eq (C : Crypto) (cet : TransactionController)
    (oracle_pubkey : SchnorrPubkey) (oracle_r_values : List SchnorrPubkey)
    (funding_sk : Privkey) (funding_script_pubkey : Script) (total_collateral : Nat)
    (msgs : List ByteData256) :
    CreateCetAdaptorSignature C cet oracle_pubkey oracle_r_values funding_sk
        funding_script_pubkey total_collateral msgs =
      if oracle_r_values.length ≠ msgs.length then .error .kCfdIllegalArgumentError
      else
        .ok (C.AdaptorSign (C.GetSignatureHash cet 0 funding_script_pubkey total_collateral)
          funding_sk (adaptorPointOf C msgs oracle_r_values oracle_pubkey)) := by
  unfold CreateCetAdaptorSignature
  rw [ComputeAdaptorPoint_eq]
  split_ifs <;> rfl

theorem VerifyCetAdaptorSignature_eq (C : Crypto) (adaptor_pair : AdaptorPair)
    (cet : TransactionController) (pubkey : Pubkey) (oracle_pubkey : SchnorrPubkey)
    (oracle_r_values : List SchnorrPubkey) (funding_script_pubkey : Script)
    (total_collateral : Nat) (msgs : List ByteData256) :
    VerifyCetAdaptorSignature C adaptor_pair cet pubkey oracle_pubkey oracle_r_values
        funding_script_pubkey total_collateral msgs =
      if oracle_r_values.length ≠ msgs.length then .error .kCfdIllegalArgumentError
      else
        .ok (C.AdaptorVerify adaptor_pair.signature adaptor_pair.proof
          (adaptorPointOf C msgs oracle_r_values oracle_pubkey)
          (C.GetSignatureHash cet 0 funding_script_pubkey total_collateral) pubkey) := by
  unfold VerifyCetAdaptorSignature
  rw [ComputeAdaptorPoint_eq]
  split_ifs <;> rfl

/-- With enough nonces, the entry for one CET is made without an error. -/
theorem createEntry_ok (C : Crypto) (oracle_pubkey : SchnorrPubkey)
    (oracle_r_values : List SchnorrPubkey) (funding_sk : Privkey)
    (funding_script_pubkey : Script) (total_collateral : Nat)
    (x : TransactionController × List ByteData256)
    (h : x.2.length ≤ oracle_r_values.length) :
    ∃ sig, createEntry C oracle_pubkey oracle_r_values funding_sk funding_script_pubkey
      total_collateral x = .ok sig := by
  unfold createEntry
  rw [CreateCetAdaptorSignature_eq]
  have hlen : (oracle_r_values.take x.2.length).length = x.2.length := by
    rw [List.length_take]
    omega
  rw [if_neg (by rw [hlen]; exact fun h => h rfl)]
  exact ⟨_, rfl⟩

/-- The loop of `CreateCetAdaptorSignatures` throws when a message list is too long. -/
theorem createCetAdaptorSignaturesLoop_long (C : Crypto) (oracle_pubkey : SchnorrPubkey)
    (oracle_r_values : List SchnorrPubkey) (funding_sk : Privkey)
    (funding_script_pubkey : Script) (total_collateral : Nat)
    (cets : List TransactionController) (msgs : List (List ByteData256))
    (hlen : cets.length = msgs.length)
    (hlong : ∃ m ∈ msgs, oracle_r_values.length < m.length) :
    createCetAdaptorSignaturesLoop C oracle_pubkey oracle_r_values funding_sk
        funding_script_pubkey total_collateral cets msgs =
      .error .kCfdIllegalArgumentError := by
  induction cets generalizing msgs with
  | nil =>
    cases msgs with
    | nil =>
      obtain ⟨m, hm, -⟩ := hlong
      cases hm
    | cons m ms => simp at hlen
  | cons cet cets ih =>
    cases msgs with
    | nil => simp at hlen
    | cons m ms =>
      unfold createCetAdaptorSignaturesLoop
      by_cases hm : oracle_r_values.length < m.length
      · rw [if_pos hm]
      · rw [if_neg hm]
        obtain ⟨sig, hsig⟩ := createEntry_ok C oracle_pubkey oracle_r_values funding_sk
          funding_script_pubkey total_collateral (cet, m) (Nat.not_lt.mp hm)
        unfold createEntry at hsig
        simp only at hsig
        have hrest : ∃ m' ∈ ms, oracle_r_values.length < m'.length := by
          obtain ⟨m', hm', hl⟩ := hlong
          rcases List.mem_cons.mp hm' with rfl | hmem
          · exact absurd hl hm
          · exact ⟨m', hmem, hl⟩
        simp only [hsig, ih ms (by simpa using hlen) hrest]

/-- The loop of `CreateCetAdaptorSignatures` returns one pair per CET, in order, when
every message list fits the nonces. -/
theorem createCetAdaptorSignaturesLoop_ok (C : Crypto) (oracle_pubkey : SchnorrPubkey)
    (oracle_r_values : List SchnorrPubkey) (funding_sk : Privkey)
    (funding_script_pubkey : Script) (total_collateral : Nat)
    (cets : List TransactionController) (msgs : List (List ByteData256))
    (hlen : cets.length = msgs.length)
    (hfit : ∀ m ∈ msgs, m.length ≤ oracle_r_values.length) :
    ∃ sigs, createCetAdaptorSignaturesLoop C oracle_pubkey oracle_r_values funding_sk
        funding_script_pubkey total_collateral cets msgs = .ok sigs ∧
      List.Forall₂
        (fun x sig => createEntry C oracle_pubkey oracle_r_values funding_sk
          funding_script_pubkey total_collateral x = .ok sig)
        (List.zip cets msgs) sigs := by
  induction cets generalizing msgs with
  | nil =>
    cases msgs with
    | nil => exact ⟨[], rfl, List.Forall₂.nil⟩
    | cons m ms => simp at hlen
  | cons cet cets ih =>
    cases msgs with
    | nil => simp at hlen
    | cons m ms =>
      have hm : ¬ oracle_r_values.length < m.length :=
        Nat.not_lt.mpr (hfit m (List.mem_cons_self _ _))
      obtain ⟨sig, hsig⟩ := createEntry_ok C oracle_pubkey oracle_r_values funding_sk
        funding_script_pubkey total_collateral (cet, m) (Nat.not_lt.mp hm)
      obtain ⟨sigs, hsigs, hall⟩ := ih ms (by simpa using hlen)
        (fun m' hm' => hfit m' (List.mem_cons_of_mem _ hm'))
      refine ⟨sig :: sigs, ?_, List.Forall₂.cons hsig hall⟩
      unfold createCetAdaptorSignaturesLoop
      unfold createEntry at hsig
      simp only at hsig
      simp only [hm, if_false, hsig, hsigs]

/-- The loop of `VerifyCetAdaptorSignatures` throws at a message list that is too long
when no entry before it has failed verification. -/
theorem verifyCetAdaptorSignaturesLoop_long (C : Crypto) (pubkey : Pubkey)
    (oracle_pubkey : SchnorrPubkey) (oracle_r_values : List SchnorrPubkey)
    (funding_script_pubkey : Script) (total_collateral : Nat)
    (cets : List TransactionController) (pairs : List AdaptorPair)
    (msgs : List (List ByteData256)) (hpairs : cets.length = pairs.length)
    (hmsgs : cets.length = msgs.length) (i : Nat) (m : List ByteData256)
    (hm : msgs[i]? = some m) (hlong : oracle_r_values.length < m.length)
    (hprev : ∀ x ∈ (List.zip cets (List.zip pairs msgs)).take i,
      verifyEntry C pubkey oracle_pubkey oracle_r_values funding_script_pubkey
        total_collateral x ≠ .ok false) :
    verifyCetAdaptorSignaturesLoop C pubkey oracle_pubkey oracle_r_values
        funding_script_pubkey total_collateral cets pairs msgs =
      .error .kCfdIllegalArgumentError := by
  induction cets generalizing pairs msgs i with
  | nil =>
    cases msgs with
    | nil => simp at hm
    | cons m0 ms => simp at hmsgs
  | cons cet cets ih =>
    cases pairs with
    | nil => simp at hpairs
    | cons pair pairs =>
      cases msgs with
      | nil => simp at hmsgs
      | cons m0 ms =>
        unfold verifyCetAdaptorSignaturesLoop
        by_cases h0 : oracle_r_values.length < m0.length
        · rw [if_pos h0]
        · rw [if_neg h0]
          cases i with
          | zero =>
            simp only [List.getElem?_cons_zero, Option.some.injEq] at hm
            rw [hm] at h0
            exact absurd hlong h0
          | succ j =>
            have hhead := hprev (cet, pair, m0) (by simp)
            unfold verifyEntry at hhead
            simp only at hhead
            rw [VerifyCetAdaptorSignature_eq] at hhead
            have hlen : (oracle_r_values.take m0.length).length = m0.length := by
              rw [List.length_take]
              omega
            rw [if_neg (by rw [hlen]; exact fun h => h rfl)] at hhead
            have hvalid : C.AdaptorVerify pair.signature pair.proof
                (adaptorPointOf C m0 (oracle_r_values.take m0.length) oracle_pubkey)
                (C.GetSignatureHash cet 0 funding_script_pubkey total_collateral) pubkey =
                true := by
              cases hv : C.AdaptorVerify pair.signature pair.proof
                (adaptorPointOf C m0 (oracle_r_values.take m0.length) oracle_pubkey)
                (C.GetSignatureHash cet 0 funding_script_pubkey total_collateral) pubkey
              · rw [hv] at hhead
                exact absurd rfl hhead
              · rfl
            simp only [VerifyCetAdaptorSignature_eq, hlen, ne_eq, not_true_eq_false, if_false,
              hvalid, if_true]
            apply ih pairs ms (by simpa using hpairs) (by simpa using hmsgs) j
            · simpa using hm
            · intro x hx
              exact hprev x (by simp [hx])

/-- An entry whose message list has more messages than there are nonces is not
verified: the check of the entry throws. -/
theorem verifyEntry_ok_not_long (C : Crypto) (pubkey : Pubkey)
    (oracle_pubkey : SchnorrPubkey) (oracle_r_values : List SchnorrPubkey)
    (funding_script_pubkey : Script) (total_collateral : Nat)
    (x : TransactionController × AdaptorPair × List ByteData256) (b : Bool)
    (h : verifyEntry C pubkey oracle_pubkey oracle_r_values funding_script_pubkey
      total_collateral x = .ok b) : ¬ oracle_r_values.length < x.2.2.length := by
  intro hlong
  unfold verifyEntry at h
  rw [VerifyCetAdaptorSignature_eq] at h
  have hlen : (oracle_r_values.take x.2.2.length).length ≠ x.2.2.length := by
    rw [List.length_take]
    omega
  rw [if_pos hlen] at h
  cases h

/-- The loop of `VerifyCetAdaptorSignatures` returns `false` at the first entry that
does not verify, whatever stands behind it. -/
theorem verifyCetAdaptorSignaturesLoop_false (C : Crypto) (pubkey : Pubkey)
    (oracle_pubkey : SchnorrPubkey) (oracle_r_values : List SchnorrPubkey)
    (funding_script_pubkey : Script) (total_collateral : Nat)
    (cets : List TransactionController) (pairs : List AdaptorPair)
    (msgs : List (List ByteData256)) (i : Nat)
    (x : TransactionController × AdaptorPair × List ByteData256)
    (hx : (List.zip cets (List.zip pairs msgs))[i]? = some x)
    (hfalse : verifyEntry C pubkey oracle_pubkey oracle_r_values funding_script_pubkey
      total_collateral x = .ok false)
    (hprev : ∀ y ∈ (List.zip cets (List.zip pairs msgs)).take i,
      verifyEntry C pubkey oracle_pubkey oracle_r_values funding_script_pubkey
        total_collateral y = .ok true) :
    verifyCetAdaptorSignaturesLoop C pubkey oracle_pubkey oracle_r_values
        funding_script_pubkey total_collateral cets pairs msgs = .ok false := by
  induction cets generalizing pairs msgs i with
  | nil => simp at hx
  | cons cet cets ih =>
    cases pairs with
    | nil => simp at hx
    | cons pair pairs =>
      cases msgs with
      | nil => simp at hx
      | cons m0 ms =>
        unfold verifyCetAdaptorSignaturesLoop
        cases i with
        | zero =>
          simp only [List.zip_cons_cons, List.getElem?_cons_zero, Option.some.injEq] at hx
          subst hx
          have h0 := verifyEntry_ok_not_long C pubkey oracle_pubkey oracle_r_values
            funding_script_pubkey total_collateral _ _ hfalse
          rw [if_neg h0]
          unfold verifyEntry at hfalse
          simp only at hfalse ⊢
          rw [hfalse]
          rfl
        | succ j =>
          have hhead := hprev (cet, pair, m0) (by simp)
          have h0 := verifyEntry_ok_not_long C pubkey oracle_pubkey oracle_r_values
            funding_script_pubkey total_collateral _ _ hhead
          rw [if_neg h0]
          unfold verifyEntry at hhead
          simp only at hhead ⊢
          rw [hhead]
          simp only [if_true]
          apply ih pairs ms j
          · simpa using hx
          · intro y hy
            exact hprev y (by simp [hy])

/-- Every pair the loop of `CreateCetAdaptorSignatures` returns is the entry of the CET
and message list at the same position. -/
theorem createCetAdaptorSignaturesLoop_entries (C : Crypto) (oracle_pubkey : SchnorrPubkey)
    (oracle_r_values : List SchnorrPubkey) (funding_sk : Privkey)
    (funding_script_pubkey : Script) (total_collateral : Nat)
    (cets : List TransactionController) (msgs : List (List ByteData256))
    (sigs : List AdaptorPair)
    (h : createCetAdaptorSignaturesLoop C oracle_pubkey oracle_r_values funding_sk
      funding_script_pubkey total_collateral cets msgs = .ok sigs) :
    List.Forall₂
      (fun x sig => createEntry C oracle_pubkey oracle_r_values funding_sk
        funding_script_pubkey total_collateral x = .ok sig)
      (List.zip cets msgs) sigs := by
  induction cets generalizing msgs sigs with
  | nil =>
    unfold createCetAdaptorSignaturesLoop at h
    cases Except.ok.inj h
    exact List.Forall₂.nil
  | cons cet cets ih =>
    cases msgs with
    | nil =>
      unfold createCetAdaptorSignaturesLoop at h
      cases Except.ok.inj h
      exact List.Forall₂.nil
    | cons m ms =>
      unfold createCetAdaptorSignaturesLoop at h
      by_cases hm : oracle_r_values.length < m.length
      · rw [if_pos hm] at h
        cases h
      · rw [if_neg hm] at h
        simp only at h
        cases hsig : CreateCetAdaptorSignature C cet oracle_pubkey
            (oracle_r_values.take m.length) funding_sk funding_script_pubkey
            total_collateral m with
        | error e =>
          rw [hsig] at h
          cases h
        | ok sig =>
          rw [hsig] at h
          cases hrest : createCetAdaptorSignaturesLoop C oracle_pubkey oracle_r_values
              funding_sk funding_script_pubkey total_collateral cets ms with
          | error e =>
            rw [hrest] at h
            cases h
          | ok rest =>
            rw [hrest] at h
            cases Except.ok.inj h
            exact List.Forall₂.cons hsig (ih ms rest hrest)

/-- The loop of `VerifyCetAdaptorSignatures` returns `true` exactly when every entry it
can pair up verifies. -/
theorem verifyCetAdaptorSignaturesLoop_true_iff (C : Crypto) (pubkey : Pubkey)
    (oracle_pubkey : SchnorrPubkey) (oracle_r_values : List SchnorrPubkey)
    (funding_script_pubkey : Script) (total_collateral : Nat)
    (cets : List TransactionController) (pairs : List AdaptorPair)
    (msgs : List (List ByteData256)) :
    verifyCetAdaptorSignaturesLoop C pubkey oracle_pubkey oracle_r_values
        funding_script_pubkey total_collateral cets pairs msgs = .ok true ↔
      ∀ x ∈ List.zip cets (List.zip pairs msgs),
        verifyEntry C pubkey oracle_pubkey oracle_r_values funding_script_pubkey
          total_collateral x = .ok true := by
  induction cets generalizing pairs msgs with
  | nil =>
    unfold verifyCetAdaptorSignaturesLoop
    simp
  | cons cet cets ih =>
    cases pairs with
    | nil =>
      unfold verifyCetAdaptorSignaturesLoop
      simp
    | cons pair pairs =>
      cases msgs with
      | nil =>
        unfold verifyCetAdaptorSignaturesLoop
        simp
      | cons m ms =>
        unfold verifyCetAdaptorSignaturesLoop
        simp only [List.zip_cons_cons, List.forall_mem_cons]
        rw [← ih pairs ms]
        unfold verifyEntry
        simp only
        by_cases hm : oracle_r_values.length < m.length
        · rw [if_pos hm, VerifyCetAdaptorSignature_eq]
          have hlen : (oracle_r_values.take m.length).length ≠ m.length := by
            rw [List.length_take]
            omega
          rw [if_pos hlen]
          constructor
          · intro h
            cases h
          · intro h
            cases h.1
        · rw [if_neg hm]
          cases hv : VerifyCetAdaptorSignature C pair cet pubkey oracle_pubkey
              (oracle_r_values.take m.length) funding_script_pubkey total_collateral m with
          | error e =>
            simp only
            constructor
            · intro h
              cases h
            · intro h
              cases h.1
          | ok valid =>
            cases valid with
            | false =>
              simp only [Bool.false_eq_true, if_false]
              constructor
              · intro h
                cases Except.ok.inj h
              · intro h
                cases Except.ok.inj h.1
            | true =>
              simp only [if_true, true_and]

/-- The pairs the loop of `CreateCetAdaptorSignatures` returns: every message list fits
the oracle nonces, and the pair of each CET is what `AdaptorSign` makes with the funding
key from the signature hash of that CET and the adaptor point of its messages and the
first nonces. -/
theorem createCetAdaptorSignaturesLoop_signs (C : Crypto) (oracle_pubkey : SchnorrPubkey)
    (oracle_r_values : List SchnorrPubkey) (funding_sk : Privkey)
    (funding_script_pubkey : Script) (total_collateral : Nat)
    (cets : List TransactionController) (msgs : List (List ByteData256))
    (sigs : List AdaptorPair)
    (h : createCetAdaptorSignaturesLoop C oracle_pubkey oracle_r_values funding_sk
      funding_script_pubkey total_collateral cets msgs = .ok sigs) :
    (∀ x ∈ List.zip cets msgs, x.2.length ≤ oracle_r_values.length) ∧
    List.Forall₂
      (fun (x : TransactionController × List ByteData256) sig =>
        sig = C.AdaptorSign
          (C.GetSignatureHash x.1 0 funding_script_pubkey total_collateral) funding_sk
          (adaptorPointOf C x.2 (oracle_r_values.take x.2.length) oracle_pubkey))
      (List.zip cets msgs) sigs := by
  induction cets generalizing msgs sigs with
  | nil =>
    unfold createCetAdaptorSignaturesLoop at h
    cases Except.ok.inj h
    exact ⟨by simp, by simp⟩
  | cons cet cets ih =>
    cases msgs with
    | nil =>
      unfold createCetAdaptorSignaturesLoop at h
      cases Except.ok.inj h
      exact ⟨by simp, by simp⟩
    | cons m msgs =>
      unfold createCetAdaptorSignaturesLoop at h
      by_cases hm : oracle_r_values.length < m.length
      · rw [if_pos hm] at h
        cases h
      · rw [if_neg hm] at h
        simp only [CreateCetAdaptorSignature_eq] at h
        have hl : (oracle_r_values.take m.length).length = m.length := by
          rw [List.length_take]
          omega
        rw [if_neg (fun hne => hne hl)] at h
        simp only at h
        cases hrest : createCetAdaptorSignaturesLoop C oracle_pubkey oracle_r_values
            funding_sk funding_script_pubkey total_collateral cets msgs with
        | error e =>
          rw [hrest] at h
          cases h
        | ok rest =>
          rw [hrest] at h
          cases Except.ok.inj h
          obtain ⟨h1, h2⟩ := ih msgs rest hrest
          refine ⟨?_, ?_⟩
          · intro x hx
            rw [List.zip_cons_cons, List.mem_cons] at hx
            rcases hx with rfl | hx
            · exact Nat.le_of_not_lt hm
            · exact h1 x hx
          · rw [List.zip_cons_cons]
            exact List.Forall₂.cons rfl h2

/-- The loop of `VerifyCetAdaptorSignatures` on message lists that fit the oracle nonces
returns the conjunction, over the positions, of what `AdaptorVerify` answers on the pair
of the position, the adaptor point of its messages and the first nonces, the signature
hash of its CET, and the public key. -/
theorem verifyCetAdaptorSignaturesLoop_all (C : Crypto) (pubkey : Pubkey)
    (oracle_pubkey : SchnorrPubkey) (oracle_r_values : List SchnorrPubkey)
    (funding_script_pubkey : Script) (total_collateral : Nat)
    (cets : List TransactionController) (pairs : List AdaptorPair)
    (msgs : List (List ByteData256))
    (hfit : ∀ x ∈ List.zip cets msgs, x.2.length ≤ oracle_r_values.length)
    (hlen : pairs.length = cets.length) :
    verifyCetAdaptorSignaturesLoop C pubkey oracle_pubkey oracle_r_values
        funding_script_pubkey total_collateral cets pairs msgs =
      .ok ((List.zip (List.zip cets msgs) pairs).all fun x =>
        C.AdaptorVerify x.2.signature x.2.proof
          (adaptorPointOf C x.1.2 (oracle_r_values.take x.1.2.length) oracle_pubkey)
          (C.GetSignatureHash x.1.1 0 funding_script_pubkey total_collateral) pubkey) := by
  induction cets generalizing pairs msgs with
  | nil =>
    unfold verifyCetAdaptorSignaturesLoop
    simp
  | cons cet cets ih =>
    cases pairs with
    | nil => simp at hlen
    | cons pair pairs =>
      cases msgs with
      | nil =>
        unfold verifyCetAdaptorSignaturesLoop
        simp
      | cons m msgs =>
        unfold verifyCetAdaptorSignaturesLoop
        have hm : m.length ≤ oracle_r_values.length :=
          hfit (cet, m) (by rw [List.zip_cons_cons]; exact List.mem_cons_self _ _)
        rw [if_neg (Nat.not_lt.mpr hm)]
        simp only [VerifyCetAdaptorSignature_eq]
        have hl : (oracle_r_values.take m.length).length = m.length := by
          rw [List.length_take]
          omega
        rw [if_neg (fun hne => hne hl)]
        simp only
        have hrest := ih pairs msgs
          (fun x hx => hfit x (by rw [List.zip_cons_cons]; exact List.mem_cons_of_mem _ hx))
          (by simpa using hlen)
        rw [hrest]
        simp only [List.zip_cons_cons, List.all_cons]
        cases C.AdaptorVerify pair.signature pair.proof
          (adaptorPointOf C m (oracle_r_values.take m.length) oracle_pubkey)
          (C.GetSignatureHash cet 0 funding_script_pubkey total_collateral) pubkey <;> simp

/-- When `AdaptorVerify` accepts what `AdaptorSign` makes, the pairs the loop of
`CreateCetAdaptorSignatures` returns pass the loop of `VerifyCetAdaptorSignatures`. -/
theorem verifyCetAdaptorSignaturesLoop_of_create (C : Crypto) (S : Signer)
    (hlaw : ∀ (h : ByteData256) (sk : Privkey) (T : Pubkey),
      C.AdaptorVerify (C.AdaptorSign h sk T).signature (C.AdaptorSign h sk T).proof T h
        (S.GeneratePubkey sk) = true)
    (oracle_pubkey : SchnorrPubkey) (oracle_r_values : List SchnorrPubkey)
    (funding_sk : Privkey) (funding_script_pubkey : Script) (total_collateral : Nat)
    (cets : List TransactionController) (msgs : List (List ByteData256))
    (sigs : List AdaptorPair)
    (h : createCetAdaptorSignaturesLoop C oracle_pubkey oracle_r_values funding_sk
      funding_script_pubkey total_collateral cets msgs = .ok sigs) :
    verifyCetAdaptorSignaturesLoop C (S.GeneratePubkey funding_sk) oracle_pubkey
      oracle_r_values funding_script_pubkey total_collateral cets sigs msgs = .ok true := by
  induction cets generalizing msgs sigs with
  | nil =>
    unfold verifyCetAdaptorSignaturesLoop
    rfl
  | cons cet cets ih =>
    cases msgs with
    | nil =>
      unfold createCetAdaptorSignaturesLoop at h
      cases Except.ok.inj h
      unfold verifyCetAdaptorSignaturesLoop
      rfl
    | cons m ms =>
      unfold createCetAdaptorSignaturesLoop at h
      by_cases hm : oracle_r_values.length < m.length
      · rw [if_pos hm] at h
        cases h
      · rw [if_neg hm] at h
        simp only at h
        have hlen : (oracle_r_values.take m.length).length = m.length := by
          rw [List.length_take]
          omega
        rw [CreateCetAdaptorSignature_eq, if_neg (by rw [hlen]; exact fun h => h rfl)] at h
        simp only at h
        cases hrest : createCetAdaptorSignaturesLoop C oracle_pubkey oracle_r_values
            funding_sk funding_script_pubkey total_collateral cets ms with
        | error e =>
          rw [hrest] at h
          cases h
        | ok rest =>
          rw [hrest] at h
          cases Except.ok.inj h
          unfold verifyCetAdaptorSignaturesLoop
          rw [if_neg hm]
          simp only [VerifyCetAdaptorSignature_eq, hlen, ne_eq, not_true_eq_false, if_false,
            hlaw, if_true]
          exact ih ms rest hrest

/-! ## Signing -/

/-- Without an oracle signature `SignCet` throws a `CfdException` of kind
`IllegalArgument`. -/
theorem SignCet_no_signature (C : Crypto) (S : Signer) (cet : WitnessedTransaction)
    (adaptor_sig : AdaptorSignature) (funding_sk : Privkey) (funding_script_pubkey : Script)
    (fund_tx_id : Txid) (fund_vout : Nat) (fund_amount : Nat) :
    SignCet C S cet adaptor_sig [] funding_sk funding_script_pubkey fund_tx_id fund_vout
      fund_amount = .error (.exception .kCfdIllegalArgumentError) := rfl

/-- With a funding key that is neither of the two keys of the script, `SignCet` runs
`throw new CfdException(...)`. -/
theorem SignCet_foreign_key (C : Crypto) (S : Signer) (cet : WitnessedTransaction)
    (adaptor_sig : AdaptorSignature) (first : SchnorrSignature)
    (rest : List SchnorrSignature) (funding_sk : Privkey) (funding_script_pubkey : Script)
    (fund_tx_id : Txid) (fund_vout : Nat) (fund_amount : Nat)
    (first_pubkey second_pubkey : Pubkey)
    (hkeys : S.ExtractPubkeysFromMultisigScript funding_script_pubkey =
      [first_pubkey, second_pubkey])
    (h0 : S.GeneratePubkey funding_sk ≠ first_pubkey)
    (h1 : S.GeneratePubkey funding_sk ≠ second_pubkey) :
    SignCet C S cet adaptor_sig (first :: rest) funding_sk funding_script_pubkey fund_tx_id
      fund_vout fund_amount = .error (.exceptionPointer .kCfdIllegalArgumentError) := by
  unfold SignCet
  simp only [hkeys, List.getElem?_cons_zero, List.getElem?_cons_succ]
  rw [if_neg h0, if_neg h1]

/-- In a group in which `CreateTweakAdd` adds scalars, the point of the accumulator the
loop of `SignCet` ends with is the point of the accumulator it starts with plus the
points of the scalars it folds in. -/
theorem foldl_CreateTweakAdd_smul (S : Signer) {G : Type} [AddCommGroup G] (g : G)
    (scalar : Privkey → ℤ)
    (htweak : ∀ a b, scalar (S.CreateTweakAdd a b) • g = (scalar a + scalar b) • g)
    (rest : List SchnorrSignature) (acc : Privkey) :
    scalar (rest.foldl (fun adaptor_secret sig =>
        S.CreateTweakAdd adaptor_secret sig.privkey) acc) • g =
      scalar acc • g + (rest.map fun sig => scalar sig.privkey • g).sum := by
  induction rest generalizing acc with
  | nil => simp
  | cons s t ih =>
    rw [List.foldl_cons, ih, htweak, add_smul, List.map_cons, List.sum_cons, add_assoc]

/-- Signatures that are related one by one to the points of message and nonce pairs add
up to the sum of these points. -/
theorem sum_smul_of_forall2 (C : Crypto) {G : Type} [AddCommGroup G] (g : G)
    (point : Pubkey → G) (scalar : Privkey → ℤ) (oracle_pubkey : SchnorrPubkey)
    (xs : List (ByteData256 × SchnorrPubkey)) (sigs : List SchnorrSignature)
    (h : List.Forall₂
      (fun (x : ByteData256 × SchnorrPubkey) (sig : SchnorrSignature) =>
        sig.nonce = x.2 ∧
          scalar sig.privkey • g = point (C.ComputeSigPoint x.1 x.2 oracle_pubkey))
      xs sigs) :
    (sigs.map fun sig => scalar sig.privkey • g).sum =
      (xs.map fun x => point (C.ComputeSigPoint x.1 x.2 oracle_pubkey)).sum := by
  induction h with
  | nil => rfl
  | cons hx _ ih => rw [List.map_cons, List.sum_cons, List.map_cons, List.sum_cons, hx.2, ih]

/-! ## Batch -/

theorem elemAt_ok_iff {α : Type} (v : List α) (i : Nat) (a : α) :
    elemAt v i = .ok a ↔ v[i]? = some a := by
  unfold elemAt
  cases h : v[i]? with
  | none =>
    simp only
    constructor
    · intro h2
      cases h2
    · intro h2
      cases h2
  | some b =>
    simp only [Option.some.injEq]
    constructor
    · intro h2
      exact Except.ok.inj h2
    · intro h2
      rw [h2]

theorem elemAt_of_lt {α : Type} (v : List α) (i : Nat) (h : i < v.length) :
    elemAt v i = .ok (v.get ⟨i, h⟩) := by
  rw [elemAt_ok_iff]
  exact List.getElem?_eq_getElem h

theorem elemAt_of_le {α : Type} (v : List α) (i : Nat) (h : v.length ≤ i) :
    elemAt v i = .error .undefined := by
  unfold elemAt
  rw [List.getElem?_eq_none h]

/-- The loop returns a list exactly when the body returns its elements, index by index. -/
theorem forEachIndex_ok_iff {α : Type} (body : Nat → Except Abort α) (is : List Nat)
    (xs : List α) :
    forEachIndex body is = .ok xs ↔ List.Forall₂ (fun i x => body i = .ok x) is xs := by
  induction is generalizing xs with
  | nil =>
    unfold forEachIndex
    constructor
    · intro h
      cases Except.ok.inj h
      exact List.Forall₂.nil
    · intro h
      cases h
      rfl
  | cons i rest ih =>
    unfold forEachIndex
    cases hb : body i with
    | error e =>
      simp only
      constructor
      · intro h
        cases h
      · intro h
        cases h with
        | cons h1 _ =>
          rw [hb] at h1
          cases h1
    | ok a =>
      simp only
      cases hr : forEachIndex body rest with
      | error e =>
        simp only
        constructor
        · intro h
          cases h
        · intro h
          cases h with
          | cons h1 h2 =>
            rw [(ih _).mpr h2] at hr
            cases hr
      | ok as =>
        simp only
        constructor
        · intro h
          cases Except.ok.inj h
          exact List.Forall₂.cons hb ((ih as).mp hr)
        · intro h
          cases h with
          | cons h1 h2 =>
            rw [hb] at h1
            cases Except.ok.inj h1
            rw [(ih _).mpr h2] at hr
            cases Except.ok.inj hr
            rfl

/-- A loop over `0 .. n - 1` that returns has run its body at every index below `n`. -/
theorem forEachIndex_range_ok {α : Type} (body : Nat → Except Abort α) (n : Nat)
    (xs : List α) (h : forEachIndex body (List.range n) = .ok xs) :
    xs.length = n ∧ ∀ i x, xs[i]? = some x → body i = .ok x := by
  rw [forEachIndex_ok_iff, List.forall₂_iff_get] at h
  obtain ⟨hlen, hall⟩ := h
  rw [List.length_range] at hlen
  refine ⟨hlen.symm, fun i x hx => ?_⟩
  obtain ⟨hi, hxi⟩ := List.getElem?_eq_some_iff.mp hx
  have := hall i (by rw [List.length_range]; omega) hi
  simp only [List.get_eq_getElem, List.getElem_range] at this
  rw [this, hxi]

theorem foldl_add_eq_sum (l : List Nat) (acc : Nat) :
    l.foldl (fun a b => a + b) acc = acc + l.sum := by
  induction l generalizing acc with
  | nil => simp
  | cons x xs ih =>
    rw [List.foldl_cons, ih, List.sum_cons]
    omega

theorem foldl_cet_weight (l : List Script) (acc : Nat) :
    l.foldl (fun cet_weight final_script_pubkey =>
        cet_weight + (CET_BASE_WEIGHT / 2 + final_script_pubkey.length * 4)) acc =
      acc + (l.map fun s => 249 + 4 * s.length).sum := by
  induction l generalizing acc with
  | nil => simp
  | cons x xs ih =>
    rw [List.foldl_cons, ih, List.map_cons, List.sum_cons]
    simp only [CET_BASE_WEIGHT]
    omega

theorem foldl_AddTxOut_version (l : List TxOutputInfo) (tx : TransactionController) :
    (l.foldl (fun tx o => tx.AddTxOut o.script o.value) tx).version = tx.version ∧
    (l.foldl (fun tx o => tx.AddTxOut o.script o.value) tx).lock_time = tx.lock_time := by
  induction l generalizing tx with
  | nil => exact ⟨rfl, rfl⟩
  | cons o l ih =>
    rw [List.foldl_cons]
    exact ih _

theorem foldl_AddTxInScript_version (l : List TxIn) (tx : TransactionController) :
    (l.foldl (fun tx i => tx.AddTxInScript i.txid i.vout i.unlocking_script) tx).version =
      tx.version ∧
    (l.foldl (fun tx i => tx.AddTxInScript i.txid i.vout i.unlocking_script) tx).lock_time =
      tx.lock_time := by
  induction l generalizing tx with
  | nil => exact ⟨rfl, rfl⟩
  | cons i l ih =>
    rw [List.foldl_cons]
    exact ih _

/-- The result of `GetBatchChangeOutputAndFees`, and when it throws. -/
theorem GetBatchChangeOutputAndFees_eq (params : BatchPartyParams) (fee_rate : Nat) :
    GetBatchChangeOutputAndFees params fee_rate =
      if params.input_amount < batchRequiredInput params fee_rate then
        .error .kCfdIllegalArgumentError
      else
        .ok (batchChangeOutput params fee_rate, batchFundFee params fee_rate,
          batchCetFee params fee_rate) := by
  have hw : (BATCH_FUND_TX_BASE_WEIGHT + FUNDING_OUTPUT_SIZE * params.fund_pubkeys.length * 4) /
      2 + GetInputsWeight params.inputs_info + params.change_script_pubkey.length * 4 + 36 =
      batchFundWeight params := by
    rw [GetInputsWeight_eq]
    simp only [BATCH_FUND_TX_BASE_WEIGHT, FUNDING_OUTPUT_SIZE, batchFundWeight]
    omega
  have hf : (fun (cet_weight : Nat) (final_script_pubkey : Script) =>
      roundToDouble
        (cet_weight + roundToDouble (CET_BASE_WEIGHT / 2 + final_script_pubkey.length * 4))) =
      fun cet_weight s => roundToDouble (cet_weight + roundToDouble (249 + 4 * s.length)) := by
    funext cet_weight s
    have h249 : CET_BASE_WEIGHT / 2 + s.length * 4 = 249 + 4 * s.length := by
      simp only [CET_BASE_WEIGHT]
      omega
    rw [h249]
  have hc : params.final_script_pubkeys.foldl
      (fun cet_weight final_script_pubkey =>
        roundToDouble
          (cet_weight +
            roundToDouble (CET_BASE_WEIGHT / 2 + final_script_pubkey.length * 4))) 0 =
      batchCetWeightDouble params := by
    rw [hf]
    rfl
  have hs : params.collaterals.foldl (fun a b => a + b) 0 = params.collaterals.sum := by
    rw [foldl_add_eq_sum, Nat.zero_add]
  unfold GetBatchChangeOutputAndFees
  simp only [hw, hc, hs]
  rfl

/-- What a successful `CreateBatchFundTransaction` has checked and built. -/
theorem CreateBatchFundTransaction_ok (E : Collab)
    (local_fund_pubkeys remote_fund_pubkeys : List Pubkey) (output_amounts : List Nat)
    (local_inputs_info : List TxInputInfo) (local_change_output : TxOut)
    (remote_inputs_info : List TxInputInfo) (remote_change_output : TxOut) (lock_time : Nat)
    (local_serial_id remote_serial_id : Nat) (output_serial_ids : List Nat)
    (tx : TransactionController)
    (h : CreateBatchFundTransaction E local_fund_pubkeys remote_fund_pubkeys output_amounts
      local_inputs_info local_change_output remote_inputs_info remote_change_output
      lock_time local_serial_id remote_serial_id output_serial_ids = .ok tx) :
    local_fund_pubkeys.length = remote_fund_pubkeys.length ∧
    local_fund_pubkeys.length = output_amounts.length ∧
    ∃ outputs_info,
      forEachIndex
        (batchFundOutputInfo E local_fund_pubkeys remote_fund_pubkeys output_amounts
          output_serial_ids)
        (List.range local_fund_pubkeys.length) = .ok outputs_info ∧
      tx.txouts =
        (stdSort E CompareOutputSerialId
          (outputs_info ++
            [{ script := local_change_output.locking_script,
               value := local_change_output.value, output_serial_id := local_serial_id },
             { script := remote_change_output.locking_script,
               value := remote_change_output.value,
               output_serial_id := remote_serial_id }])).map TxOutputInfo.toTxOut ∧
      tx.txins =
        (stdSort E CompareSerialId (local_inputs_info ++ remote_inputs_info)).map
          (fun i => i.input) ∧
      tx.version = 2 ∧ tx.lock_time = lock_time % 2 ^ 32 := by
  unfold CreateBatchFundTransaction at h
  by_cases hlen : local_fund_pubkeys.length ≠ remote_fund_pubkeys.length ∨
      local_fund_pubkeys.length ≠ output_amounts.length
  · rw [if_pos hlen] at h
    cases h
  · rw [if_neg hlen] at h
    have h1 : local_fund_pubkeys.length = remote_fund_pubkeys.length := by
      by_contra hne
      exact hlen (Or.inl hne)
    have h2 : local_fund_pubkeys.length = output_amounts.length := by
      by_contra hne
      exact hlen (Or.inr hne)
    refine ⟨h1, h2, ?_⟩
    cases hloop : forEachIndex
        (batchFundOutputInfo E local_fund_pubkeys remote_fund_pubkeys output_amounts
          output_serial_ids)
        (List.range local_fund_pubkeys.length) with
    | error e =>
      simp only [hloop] at h
      cases h
    | ok outputs_info =>
      simp only [hloop] at h
      cases Except.ok.inj h
      refine ⟨outputs_info, rfl, ?_, ?_, ?_, ?_⟩
      · simp only [foldl_AddTxInScript_txouts, foldl_AddTxOut_txouts,
          TransactionController.create, List.nil_append]
      · simp only [foldl_AddTxInScript_txins, foldl_AddTxOut_txins,
          TransactionController.create, List.nil_append]
      · exact (foldl_AddTxInScript_version _ _).1.trans ((foldl_AddTxOut_version _ _).1.trans rfl)
      · exact (foldl_AddTxInScript_version _ _).2.trans ((foldl_AddTxOut_version _ _).2.trans rfl)

/-- Function `CreateBatchDlcTransactions` as a chain of its checks. -/
theorem CreateBatchDlcTransactions_eq (E : Collab) (outcomes_list : List (List DlcOutcome))
    (local_params remote_params : BatchPartyParams) (refund_locktimes : List Nat)
    (fee_rate fund_lock_time cet_lock_time : Nat) (fund_output_serial_ids : List Nat) :
    CreateBatchDlcTransactions E outcomes_list local_params remote_params refund_locktimes
        fee_rate fund_lock_time cet_lock_time fund_output_serial_ids =
      if outcomes_list.length ≠ local_params.fund_pubkeys.length ∨
          outcomes_list.length ≠ remote_params.fund_pubkeys.length then
        .error (.exception .kCfdIllegalArgumentError)
      else
        match forEachIndex
            (batchCheckOutcomes outcomes_list local_params.collaterals
              remote_params.collaterals)
            (List.range outcomes_list.length) with
        | .error e => .error e
        | .ok _ =>
          if local_params.input_amount < batchRequiredInput local_params fee_rate then
            .error (.exception .kCfdIllegalArgumentError)
          else if remote_params.input_amount < batchRequiredInput remote_params fee_rate then
            .error (.exception .kCfdIllegalArgumentError)
          else if outcomes_list.length = 0 ∧ local_params.collaterals ≠ [] then
            .error .undefined
          else
            match forEachIndex
                (batchFundOutputValue local_params.collaterals remote_params.collaterals
                  (ceilDiv (batchCetFee local_params fee_rate) outcomes_list.length)
                  (ceilDiv (batchCetFee remote_params fee_rate) outcomes_list.length))
                (List.range local_params.collaterals.length) with
            | .error e => .error e
            | .ok fund_output_values =>
              if 20 < Int.natAbs
                  (((local_params.collaterals.sum + remote_params.collaterals.sum +
                      batchCetFee local_params fee_rate +
                      batchCetFee remote_params fee_rate : Nat) : Int) -
                    ((fund_output_values.sum : Nat) : Int)) then
                .error (.exception .kCfdInternalError)
              else
                match CreateBatchFundTransaction E local_params.fund_pubkeys
                    remote_params.fund_pubkeys fund_output_values local_params.inputs_info
                    (batchChangeOutput local_params fee_rate) remote_params.inputs_info
                    (batchChangeOutput remote_params fee_rate) fund_lock_time
                    local_params.change_serial_id remote_params.change_serial_id
                    fund_output_serial_ids with
                | .error e => .error e
                | .ok fund_tx =>
                  match forEachIndex
                      (batchContract E outcomes_list local_params remote_params
                        refund_locktimes cet_lock_time (E.GetTxid fund_tx)
                        (batchFundVouts E local_params remote_params fund_output_serial_ids
                          fund_output_values.length))
                      (List.range (batchFundVouts E local_params remote_params
                        fund_output_serial_ids fund_output_values.length).length) with
                  | .error e => .error e
                  | .ok contracts =>
                    .ok
                      { fund_transaction := fund_tx
                        cets_list := contracts.map fun c => c.1
                        refund_transactions := contracts.map fun c => c.2 } := by
  unfold CreateBatchDlcTransactions
  simp only [GetBatchChangeOutputAndFees_eq, foldl_add_eq_sum, Nat.zero_add, batchFundVouts,
    bind, Except.bind, pure, Except.pure]
  by_cases h1 : outcomes_list.length ≠ local_params.fund_pubkeys.length ∨
      outcomes_list.length ≠ remote_params.fund_pubkeys.length
  · simp only [h1, if_true]
  · simp only [h1, if_false]
    cases forEachIndex
        (batchCheckOutcomes outcomes_list local_params.collaterals remote_params.collaterals)
        (List.range outcomes_list.length) with
    | error e => rfl
    | ok u =>
      simp only
      by_cases hl : local_params.input_amount < batchRequiredInput local_params fee_rate
      · simp only [hl, if_true, liftCfd]
      · by_cases hr : remote_params.input_amount < batchRequiredInput remote_params fee_rate
        · simp only [hl, hr, if_true, if_false, liftCfd]
        · simp only [hl, hr, if_false, liftCfd]
          by_cases h2 : outcomes_list.length = 0 ∧ local_params.collaterals ≠ []
          · simp only [if_pos h2]
          · simp only [if_neg h2]
            cases forEachIndex
                (batchFundOutputValue local_params.collaterals remote_params.collaterals
                  (ceilDiv (batchCetFee local_params fee_rate) outcomes_list.length)
                  (ceilDiv (batchCetFee remote_params fee_rate) outcomes_list.length))
                (List.range local_params.collaterals.length) with
            | error e => rfl
            | ok values =>
              simp only
              by_cases h3 : 20 < Int.natAbs
                  (((local_params.collaterals.sum + remote_params.collaterals.sum +
                      batchCetFee local_params fee_rate +
                      batchCetFee remote_params fee_rate : Nat) : Int) -
                    ((values.sum : Nat) : Int))
              · simp only [if_pos h3]
              · simp only [if_neg h3]
                cases CreateBatchFundTransaction E local_params.fund_pubkeys
                    remote_params.fund_pubkeys values local_params.inputs_info
                    (batchChangeOutput local_params fee_rate) remote_params.inputs_info
                    (batchChangeOutput remote_params fee_rate) fund_lock_time
                    local_params.change_serial_id remote_params.change_serial_id
                    fund_output_serial_ids with
                | error e => rfl
                | ok fund_tx =>
                  simp only
                  cases forEachIndex
                      (batchContract E outcomes_list local_params remote_params
                        refund_locktimes cet_lock_time (E.GetTxid fund_tx)
                        (if fund_output_serial_ids.isEmpty then List.range values.length
                        else
                          fund_output_serial_ids.map fun serial_id =>
                            findBatchVout serial_id
                              (stdSort E (fun a b : Nat => decide (a < b))
                                (fund_output_serial_ids ++
                                  [local_params.change_serial_id,
                                    remote_params.change_serial_id])) 0))
                      (List.range
                        (if fund_output_serial_ids.isEmpty then List.range values.length
                        else
                          fund_output_serial_ids.map fun serial_id =>
                            findBatchVout serial_id
                              (stdSort E (fun a b : Nat => decide (a < b))
                                (fund_output_serial_ids ++
                                  [local_params.change_serial_id,
                                    remote_params.change_serial_id])) 0).length) <;> rfl

/-- What a successful `CreateBatchDlcTransactions` has checked and built. -/
theorem CreateBatchDlcTransactions_ok (E : Collab) (outcomes_list : List (List DlcOutcome))
    (local_params remote_params : BatchPartyParams) (refund_locktimes : List Nat)
    (fee_rate fund_lock_time cet_lock_time : Nat) (fund_output_serial_ids : List Nat)
    (r : BatchDlcTransactions)
    (h : CreateBatchDlcTransactions E outcomes_list local_params remote_params
      refund_locktimes fee_rate fund_lock_time cet_lock_time fund_output_serial_ids =
      .ok r) :
    outcomes_list.length = local_params.fund_pubkeys.length ∧
    outcomes_list.length = remote_params.fund_pubkeys.length ∧
    (∃ u, forEachIndex
      (batchCheckOutcomes outcomes_list local_params.collaterals remote_params.collaterals)
      (List.range outcomes_list.length) = .ok u) ∧
    ¬ local_params.input_amount < batchRequiredInput local_params fee_rate ∧
    ¬ remote_params.input_amount < batchRequiredInput remote_params fee_rate ∧
    ¬ (outcomes_list.length = 0 ∧ local_params.collaterals ≠ []) ∧
    ∃ fund_output_values contracts,
      forEachIndex
        (batchFundOutputValue local_params.collaterals remote_params.collaterals
          (ceilDiv (batchCetFee local_params fee_rate) outcomes_list.length)
          (ceilDiv (batchCetFee remote_params fee_rate) outcomes_list.length))
        (List.range local_params.collaterals.length) = .ok fund_output_values ∧
      ¬ 20 < Int.natAbs
        (((local_params.collaterals.sum + remote_params.collaterals.sum +
            batchCetFee local_params fee_rate + batchCetFee remote_params fee_rate : Nat) :
            Int) - ((fund_output_values.sum : Nat) : Int)) ∧
      CreateBatchFundTransaction E local_params.fund_pubkeys remote_params.fund_pubkeys
        fund_output_values local_params.inputs_info (batchChangeOutput local_params fee_rate)
        remote_params.inputs_info (batchChangeOutput remote_params fee_rate) fund_lock_time
        local_params.change_serial_id remote_params.change_serial_id
        fund_output_serial_ids = .ok r.fund_transaction ∧
      forEachIndex
        (batchContract E outcomes_list local_params remote_params refund_locktimes
          cet_lock_time (E.GetTxid r.fund_transaction)
          (batchFundVouts E local_params remote_params fund_output_serial_ids
            fund_output_values.length))
        (List.range (batchFundVouts E local_params remote_params fund_output_serial_ids
          fund_output_values.length).length) = .ok contracts ∧
      r.cets_list = contracts.map (fun c => c.1) ∧
      r.refund_transactions = contracts.map (fun c => c.2) := by
  rw [CreateBatchDlcTransactions_eq] at h
  by_cases h1 : outcomes_list.length ≠ local_params.fund_pubkeys.length ∨
      outcomes_list.length ≠ remote_params.fund_pubkeys.length
  · rw [if_pos h1] at h
    cases h
  rw [if_neg h1] at h
  have ha : outcomes_list.length = local_params.fund_pubkeys.length := by
    by_contra hne
    exact h1 (Or.inl hne)
  have hb : outcomes_list.length = remote_params.fund_pubkeys.length := by
    by_contra hne
    exact h1 (Or.inr hne)
  cases hchk : forEachIndex
      (batchCheckOutcomes outcomes_list local_params.collaterals remote_params.collaterals)
      (List.range outcomes_list.length) with
  | error e =>
    rw [hchk] at h
    cases h
  | ok u =>
    rw [hchk] at h
    simp only at h
    by_cases hl : local_params.input_amount < batchRequiredInput local_params fee_rate
    · rw [if_pos hl] at h
      cases h
    rw [if_neg hl] at h
    by_cases hr : remote_params.input_amount < batchRequiredInput remote_params fee_rate
    · rw [if_pos hr] at h
      cases h
    rw [if_neg hr] at h
    by_cases h2 : outcomes_list.length = 0 ∧ local_params.collaterals ≠ []
    · rw [if_pos h2] at h
      cases h
    rw [if_neg h2] at h
    cases hval : forEachIndex
        (batchFundOutputValue local_params.collaterals remote_params.collaterals
          (ceilDiv (batchCetFee local_params fee_rate) outcomes_list.length)
          (ceilDiv (batchCetFee remote_params fee_rate) outcomes_list.length))
        (List.range local_params.collaterals.length) with
    | error e =>
      rw [hval] at h
      cases h
    | ok values =>
      rw [hval] at h
      simp only at h
      by_cases h3 : 20 < Int.natAbs
          (((local_params.collaterals.sum + remote_params.collaterals.sum +
              batchCetFee local_params fee_rate + batchCetFee remote_params fee_rate : Nat) :
              Int) - ((values.sum : Nat) : Int))
      · rw [if_pos h3] at h
        cases h
      rw [if_neg h3] at h
      cases hfund : CreateBatchFundTransaction E local_params.fund_pubkeys
          remote_params.fund_pubkeys values local_params.inputs_info
          (batchChangeOutput local_params fee_rate) remote_params.inputs_info
          (batchChangeOutput remote_params fee_rate) fund_lock_time
          local_params.change_serial_id remote_params.change_serial_id
          fund_output_serial_ids with
      | error e =>
        rw [hfund] at h
        cases h
      | ok fund_tx =>
        rw [hfund] at h
        simp only at h
        cases hcon : forEachIndex
            (batchContract E outcomes_list local_params remote_params refund_locktimes
              cet_lock_time (E.GetTxid fund_tx)
              (batchFundVouts E local_params remote_params fund_output_serial_ids
                values.length))
            (List.range (batchFundVouts E local_params remote_params fund_output_serial_ids
              values.length).length) with
        | error e =>
          rw [hcon] at h
          cases h
        | ok contracts =>
          rw [hcon] at h
          cases Except.ok.inj h
          exact ⟨ha, hb, ⟨u, rfl⟩, hl, hr, h2, values, contracts, rfl, h3, hfund, hcon, rfl,
            rfl⟩

/-- Round `i` of the loop over the collaterals returns a value exactly when both
collateral vectors have an element at `i`. -/
theorem batchFundOutputValue_ok_iff (local_collaterals remote_collaterals : List Nat)
    (local_cet_fee remote_cet_fee : Nat) (i : Nat) (v : Nat) :
    batchFundOutputValue local_collaterals remote_collaterals local_cet_fee remote_cet_fee
        i = .ok v ↔
      ∃ l r, local_collaterals[i]? = some l ∧ remote_collaterals[i]? = some r ∧
        v = l + r + local_cet_fee + remote_cet_fee := by
  unfold batchFundOutputValue elemAt
  simp only [bind, Except.bind, pure, Except.pure]
  cases local_collaterals[i]? with
  | none => simp
  | some l =>
    cases remote_collaterals[i]? with
    | none => simp
    | some r =>
      simp only [Except.ok.injEq, Option.some.injEq, exists_and_left, exists_eq_left']
      exact eq_comm

/-- Round `i` of the loop of `CreateBatchFundTransaction` returns a record exactly when
the vectors it reads have an element at `i`. -/
theorem batchFundOutputInfo_ok_iff (E : Collab)
    (local_fund_pubkeys remote_fund_pubkeys : List Pubkey) (output_amounts : List Nat)
    (output_serial_ids : List Nat) (i : Nat) (o : TxOutputInfo) :
    batchFundOutputInfo E local_fund_pubkeys remote_fund_pubkeys output_amounts
        output_serial_ids i = .ok o ↔
      ∃ lpk rpk amount serial_id, local_fund_pubkeys[i]? = some lpk ∧
        remote_fund_pubkeys[i]? = some rpk ∧ output_amounts[i]? = some amount ∧
        (if output_serial_ids.isEmpty then serial_id = 0
          else output_serial_ids[i]? = some serial_id) ∧
        o = { script := E.CreateP2wshLockingScript (CreateFundTxLockingScript E lpk rpk),
              value := amount, output_serial_id := serial_id } := by
  unfold batchFundOutputInfo elemAt
  simp only [bind, Except.bind, pure, Except.pure]
  cases local_fund_pubkeys[i]? with
  | none => simp
  | some lpk =>
    cases remote_fund_pubkeys[i]? with
    | none => simp
    | some rpk =>
      by_cases he : output_serial_ids.isEmpty
      · simp only [he, if_true]
        cases output_amounts[i]? with
        | none => simp
        | some amount =>
          simp only [Except.ok.injEq, Option.some.injEq, exists_and_left, exists_eq_left']
          constructor
          · intro h
            exact ⟨0, rfl, h.symm⟩
          · rintro ⟨s, hs, ho⟩
            rw [ho, hs]
      · simp only [he, Bool.false_eq_true, if_false]
        cases output_serial_ids[i]? with
        | none => simp
        | some serial_id =>
          cases output_amounts[i]? with
          | none => simp
          | some amount =>
            simp only [Except.ok.injEq, Option.some.injEq, exists_and_left, exists_eq_left']
            exact eq_comm

/-- For a positive divisor `ceilDiv` is the ceiling of the quotient. -/
theorem ceilDiv_eq_ceil (a n : Nat) (hn : 0 < n) :
    ceilDiv a n = ⌈(a : ℚ) / n⌉₊ := by
  unfold ceilDiv
  have hnq : (0 : ℚ) < n := by exact_mod_cast hn
  symm
  apply le_antisymm
  · apply Nat.ceil_le.mpr
    rw [div_le_iff₀ hnq]
    have h1 : a ≤ (a + n - 1) / n * n := by
      have hdm := Nat.div_add_mod (a + n - 1) n
      have hm := Nat.mod_lt (a + n - 1) hn
      have hc := Nat.mul_comm n ((a + n - 1) / n)
      omega
    exact_mod_cast h1
  · have h1 : (a : ℚ) / n ≤ (⌈(a : ℚ) / n⌉₊ : ℚ) := Nat.le_ceil _
    rw [div_le_iff₀ hnq] at h1
    have h3 : a ≤ ⌈(a : ℚ) / n⌉₊ * n := by exact_mod_cast h1
    apply Nat.lt_succ_iff.mp
    rw [Nat.div_lt_iff_lt_mul hn, Nat.succ_mul]
    omega

/-! ## Aborts and sums of a batch -/

/-- A sequence of two steps that returns has run both. -/
theorem bind_ok_cases {α β : Type} (x : Except Abort α) (f : α → Except Abort β) (b : β)
    (h : (x >>= f) = .ok b) : ∃ a, x = .ok a ∧ f a = .ok b := by
  cases x with
  | error e => cases h
  | ok a => exact ⟨a, rfl, h⟩

/-- What a round of the last loop of `CreateBatchDlcTransactions` that returns has read
and built: the CETs and the refund transaction of contract `i` spend the output
`fund_vouts[i]` of the funding transaction. -/
theorem batchContract_ok (E : Collab) (outcomes_list : List (List DlcOutcome))
    (local_params remote_params : BatchPartyParams) (refund_locktimes : List Nat)
    (cet_lock_time : Nat) (fund_tx_id : Txid) (fund_vouts : List Nat) (i : Nat)
    (cets : List TransactionController) (refund : TransactionController)
    (h : batchContract E outcomes_list local_params remote_params refund_locktimes
      cet_lock_time fund_tx_id fund_vouts i = .ok (cets, refund)) :
    ∃ fund_vout, fund_vouts[i]? = some fund_vout ∧
      (∀ cet ∈ cets, cet.txins =
        [{ txid := fund_tx_id, vout := fund_vout, unlocking_script := [] }]) ∧
      refund.txins = [{ txid := fund_tx_id, vout := fund_vout, unlocking_script := [] }] := by
  unfold batchContract at h
  obtain ⟨fund_vout, hv, h⟩ := bind_ok_cases _ _ _ h
  obtain ⟨lf, -, h⟩ := bind_ok_cases _ _ _ h
  obtain ⟨rf, -, h⟩ := bind_ok_cases _ _ _ h
  obtain ⟨outcomes, -, h⟩ := bind_ok_cases _ _ _ h
  obtain ⟨lp, -, h⟩ := bind_ok_cases _ _ _ h
  obtain ⟨rp, -, h⟩ := bind_ok_cases _ _ _ h
  obtain ⟨lc, -, h⟩ := bind_ok_cases _ _ _ h
  obtain ⟨rc, -, h⟩ := bind_ok_cases _ _ _ h
  obtain ⟨rl, -, h⟩ := bind_ok_cases _ _ _ h
  have h2 := Except.ok.inj h
  obtain ⟨hc, hr⟩ := Prod.mk.inj h2
  refine ⟨fund_vout, (elemAt_ok_iff _ _ _).mp hv, ?_, ?_⟩
  · intro cet hcet
    rw [← hc] at hcet
    unfold CreateCets at hcet
    obtain ⟨o, -, rfl⟩ := List.mem_map.mp hcet
    exact CreateCet_txins _ _ _ _ _ _ _ _
  · rw [← hr]
    rfl

/-- The index the search resolves in the keys of a list is the index of the first
element with that key. -/
theorem findBatchVout_map {α : Type} (key : α → Nat) (x : Nat) (l : List α) (j0 : Nat)
    (hx : ∃ a ∈ l, key a = x) :
    ∃ j, findBatchVout x (l.map key) j0 = j0 + j ∧
      l[j]? = (l.filter fun a => decide (key a = x)).head? := by
  induction l generalizing j0 with
  | nil =>
    obtain ⟨a, ha, -⟩ := hx
    cases ha
  | cons a l ih =>
    rw [List.map_cons]
    unfold findBatchVout
    by_cases hk : x = key a
    · rw [if_pos hk]
      refine ⟨0, rfl, ?_⟩
      rw [List.filter_cons_of_pos (by simp [hk])]
      simp
    · rw [if_neg hk]
      have hx2 : ∃ b ∈ l, key b = x := by
        obtain ⟨b, hb, hbk⟩ := hx
        rcases List.mem_cons.mp hb with rfl | hb
        · exact absurd hbk.symm hk
        · exact ⟨b, hb, hbk⟩
      obtain ⟨j, hj, hjl⟩ := ih (j0 + 1) hx2
      refine ⟨j + 1, by omega, ?_⟩
      rw [List.filter_cons_of_neg (by simpa using fun h => hk h.symm)]
      simpa using hjl

/-- With pairwise different keys an element is the only one with its key. -/
theorem filter_key_of_nodup {α : Type} (key : α → Nat) (l : List α)
    (hl : (l.map key).Nodup) (i : Nat) (a : α) (hi : l[i]? = some a) :
    l.filter (fun b => decide (key b = key a)) = [a] := by
  induction l generalizing i with
  | nil => simp at hi
  | cons b l ih =>
    rw [List.map_cons, List.nodup_cons] at hl
    obtain ⟨hb, hl2⟩ := hl
    cases i with
    | zero =>
      simp only [List.getElem?_cons_zero, Option.some.injEq] at hi
      subst hi
      rw [List.filter_cons_of_pos (by simp)]
      congr 1
      rw [List.filter_eq_nil_iff]
      intro c hc
      simp only [decide_eq_true_eq]
      intro hck
      exact hb (hck ▸ List.mem_map_of_mem key hc)
    | succ i =>
      simp only [List.getElem?_cons_succ] at hi
      have ha : a ∈ l := by
        obtain ⟨hlt, heq⟩ := List.getElem?_eq_some_iff.mp hi
        rw [← heq]
        exact List.getElem_mem hlt
      rw [List.filter_cons_of_neg]
      · exact ih hl2 i hi
      · simp only [decide_eq_true_eq]
        intro hbk
        exact hb (hbk ▸ List.mem_map_of_mem key ha)

/-- Sorting records by a key and sorting the keys give the same keys in the same order. -/
theorem stdSort_map_key (E : Collab) (hE : E.SortConforms) {α : Type} (key : α → Nat)
    (l : List α) :
    (stdSort E (fun a b => decide (key a < key b)) l).map key =
      stdSort E (fun a b : Nat => decide (a < b)) (l.map key) := by
  have hp1 := (stdSort_perm E hE key l).map key
  have hp2 := stdSort_perm E hE (fun n : Nat => n) (l.map key)
  have hs1 : ((stdSort E (fun a b => decide (key a < key b)) l).map key).Pairwise
      (fun a b => a ≤ b) := by
    rw [List.pairwise_map]
    exact stdSort_sorted E hE key l
  have hs2 := stdSort_sorted E hE (fun n : Nat => n) (l.map key)
  exact List.eq_of_perm_of_sorted (hp1.trans hp2.symm) hs1 hs2

/-- With fund output serial ids the records of the funding outputs carry them in order. -/
theorem batchFundOutputInfo_serial_ids (E : Collab)
    (local_fund_pubkeys remote_fund_pubkeys : List Pubkey) (output_amounts : List Nat)
    (output_serial_ids : List Nat) (infos : List TxOutputInfo)
    (hlen : output_serial_ids.length = local_fund_pubkeys.length)
    (hne : output_serial_ids ≠ [])
    (h : forEachIndex
      (batchFundOutputInfo E local_fund_pubkeys remote_fund_pubkeys output_amounts
        output_serial_ids)
      (List.range local_fund_pubkeys.length) = .ok infos) :
    infos.map (fun o => o.output_serial_id) = output_serial_ids := by
  obtain ⟨hil, hiall⟩ := forEachIndex_range_ok _ _ _ h
  have hemp : output_serial_ids.isEmpty = false := by
    cases output_serial_ids with
    | nil => exact absurd rfl hne
    | cons a l => rfl
  apply List.ext_getElem?
  intro i
  by_cases hi : i < infos.length
  · obtain ⟨lpk, rpk, amount, serial_id, -, -, -, hid, hoeq⟩ :=
      (batchFundOutputInfo_ok_iff E _ _ _ _ _ _).mp
        (hiall i _ (List.getElem?_eq_getElem hi))
    rw [hemp] at hid
    simp only [Bool.false_eq_true, if_false] at hid
    rw [List.getElem?_map, List.getElem?_eq_getElem hi, hid, hoeq]
    rfl
  · rw [List.getElem?_eq_none (by simp; omega), List.getElem?_eq_none (by omega)]

/-- Records of serial id 0 in front of two further records: a stable sort leaves the
records of serial id 0 where they are and sorts the two others behind them. -/
theorem insertionSort_zero_keys (infos : List TxOutputInfo) (a b : TxOutputInfo)
    (h0 : ∀ o ∈ infos, o.output_serial_id = 0) :
    insertionSort CompareOutputSerialId (infos ++ [a, b]) =
      infos ++ insertionSort CompareOutputSerialId [a, b] := by
  have hcmp : ∀ x y : TxOutputInfo, CompareOutputSerialId x y =
      decide (x.output_serial_id < y.output_serial_id) := fun _ _ => rfl
  apply sorted_eq_of_filter_eq (fun o : TxOutputInfo => o.output_serial_id)
  · exact insertionSort_sorted _ _ hcmp _
  · rw [List.pairwise_append]
    refine ⟨List.pairwise_of_forall_mem_list fun x hx y hy => ?_,
      insertionSort_sorted _ _ hcmp _, fun x hx y _ => ?_⟩
    · rw [h0 x hx, h0 y hy]
    · rw [h0 x hx]
      exact Nat.zero_le _
  · intro k
    rw [insertionSort_filter _ _ hcmp, List.filter_append, List.filter_append,
      insertionSort_filter _ _ hcmp]

/-- Without fund output serial ids the records of the funding outputs carry serial id
0. -/
theorem batchFundOutputInfo_zero_ids (E : Collab)
    (local_fund_pubkeys remote_fund_pubkeys : List Pubkey) (output_amounts : List Nat)
    (infos : List TxOutputInfo)
    (h : forEachIndex
      (batchFundOutputInfo E local_fund_pubkeys remote_fund_pubkeys output_amounts [])
      (List.range local_fund_pubkeys.length) = .ok infos) :
    ∀ o ∈ infos, o.output_serial_id = 0 := by
  obtain ⟨-, hiall⟩ := forEachIndex_range_ok _ _ _ h
  intro o ho
  obtain ⟨i, hi, hio⟩ := List.getElem_of_mem ho
  obtain ⟨lpk, rpk, amount, serial_id, -, -, -, hid, hoeq⟩ :=
    (batchFundOutputInfo_ok_iff E _ _ _ _ _ _).mp
      (hiall i o (by rw [List.getElem?_eq_getElem hi, hio]))
  simp only [List.isEmpty_nil, if_true] at hid
  rw [hoeq, hid]

/-- A batch of at most fourteen contracts without fund output serial ids: when
`CreateBatchDlcTransactions` returns, the funding output of contract `i` is output `i`
of the funding transaction, the CETs and the refund transaction of contract `i` spend
index `i`, and the two change outputs follow the funding outputs. -/
theorem CreateBatchDlcTransactions_empty_ids_short (E : Collab)
    (outcomes_list : List (List DlcOutcome)) (local_params remote_params : BatchPartyParams)
    (refund_locktimes : List Nat) (fee_rate fund_lock_time cet_lock_time : Nat)
    (r : BatchDlcTransactions) (i : Nat)
    (h : CreateBatchDlcTransactions E outcomes_list local_params remote_params
      refund_locktimes fee_rate fund_lock_time cet_lock_time [] = .ok r)
    (hshort : outcomes_list.length + 2 ≤ 16) (hi : i < outcomes_list.length) :
    ∃ lpk rpk lc rc cets refund,
      local_params.fund_pubkeys[i]? = some lpk ∧
      remote_params.fund_pubkeys[i]? = some rpk ∧
      local_params.collaterals[i]? = some lc ∧
      remote_params.collaterals[i]? = some rc ∧
      r.cets_list[i]? = some cets ∧
      r.refund_transactions[i]? = some refund ∧
      (∀ cet ∈ cets, cet.txins =
        [{ txid := E.GetTxid r.fund_transaction, vout := i, unlocking_script := [] }]) ∧
      refund.txins =
        [{ txid := E.GetTxid r.fund_transaction, vout := i, unlocking_script := [] }] ∧
      r.fund_transaction.txouts[i]? =
        some
          { value := lc + rc +
              ceilDiv (batchCetFee local_params fee_rate) outcomes_list.length +
              ceilDiv (batchCetFee remote_params fee_rate) outcomes_list.length,
            locking_script :=
              E.CreateP2wshLockingScript (CreateFundTxLockingScript E lpk rpk) } ∧
      r.fund_transaction.txouts.length = outcomes_list.length + 2 ∧
      (r.fund_transaction.txouts.drop outcomes_list.length).Perm
        [batchChangeOutput local_params fee_rate,
          batchChangeOutput remote_params fee_rate] := by
  obtain ⟨ha, -, -, -, -, -, values, contracts, hval, -, hfund, hcon, hcl, hrl⟩ :=
    CreateBatchDlcTransactions_ok E outcomes_list local_params remote_params
      refund_locktimes fee_rate fund_lock_time cet_lock_time [] r h
  obtain ⟨-, hlv, infos, hinfos, houts, -, -, -⟩ :=
    CreateBatchFundTransaction_ok E _ _ _ _ _ _ _ _ _ _ _ _ hfund
  obtain ⟨hilen, hiall⟩ := forEachIndex_range_ok _ _ _ hinfos
  obtain ⟨-, hvall⟩ := forEachIndex_range_ok _ _ _ hval
  have hio : i < infos.length := by omega
  have hinfo_i : infos[i]? = some infos[i] := List.getElem?_eq_getElem hio
  obtain ⟨lpk, rpk, amount, serial_id, hlpk, hrpk, hamount, -, hoeq⟩ :=
    (batchFundOutputInfo_ok_iff E _ _ _ _ _ _).mp (hiall i _ hinfo_i)
  obtain ⟨lc, rc, hlc, hrc, hv⟩ := (batchFundOutputValue_ok_iff _ _ _ _ _ _).mp
    (hvall i amount hamount)
  have hvouts : batchFundVouts E local_params remote_params [] values.length =
      List.range values.length := rfl
  rw [hvouts] at hcon
  obtain ⟨hclen, hcall⟩ := forEachIndex_range_ok _ _ _ hcon
  have hci : i < contracts.length := by
    rw [hclen, List.length_range]
    omega
  obtain ⟨fund_vout, hfv, hcets, hrefund⟩ := batchContract_ok E _ _ _ _ _ _ _ _
    contracts[i].1 contracts[i].2 (hcall i _ (List.getElem?_eq_getElem hci))
  rw [List.getElem?_range (by omega)] at hfv
  cases Option.some.inj hfv
  have hsort : stdSort E CompareOutputSerialId
      (infos ++
        [{ script := (batchChangeOutput local_params fee_rate).locking_script,
           value := (batchChangeOutput local_params fee_rate).value,
           output_serial_id := local_params.change_serial_id },
         { script := (batchChangeOutput remote_params fee_rate).locking_script,
           value := (batchChangeOutput remote_params fee_rate).value,
           output_serial_id := remote_params.change_serial_id }]) =
      infos ++ insertionSort CompareOutputSerialId
        [{ script := (batchChangeOutput local_params fee_rate).locking_script,
           value := (batchChangeOutput local_params fee_rate).value,
           output_serial_id := local_params.change_serial_id },
         { script := (batchChangeOutput remote_params fee_rate).locking_script,
           value := (batchChangeOutput remote_params fee_rate).value,
           output_serial_id := remote_params.change_serial_id }] := by
    unfold stdSort
    rw [if_pos (by
      rw [List.length_append]
      simp only [List.length_cons, List.length_nil]
      omega)]
    exact insertionSort_zero_keys infos _ _
      (batchFundOutputInfo_zero_ids E _ _ _ infos hinfos)
  rw [hsort, List.map_append] at houts
  have hplen : (insertionSort CompareOutputSerialId
      [({ script := (batchChangeOutput local_params fee_rate).locking_script,
          value := (batchChangeOutput local_params fee_rate).value,
          output_serial_id := local_params.change_serial_id } : TxOutputInfo),
       { script := (batchChangeOutput remote_params fee_rate).locking_script,
         value := (batchChangeOutput remote_params fee_rate).value,
         output_serial_id := remote_params.change_serial_id }]).length = 2 :=
    (insertionSort_perm _ _).length_eq
  refine ⟨lpk, rpk, lc, rc, contracts[i].1, contracts[i].2, hlpk, hrpk, hlc, hrc, ?_, ?_,
    hcets, hrefund, ?_, ?_, ?_⟩
  · rw [hcl, List.getElem?_map, List.getElem?_eq_getElem hci]
    rfl
  · rw [hrl, List.getElem?_map, List.getElem?_eq_getElem hci]
    rfl
  · rw [houts, List.getElem?_append_left (by rw [List.length_map]; exact hio),
      List.getElem?_map, hinfo_i, hoeq, hv]
    rfl
  · rw [houts, List.length_append, List.length_map, List.length_map, hplen]
    omega
  · rw [houts]
    have hdrop : (infos.map TxOutputInfo.toTxOut).length = outcomes_list.length := by
      rw [List.length_map]
      omega
    rw [← hdrop, List.drop_left]
    exact (insertionSort_perm _ _).map TxOutputInfo.toTxOut

/-! ## A batch of one contract -/

theorem forEachIndex_singleton {α : Type} (body : Nat → Except Abort α) (i : Nat) :
    forEachIndex body [i] =
      match body i with
      | .error e => .error e
      | .ok a => .ok [a] := by
  unfold forEachIndex
  cases body i with
  | error e => rfl
  | ok a =>
    simp only
    unfold forEachIndex
    rfl

theorem ceilDiv_one (a : Nat) : ceilDiv a 1 = a := by
  unfold ceilDiv
  simp

/-- Below `2 ^ 32` the index search of the single DLC and that of the batch agree. -/
theorem findFundVout_eq_findBatchVout (x : Nat) (l : List Nat) (i : Nat)
    (h : i + l.length < 2 ^ 32) : findFundVout x l i = findBatchVout x l i := by
  induction l generalizing i with
  | nil => rfl
  | cons id rest ih =>
    unfold findFundVout findBatchVout
    simp only [List.length_cons] at h
    by_cases hx : id = x
    · rw [if_pos hx, if_pos hx.symm]
      exact Nat.mod_eq_of_lt (by omega)
    · rw [if_neg hx, if_neg (fun h2 => hx h2.symm)]
      exact ih (i + 1) (by omega)

/-- The sorted serial ids of a single DLC whose funding output has serial id 0 start with
that output. -/
theorem fundVout_zero (E : Collab) (local_params remote_params : PartyParams) :
    fundVout E local_params remote_params 0 = 0 := by
  unfold fundVout stdSort
  rw [if_pos (by simp)]
  unfold insertionSort
  simp only [List.foldl_cons, List.foldl_nil, linearInsert]
  by_cases h1 : local_params.change_serial_id < 0
  · omega
  · by_cases h2 : remote_params.change_serial_id < 0
    · omega
    · by_cases h3 : remote_params.change_serial_id < local_params.change_serial_id <;>
        simp [h3, findFundVout]

/-- Fees, required input and change output of the batch of one contract are those of the
single DLC without premium, when adding the base weight to the weight of the inputs
stays below `2 ^ 32`. -/
theorem batch_of_one_fees (params : PartyParams) (fee_rate : Nat) (option_dest : Address)
    (h : 107 + (params.inputs_info.map inputWeight).sum % 2 ^ 32 < 2 ^ 32) :
    batchCetFee params.toBatch fee_rate = cetFee params fee_rate ∧
    batchFundFee params.toBatch fee_rate = fundFee params fee_rate 0 option_dest ∧
    batchRequiredInput params.toBatch fee_rate =
      requiredInput params fee_rate 0 option_dest ∧
    batchChangeOutput params.toBatch fee_rate = changeOutput params fee_rate 0 option_dest := by
  have hc : batchCetFee params.toBatch fee_rate = cetFee params fee_rate := by
    have hcw : batchCetWeightDouble params.toBatch = roundToDouble (cetWeight params) := by
      unfold batchCetWeightDouble cetWeight
      simp only [PartyParams.toBatch, List.foldl_cons, List.foldl_nil, Nat.zero_add]
      exact roundToDouble_idem _
    unfold batchCetFee cetFee
    rw [hcw]
  have hw : batchFundWeight params.toBatch = fundWeight params 0 option_dest := by
    have hmod : (107 + (params.inputs_info.map inputWeight).sum) % 2 ^ 32 =
        107 + (params.inputs_info.map inputWeight).sum % 2 ^ 32 := by
      rw [Nat.add_mod, Nat.mod_eq_of_lt (by norm_num : 107 < 2 ^ 32), Nat.mod_eq_of_lt h]
    simp only [batchFundWeight, fundWeight, PartyParams.toBatch, List.length_singleton,
      Nat.lt_irrefl, if_false, hmod]
  have hf : batchFundFee params.toBatch fee_rate = fundFee params fee_rate 0 option_dest := by
    have hfw : fundWeightDouble params 0 option_dest =
        roundToDouble (fundWeight params 0 option_dest) := by
      simp only [fundWeightDouble, fundWeight, Nat.lt_irrefl, if_false, Nat.add_zero]
    unfold batchFundFee fundFee
    rw [hw, hfw]
  have hr : batchRequiredInput params.toBatch fee_rate =
      requiredInput params fee_rate 0 option_dest := by
    unfold batchRequiredInput requiredInput
    rw [hc, hf]
    simp only [PartyParams.toBatch, List.sum_cons, List.sum_nil]
    omega
  refine ⟨hc, hf, hr, ?_⟩
  simp only [batchChangeOutput, changeOutput, hr]
  rfl

/-- The batch funding transaction of one contract is the funding transaction of the
single DLC without premium. -/
theorem CreateBatchFundTransaction_single (E : Collab)
    (local_fund_pubkey remote_fund_pubkey : Pubkey) (output_amount : Nat)
    (local_inputs_info : List TxInputInfo) (local_change_output : TxOut)
    (remote_inputs_info : List TxInputInfo) (remote_change_output : TxOut)
    (option_dest : Address) (lock_time local_serial_id remote_serial_id x : Nat)
    (ids : List Nat) (hids : ids = [x] ∨ (ids = [] ∧ x = 0)) :
    CreateBatchFundTransaction E [local_fund_pubkey] [remote_fund_pubkey] [output_amount]
        local_inputs_info local_change_output remote_inputs_info remote_change_output
        lock_time local_serial_id remote_serial_id ids =
      .ok (CreateFundTransaction E local_fund_pubkey remote_fund_pubkey output_amount
        local_inputs_info local_change_output remote_inputs_info remote_change_output
        option_dest 0 lock_time local_serial_id remote_serial_id x) := by
  have hbody : batchFundOutputInfo E [local_fund_pubkey] [remote_fund_pubkey]
      [output_amount] ids 0 =
      .ok { script := E.CreateP2wshLockingScript
              (CreateFundTxLockingScript E local_fund_pubkey remote_fund_pubkey),
            value := output_amount, output_serial_id := x } := by
    rcases hids with h | ⟨h, hx⟩
    · rw [h]
      rfl
    · rw [h, hx]
      rfl
  unfold CreateBatchFundTransaction CreateFundTransaction
  have hrange : List.range ([local_fund_pubkey] : List Pubkey).length = [0] := rfl
  rw [if_neg (by simp), hrange, forEachIndex_singleton, hbody]
  simp only [Nat.lt_irrefl, if_false, List.singleton_append]

/-! ## Claims -/

/-- C1: in the result of a successful `CreateDlcTransactions`, whatever the three serial
ids are (ties included), the refund transaction and every CET have one input, which
references the txid of the returned funding transaction and one common index
`fund_vout`, and the output of the funding transaction at that index is the funding
output: the P2WSH script of the 2-of-2 multisig of the two fund pubkeys with the fund
output value (the two collaterals plus the two CET fees). -/
theorem CreateDlcTransactions_fund_vout (E : Collab) (outcomes : List DlcOutcome)
    (local_params remote_params : PartyParams) (refund_locktime fee_rate : Nat)
    (option_dest : Address)
    (option_premium fund_lock_time cet_lock_time fund_output_serial_id : Nat)
    (r : DlcTransactions)
    (h : CreateDlcTransactions E outcomes local_params remote_params refund_locktime fee_rate
        option_dest option_premium fund_lock_time cet_lock_time fund_output_serial_id =
      .ok r) :
    ∃ (fund_vout : Nat) (local_change remote_change : TxOut)
        (local_fund_fee local_cet_fee remote_fund_fee remote_cet_fee : Nat),
      GetChangeOutputAndFees local_params fee_rate option_premium option_dest =
        .ok (local_change, local_fund_fee, local_cet_fee) ∧
      GetChangeOutputAndFees remote_params fee_rate 0 Address.empty =
        .ok (remote_change, remote_fund_fee, remote_cet_fee) ∧
      r.fund_transaction.txouts[fund_vout]? =
        some
          { value := local_params.collateral + remote_params.collateral + local_cet_fee +
              remote_cet_fee,
            locking_script := E.CreateP2wshLockingScript
              (E.CreateMultisigRedeemScript 2
                (GetOrderedPubkeys local_params.fund_pubkey remote_params.fund_pubkey)) } ∧
      r.refund_transaction.txins =
        [{ txid := E.GetTxid r.fund_transaction, vout := fund_vout, unlocking_script := [] }] ∧
      ∀ cet ∈ r.cets, cet.txins =
        [{ txid := E.GetTxid r.fund_transaction, vout := fund_vout, unlocking_script := [] }] := by
  obtain ⟨hl, hr, hfund, hcets, hrefund⟩ := CreateDlcTransactions_ok _ _ _ _ _ _ _ _ _ _ _ _ h
  refine ⟨fundVout E local_params remote_params fund_output_serial_id, _, _, _, _, _, _,
    (GetChangeOutputAndFees_ok_iff _ _ _ _ _ _ _).mpr ⟨hl, rfl, rfl, rfl⟩,
    (GetChangeOutputAndFees_ok_iff _ _ _ _ _ _ _).mpr ⟨hr, rfl, rfl, rfl⟩, ?_, ?_, ?_⟩
  · rw [hfund]
    exact fundTransaction_at_fundVout _ _ _ _ _ _ _ _
  · rw [hrefund]
    rfl
  · intro cet hcet
    rw [hcets] at hcet
    obtain ⟨o, -, rfl⟩ := List.mem_map.mp hcet
    exact CreateCet_txins _ _ _ _ _ _ _ _

/-- Witness for C1: the reference scenario, where the funding output is output 0. -/
theorem CreateDlcTransactions_fund_vout_witness :
    CreateDlcTransactions stableCollab sampleOutcomes sampleLocal sampleRemote 100 1
        Address.empty 0 0 0 0 = .ok sampleTransactions ∧
    ∃ (fund_vout : Nat) (local_change remote_change : TxOut)
        (local_fund_fee local_cet_fee remote_fund_fee remote_cet_fee : Nat),
      GetChangeOutputAndFees sampleLocal 1 0 Address.empty =
        .ok (local_change, local_fund_fee, local_cet_fee) ∧
      GetChangeOutputAndFees sampleRemote 1 0 Address.empty =
        .ok (remote_change, remote_fund_fee, remote_cet_fee) ∧
      sampleTransactions.fund_transaction.txouts[fund_vout]? =
        some
          { value := sampleLocal.collateral + sampleRemote.collateral + local_cet_fee +
              remote_cet_fee,
            locking_script := stableCollab.CreateP2wshLockingScript
              (stableCollab.CreateMultisigRedeemScript 2
                (GetOrderedPubkeys sampleLocal.fund_pubkey sampleRemote.fund_pubkey)) } ∧
      sampleTransactions.refund_transaction.txins =
        [{ txid := stableCollab.GetTxid sampleTransactions.fund_transaction,
           vout := fund_vout, unlocking_script := [] }] ∧
      ∀ cet ∈ sampleTransactions.cets, cet.txins =
        [{ txid := stableCollab.GetTxid sampleTransactions.fund_transaction,
           vout := fund_vout, unlocking_script := [] }] :=
  ⟨rfl, CreateDlcTransactions_fund_vout stableCollab sampleOutcomes sampleLocal sampleRemote
    100 1 Address.empty 0 0 0 0 sampleTransactions rfl⟩

/-- C2: when the outcome check and the two change computations succeed, the fund output
value `CreateDlcTransactions` computes is exactly total collateral + local CET fee +
remote CET fee; the call does not end in the `Internal` error, it returns, and the
funding transaction it returns has the funding output with exactly that value. -/
theorem CreateDlcTransactions_fee_equation (E : Collab) (outcomes : List DlcOutcome)
    (local_params remote_params : PartyParams) (refund_locktime fee_rate : Nat)
    (option_dest : Address)
    (option_premium fund_lock_time cet_lock_time fund_output_serial_id : Nat)
    (local_change remote_change : TxOut)
    (local_fund_fee local_cet_fee remote_fund_fee remote_cet_fee : Nat)
    (hout : checkOutcomes (local_params.collateral + remote_params.collateral) outcomes =
      .ok ())
    (hlocal : GetChangeOutputAndFees local_params fee_rate option_premium option_dest =
      .ok (local_change, local_fund_fee, local_cet_fee))
    (hremote : GetChangeOutputAndFees remote_params fee_rate 0 Address.empty =
      .ok (remote_change, remote_fund_fee, remote_cet_fee)) :
    local_params.input_amount + remote_params.input_amount - local_change.value -
        remote_change.value - local_fund_fee - remote_fund_fee - option_premium =
      local_params.collateral + remote_params.collateral + local_cet_fee + remote_cet_fee ∧
    CreateDlcTransactions E outcomes local_params remote_params refund_locktime fee_rate
        option_dest option_premium fund_lock_time cet_lock_time fund_output_serial_id ≠
      .error .kCfdInternalError ∧
    ∃ r, CreateDlcTransactions E outcomes local_params remote_params refund_locktime
          fee_rate option_dest option_premium fund_lock_time cet_lock_time
          fund_output_serial_id = .ok r ∧
      ({ value := local_params.collateral + remote_params.collateral + local_cet_fee +
            remote_cet_fee,
         locking_script := E.CreateP2wshLockingScript
            (E.CreateMultisigRedeemScript 2
              (GetOrderedPubkeys local_params.fund_pubkey remote_params.fund_pubkey)) } :
        TxOut) ∈ r.fund_transaction.txouts := by
  obtain ⟨hl, rfl, rfl, rfl⟩ := (GetChangeOutputAndFees_ok_iff _ _ _ _ _ _ _).mp hlocal
  obtain ⟨hr, rfl, rfl, rfl⟩ := (GetChangeOutputAndFees_ok_iff _ _ _ _ _ _ _).mp hremote
  have hc : ¬ ∃ o ∈ outcomes,
      o.local_payout + o.remote_payout ≠
        local_params.collateral + remote_params.collateral := by
    intro hbad
    rw [checkOutcomes_eq, if_pos hbad] at hout
    cases hout
  refine ⟨?_, CreateDlcTransactions_never_internal _ _ _ _ _ _ _ _ _ _ _, ?_⟩
  · have hl2 : ¬ local_params.input_amount <
        requiredInput local_params fee_rate option_premium option_dest :=
      fun h => hl (Or.inr h)
    have hr2 : ¬ remote_params.input_amount <
        requiredInput remote_params fee_rate 0 Address.empty :=
      fun h => hr (Or.inr h)
    simp only [changeOutput, requiredInput] at *
    omega
  · rw [CreateDlcTransactions_cases]
    simp only [hc, hl, hr, if_false]
    exact ⟨_, rfl, List.getElem?_mem (fundTransaction_at_fundVout _ _ _ _ _ _ _ _)⟩

/-- Witness for C2: the reference scenario, fund output value 200000170. -/
theorem CreateDlcTransactions_fee_equation_witness :
    checkOutcomes (sampleLocal.collateral + sampleRemote.collateral) sampleOutcomes =
      .ok () ∧
    GetChangeOutputAndFees sampleLocal 1 0 Address.empty =
      .ok ({ value := 4899999789, locking_script := List.replicate 22 1 }, 126, 85) ∧
    GetChangeOutputAndFees sampleRemote 1 0 Address.empty =
      .ok ({ value := 4899999789, locking_script := List.replicate 22 3 }, 126, 85) ∧
    (sampleLocal.input_amount + sampleRemote.input_amount -
        ({ value := 4899999789, locking_script := List.replicate 22 1 } : TxOut).value -
        ({ value := 4899999789, locking_script := List.replicate 22 3 } : TxOut).value -
        126 - 126 - 0 =
      sampleLocal.collateral + sampleRemote.collateral + 85 + 85 ∧
    CreateDlcTransactions stableCollab sampleOutcomes sampleLocal sampleRemote 100 1
        Address.empty 0 0 0 0 ≠ .error .kCfdInternalError ∧
    ∃ r, CreateDlcTransactions stableCollab sampleOutcomes sampleLocal sampleRemote 100 1
          Address.empty 0 0 0 0 = .ok r ∧
      ({ value := sampleLocal.collateral + sampleRemote.collateral + 85 + 85,
         locking_script := stableCollab.CreateP2wshLockingScript
            (stableCollab.CreateMultisigRedeemScript 2
              (GetOrderedPubkeys sampleLocal.fund_pubkey sampleRemote.fund_pubkey)) } :
        TxOut) ∈ r.fund_transaction.txouts) :=
  ⟨rfl, rfl, rfl,
    CreateDlcTransactions_fee_equation stableCollab sampleOutcomes sampleLocal sampleRemote
      100 1 Address.empty 0 0 0 0
      { value := 4899999789, locking_script := List.replicate 22 1 }
      { value := 4899999789, locking_script := List.replicate 22 3 } 126 85 126 85
      rfl rfl rfl⟩

/-- C3: after a successful `CreateDlcTransactions` the two input amounts equal the
values of the funding output and the two change outputs as they stand in the funding
transaction, plus the two fund fees, plus the premium.  Hence all emitted outputs plus
the two fund fees add up to the inputs when the premium is 0 or at least 1000 sats, and
fall short of them by the premium when it lies strictly between 0 and 1000. -/
theorem CreateDlcTransactions_fund_balance (E : Collab) (outcomes : List DlcOutcome)
    (local_params remote_params : PartyParams) (refund_locktime fee_rate : Nat)
    (option_dest : Address)
    (option_premium fund_lock_time cet_lock_time fund_output_serial_id : Nat)
    (r : DlcTransactions)
    (h : CreateDlcTransactions E outcomes local_params remote_params refund_locktime fee_rate
        option_dest option_premium fund_lock_time cet_lock_time fund_output_serial_id =
      .ok r) :
    ∃ (local_change remote_change : TxOut)
        (local_fund_fee local_cet_fee remote_fund_fee remote_cet_fee : Nat),
      GetChangeOutputAndFees local_params fee_rate option_premium option_dest =
        .ok (local_change, local_fund_fee, local_cet_fee) ∧
      GetChangeOutputAndFees remote_params fee_rate 0 Address.empty =
        .ok (remote_change, remote_fund_fee, remote_cet_fee) ∧
      local_params.input_amount + remote_params.input_amount =
        ((r.fund_transaction.txouts.take 3).map fun o => o.value).sum + local_fund_fee +
          remote_fund_fee + option_premium ∧
      (r.fund_transaction.txouts.map fun o => o.value).sum + local_fund_fee +
          remote_fund_fee +
          (if option_premium = 0 ∨ 1000 ≤ option_premium then 0 else option_premium) =
        local_params.input_amount + remote_params.input_amount := by
  obtain ⟨hl, hr, hfund, -, -⟩ := CreateDlcTransactions_ok _ _ _ _ _ _ _ _ _ _ _ _ h
  refine ⟨_, _, _, _, _, _,
    (GetChangeOutputAndFees_ok_iff _ _ _ _ _ _ _).mpr ⟨hl, rfl, rfl, rfl⟩,
    (GetChangeOutputAndFees_ok_iff _ _ _ _ _ _ _).mpr ⟨hr, rfl, rfl, rfl⟩, ?_⟩
  obtain ⟨three, hlen, hsum, hall⟩ := fundTransaction_three E local_params remote_params
    fee_rate option_dest option_premium fund_lock_time fund_output_serial_id
  have hl2 : ¬ local_params.input_amount <
      requiredInput local_params fee_rate option_premium option_dest :=
    fun h => hl (Or.inr h)
  have hr2 : ¬ remote_params.input_amount <
      requiredInput remote_params fee_rate 0 Address.empty :=
    fun h => hr (Or.inr h)
  rw [hfund, hall, List.map_append, List.sum_append, List.take_append_of_le_length
    (Nat.le_of_eq hlen.symm), List.take_of_length_le (Nat.le_of_eq hlen), hsum]
  simp only [changeOutput, requiredInput, DUST_LIMIT] at hl2 hr2 ⊢
  refine ⟨by omega, ?_⟩
  split_ifs <;>
    simp only [List.map_cons, List.map_nil, List.sum_cons, List.sum_nil] <;>
    omega

/-- Witness for C3: the reference scenario with a premium of 500 sats, which is taken
from the local change and not paid out. -/
theorem CreateDlcTransactions_fund_balance_witness :
    CreateDlcTransactions stableCollab sampleOutcomes sampleLocal sampleRemote 100 1
        { address := "bcrt1q", locking_script := List.replicate 22 5 } 500 0 0 0 =
      .ok { sampleTransactions with
        fund_transaction :=
          { sampleTransactions.fund_transaction with
            txouts := [{ value := 200000170, locking_script := [0, 32, 2, 6, 6] },
              { value := 4899999258, locking_script := List.replicate 22 1 },
              { value := 4899999789, locking_script := List.replicate 22 3 }] } } ∧
    ∃ (local_change remote_change : TxOut)
        (local_fund_fee local_cet_fee remote_fund_fee remote_cet_fee : Nat),
      GetChangeOutputAndFees sampleLocal 1 500
          { address := "bcrt1q", locking_script := List.replicate 22 5 } =
        .ok (local_change, local_fund_fee, local_cet_fee) ∧
      GetChangeOutputAndFees sampleRemote 1 0 Address.empty =
        .ok (remote_change, remote_fund_fee, remote_cet_fee) ∧
      sampleLocal.input_amount + sampleRemote.input_amount =
        (([{ value := 200000170, locking_script := [0, 32, 2, 6, 6] },
              { value := 4899999258, locking_script := List.replicate 22 1 },
              { value := 4899999789, locking_script := List.replicate 22 3 }] :
            List TxOut).take 3 |>.map fun o => o.value).sum + local_fund_fee +
          remote_fund_fee + 500 ∧
      (([{ value := 200000170, locking_script := [0, 32, 2, 6, 6] },
              { value := 4899999258, locking_script := List.replicate 22 1 },
              { value := 4899999789, locking_script := List.replicate 22 3 }] :
            List TxOut).map fun o => o.value).sum + local_fund_fee + remote_fund_fee +
          (if (500 : Nat) = 0 ∨ 1000 ≤ 500 then 0 else 500) =
        sampleLocal.input_amount + sampleRemote.input_amount :=
  ⟨rfl, CreateDlcTransactions_fund_balance stableCollab sampleOutcomes sampleLocal
    sampleRemote 100 1 { address := "bcrt1q", locking_script := List.replicate 22 5 } 500 0 0 0
    { sampleTransactions with
      fund_transaction :=
        { sampleTransactions.fund_transaction with
          txouts := [{ value := 200000170, locking_script := [0, 32, 2, 6, 6] },
            { value := 4899999258, locking_script := List.replicate 22 1 },
            { value := 4899999789, locking_script := List.replicate 22 3 }] } } rfl⟩

/-- C4, as stated, fails, in two ways.  With three inputs of declared witness length
2000000000 the 32-bit accumulator of `GetInputsWeight` wraps, the call succeeds, and the
fund fee it returns is 426258357 where the formula gives 1500000181.  And at the fee
rate `2 ^ 53 + 1` the product is taken in double precision: the reference party (with
enough funds) is charged a fund fee of `126 * 2 ^ 53 = 1134907106097364992`, 126 sats
less than `ceil(503 / 4) * (2 ^ 53 + 1)`, and a CET fee of `85 * 2 ^ 53`. -/
theorem GetChangeOutputAndFees_fund_fee_wraps :
    (∃ co ff cf, GetChangeOutputAndFees heavyParams 1 0 Address.empty = .ok (co, ff, cf) ∧
      ff = 426258357 ∧
      ff ≠ ((107 +
          (heavyParams.inputs_info.map fun i =>
            164 + 4 * i.input.unlocking_script.length + i.max_witness_length).sum +
          4 * heavyParams.change_script_pubkey.length + 36 + 3) / 4) * 1) ∧
    ∃ co ff cf,
      GetChangeOutputAndFees richLocal (2 ^ 53 + 1) 0 Address.empty = .ok (co, ff, cf) ∧
      ff = 1134907106097364992 ∧ cf = 765611936652984320 ∧
      ff ≠ ((107 +
          (richLocal.inputs_info.map fun i =>
            164 + 4 * i.input.unlocking_script.length + i.max_witness_length).sum +
          4 * richLocal.change_script_pubkey.length + 36 + 3) / 4) * (2 ^ 53 + 1) ∧
      cf ≠ ((249 + 4 * richLocal.final_script_pubkey.length + 3) / 4) * (2 ^ 53 + 1) :=
  ⟨⟨_, _, _, rfl, rfl, by decide⟩, _, _, _, rfl, rfl, rfl, by decide, by decide⟩

/-- C4, amended: when `GetChangeOutputAndFees` succeeds, `107 + Σ (164 + 4 *
unlocking_script_size + max_witness_length)` is below `2 ^ 32` (the 32-bit sum does not
wrap), and the weight `W` times the fee rate as well as the CET weight times the fee
rate are below `2 ^ 53` (the double arithmetic is exact), the fund fee is
`ceil(W / 4) * fee_rate` for `W = 107 + Σ ... + 4 * change_script_size + 36`, plus
`36 + 4 * premium_script_size` when the premium is positive, and the CET fee is
`ceil((249 + 4 * final_script_size) / 4) * fee_rate`, with integer ceiling division. -/
theorem GetChangeOutputAndFees_fees (params : PartyParams)
    (fee_rate option_premium : Nat) (option_dest : Address) (co : TxOut) (ff cf : Nat)
    (h : GetChangeOutputAndFees params fee_rate option_premium option_dest =
      .ok (co, ff, cf))
    (hwrap : 107 +
      (params.inputs_info.map fun i =>
        164 + 4 * i.input.unlocking_script.length + i.max_witness_length).sum < 2 ^ 32)
    (hfund : (107 +
        (params.inputs_info.map fun i =>
          164 + 4 * i.input.unlocking_script.length + i.max_witness_length).sum +
        4 * params.change_script_pubkey.length + 36 +
        (if 0 < option_premium then 36 + 4 * option_dest.locking_script.length else 0)) *
      fee_rate < 2 ^ 53)
    (hcet : (249 + 4 * params.final_script_pubkey.length) * fee_rate < 2 ^ 53) :
    ff = ((107 +
          (params.inputs_info.map fun i =>
            164 + 4 * i.input.unlocking_script.length + i.max_witness_length).sum +
        4 * params.change_script_pubkey.length + 36 +
        (if 0 < option_premium then 36 + 4 * option_dest.locking_script.length else 0) + 3) /
        4) * fee_rate ∧
    cf = ((249 + 4 * params.final_script_pubkey.length + 3) / 4) * fee_rate ∧
    (ff : ℚ) = ⌈((107 +
          (params.inputs_info.map fun i =>
            164 + 4 * i.input.unlocking_script.length + i.max_witness_length).sum +
        4 * params.change_script_pubkey.length + 36 +
        (if 0 < option_premium then 36 + 4 * option_dest.locking_script.length else 0) :
        ℕ) : ℚ) / 4⌉₊ * fee_rate ∧
    (cf : ℚ) = ⌈((249 + 4 * params.final_script_pubkey.length : ℕ) : ℚ) / 4⌉₊ * fee_rate := by
  obtain ⟨-, -, hff, hcf⟩ := (GetChangeOutputAndFees_ok_iff _ _ _ _ _ _ _).mp h
  have hW : fundWeight params option_premium option_dest =
      107 +
          (params.inputs_info.map fun i =>
            164 + 4 * i.input.unlocking_script.length + i.max_witness_length).sum +
        4 * params.change_script_pubkey.length + 36 +
        (if 0 < option_premium then 36 + 4 * option_dest.locking_script.length else 0) := by
    unfold fundWeight
    have hmod : (107 + (params.inputs_info.map inputWeight).sum) % 2 ^ 32 =
        107 + (params.inputs_info.map fun i =>
          164 + 4 * i.input.unlocking_script.length + i.max_witness_length).sum :=
      Nat.mod_eq_of_lt hwrap
    rw [hmod]
  have hff2 : ff = ((107 +
          (params.inputs_info.map fun i =>
            164 + 4 * i.input.unlocking_script.length + i.max_witness_length).sum +
        4 * params.change_script_pubkey.length + 36 +
        (if 0 < option_premium then 36 + 4 * option_dest.locking_script.length else 0) + 3) /
        4) * fee_rate := by
    rw [hff, ← hW]
    unfold fundFee
    exact feeOfWeight_small _ _ _ (fundWeightDouble_of_lt params option_premium option_dest)
      (by rw [hW]; exact hfund)
  have hcf2 : cf = ((249 + 4 * params.final_script_pubkey.length + 3) / 4) * fee_rate := by
    rw [hcf]
    unfold cetFee cetWeight
    exact feeOfWeight_small _ _ _ (roundToDouble_of_lt _) hcet
  refine ⟨hff2, hcf2, ?_, ?_⟩
  · rw [hff2, ceil_quarter]
    push_cast
    rfl
  · rw [hcf2, ceil_quarter]
    push_cast
    rfl

/-- Witness for C4: the local party of the reference scenario, fee rate 1, pays a fund
fee of 126 and a CET fee of 85. -/
theorem GetChangeOutputAndFees_fees_witness :
    GetChangeOutputAndFees sampleLocal 1 0 Address.empty =
      .ok ({ value := 4899999789, locking_script := List.replicate 22 1 }, 126, 85) ∧
    (107 +
      (sampleLocal.inputs_info.map fun i =>
        164 + 4 * i.input.unlocking_script.length + i.max_witness_length).sum < 2 ^ 32) ∧
    (126 : Nat) = ((107 +
          (sampleLocal.inputs_info.map fun i =>
            164 + 4 * i.input.unlocking_script.length + i.max_witness_length).sum +
        4 * sampleLocal.change_script_pubkey.length + 36 +
        (if 0 < 0 then 36 + 4 * Address.empty.locking_script.length else 0) + 3) / 4) * 1 ∧
    (85 : Nat) = ((249 + 4 * sampleLocal.final_script_pubkey.length + 3) / 4) * 1 :=
  ⟨rfl, by decide,
    (GetChangeOutputAndFees_fees sampleLocal 1 0 Address.empty
      { value := 4899999789, locking_script := List.replicate 22 1 } 126 85 rfl
      (by decide) (by decide) (by decide)).1,
    (GetChangeOutputAndFees_fees sampleLocal 1 0 Address.empty
      { value := 4899999789, locking_script := List.replicate 22 1 } 126 85 rfl
      (by decide) (by decide) (by decide)).2.1⟩

/-- C5: `GetChangeOutputAndFees` throws `IllegalArgument` exactly when the premium is
positive with an empty destination address or the input amount is below collateral +
fund fee + CET fee + premium; otherwise it returns the two fees and a change output on
the change script of value input − collateral − fund fee − CET fee − premium, with no
dust test.  The two fees are the ones the source computes in double precision
(`fundFee`, `cetFee`). -/
theorem GetChangeOutputAndFees_fails_iff (params : PartyParams)
    (fee_rate option_premium : Nat) (option_dest : Address) :
    GetChangeOutputAndFees params fee_rate option_premium option_dest =
      if (0 < option_premium ∧ option_dest.address = "") ∨
          params.input_amount <
            params.collateral + fundFee params fee_rate option_premium option_dest +
              cetFee params fee_rate + option_premium then
        .error .kCfdIllegalArgumentError
      else
        .ok ({ value := params.input_amount - params.collateral -
                fundFee params fee_rate option_premium option_dest -
                cetFee params fee_rate - option_premium,
               locking_script := params.change_script_pubkey },
             fundFee params fee_rate option_premium option_dest,
             cetFee params fee_rate) := by
  rw [GetChangeOutputAndFees_cases]
  simp only [changeFails, requiredInput, changeOutput]
  split_ifs
  · rfl
  · congr 3
    omega

/-- Witness for C5 at a fee rate the doubles of the source round: at fee rate
`2 ^ 53 + 1` the local party of the reference scenario is charged 1134907106097364992
and 765611936652984320 sats; with an input amount of its collateral plus these two fees
the call returns these fees and a change output of value 0, and with one satoshi less
it throws. -/
theorem GetChangeOutputAndFees_fails_iff_witness :
    GetChangeOutputAndFees { sampleLocal with input_amount := 1900519042850349312 }
        (2 ^ 53 + 1) 0 Address.empty =
      .ok ({ value := 0, locking_script := sampleLocal.change_script_pubkey },
           1134907106097364992, 765611936652984320) ∧
    GetChangeOutputAndFees { sampleLocal with input_amount := 1900519042850349311 }
        (2 ^ 53 + 1) 0 Address.empty = .error .kCfdIllegalArgumentError :=
  ⟨(GetChangeOutputAndFees_fails_iff
      { sampleLocal with input_amount := 1900519042850349312 } (2 ^ 53 + 1) 0
      Address.empty).trans rfl,
   (GetChangeOutputAndFees_fails_iff
      { sampleLocal with input_amount := 1900519042850349311 } (2 ^ 53 + 1) 0
      Address.empty).trans rfl⟩

/-- C6: `CreateDlcTransactions` throws `IllegalArgument` as soon as one outcome has
payouts that do not add up to the two collaterals, whatever the other arguments are;
on an empty outcomes vector the outcome check passes. -/
theorem CreateDlcTransactions_outcome_mismatch (E : Collab) (outcomes : List DlcOutcome)
    (local_params remote_params : PartyParams) (refund_locktime fee_rate : Nat)
    (option_dest : Address)
    (option_premium fund_lock_time cet_lock_time fund_output_serial_id : Nat)
    (hbad : ∃ o ∈ outcomes,
      o.local_payout + o.remote_payout ≠ local_params.collateral + remote_params.collateral) :
    CreateDlcTransactions E outcomes local_params remote_params refund_locktime fee_rate
        option_dest option_premium fund_lock_time cet_lock_time fund_output_serial_id =
      .error .kCfdIllegalArgumentError ∧
    checkOutcomes (local_params.collateral + remote_params.collateral) [] = .ok () := by
  refine ⟨?_, rfl⟩
  rw [CreateDlcTransactions_cases]
  simp only [hbad, if_true]

/-- Witness for C6: the second outcome of the reference scenario pays one satoshi less. -/
theorem CreateDlcTransactions_outcome_mismatch_witness :
    (∃ o ∈ [({ local_payout := 199900000, remote_payout := 100000 } : DlcOutcome),
          { local_payout := 100000, remote_payout := 199899999 }],
        o.local_payout + o.remote_payout ≠ sampleLocal.collateral + sampleRemote.collateral) ∧
    CreateDlcTransactions stableCollab
        [{ local_payout := 199900000, remote_payout := 100000 },
          { local_payout := 100000, remote_payout := 199899999 }]
        sampleLocal sampleRemote 100 1 Address.empty 0 0 0 0 =
      .error .kCfdIllegalArgumentError ∧
    checkOutcomes (sampleLocal.collateral + sampleRemote.collateral) [] = .ok () :=
  ⟨⟨{ local_payout := 100000, remote_payout := 199899999 }, by decide, by decide⟩,
    CreateDlcTransactions_outcome_mismatch stableCollab
      [{ local_payout := 199900000, remote_payout := 100000 },
        { local_payout := 100000, remote_payout := 199899999 }]
      sampleLocal sampleRemote 100 1 Address.empty 0 0 0 0
      ⟨{ local_payout := 100000, remote_payout := 199899999 }, by decide, by decide⟩⟩

/-- C7: `CreateCet` emits a payout exactly when its value is at least 1000 sats.  The
outputs of the CET are, up to order, the payouts of value at least 1000, each with its
script and value as given, so their number is the number of such payouts (2, 1 or 0);
a payout of 1000 is kept and one of 999 is dropped. -/
theorem CreateCet_emits_exactly_non_dust (E : Collab) (local_output remote_output : TxOut)
    (fund_tx_id : Txid) (fund_vout lock_time local_serial_id remote_serial_id : Nat) :
    ((CreateCet E local_output remote_output fund_tx_id fund_vout lock_time local_serial_id
        remote_serial_id).txouts.Perm
      ([local_output, remote_output].filter fun o => decide (1000 ≤ o.value))) ∧
    (CreateCet E local_output remote_output fund_tx_id fund_vout lock_time local_serial_id
        remote_serial_id).txouts.length =
      (if 1000 ≤ local_output.value then 1 else 0) +
        (if 1000 ≤ remote_output.value then 1 else 0) ∧
    (CreateCet E { value := 1000, locking_script := local_output.locking_script }
        { value := 999, locking_script := remote_output.locking_script } fund_tx_id fund_vout
        lock_time local_serial_id remote_serial_id).txouts =
      [{ value := 1000, locking_script := local_output.locking_script }] := by
  refine ⟨?_, ?_, ?_⟩
  · rw [CreateCet_txouts]
    by_cases h : remote_serial_id < local_serial_id
    · simp only [h, if_true, DUST_LIMIT]
      exact List.Perm.filter _ (List.Perm.swap _ _ _)
    · simp only [h, if_false, DUST_LIMIT]
      exact List.Perm.refl _
  · rw [CreateCet_txouts]
    simp only [DUST_LIMIT]
    by_cases h : remote_serial_id < local_serial_id <;>
      by_cases h1 : 1000 ≤ local_output.value <;>
      by_cases h2 : 1000 ≤ remote_output.value <;>
      simp [h, h1, h2, List.filter_cons]
  · rw [CreateCet_txouts]
    by_cases h : remote_serial_id < local_serial_id <;>
      simp [h, DUST_LIMIT, List.filter_cons]

/-- C8: when both payouts are at least 1000 sats, the CET lists the local payout first
and the remote payout second if `local_serial_id ≤ remote_serial_id` (equal ids
included), the remote payout first if `remote_serial_id < local_serial_id`; its only
input spends `(fund_tx_id, fund_vout)`. -/
theorem CreateCet_output_order (E : Collab) (local_output remote_output : TxOut)
    (fund_tx_id : Txid) (fund_vout lock_time local_serial_id remote_serial_id : Nat)
    (hlocal : 1000 ≤ local_output.value) (hremote : 1000 ≤ remote_output.value) :
    (CreateCet E local_output remote_output fund_tx_id fund_vout lock_time local_serial_id
        remote_serial_id).txouts =
      (if local_serial_id ≤ remote_serial_id then [local_output, remote_output]
        else [remote_output, local_output]) ∧
    (CreateCet E local_output remote_output fund_tx_id fund_vout lock_time local_serial_id
        remote_serial_id).txins =
      [{ txid := fund_tx_id, vout := fund_vout, unlocking_script := [] }] := by
  refine ⟨?_, CreateCet_txins _ _ _ _ _ _ _ _⟩
  rw [CreateCet_txouts]
  by_cases h : remote_serial_id < local_serial_id
  · have h2 : ¬ local_serial_id ≤ remote_serial_id := Nat.not_le.mpr h
    simp [h, h2, DUST_LIMIT, List.filter_cons, hlocal, hremote]
  · have h2 : local_serial_id ≤ remote_serial_id := Nat.not_lt.mp h
    simp [h, h2, DUST_LIMIT, List.filter_cons, hlocal, hremote]

/-- Witness for C8: equal serial ids, payouts of 1000 and 199999000 sats. -/
theorem CreateCet_output_order_witness :
    1000 ≤ ({ value := 1000, locking_script := [1] } : TxOut).value ∧
    1000 ≤ ({ value := 199999000, locking_script := [2] } : TxOut).value ∧
    (CreateCet stableCollab { value := 1000, locking_script := [1] }
        { value := 199999000, locking_script := [2] } [7] 0 0 5 5).txouts =
      (if 5 ≤ 5 then [{ value := 1000, locking_script := [1] },
          { value := 199999000, locking_script := [2] }]
        else [{ value := 199999000, locking_script := [2] },
          { value := 1000, locking_script := [1] }]) ∧
    (CreateCet stableCollab { value := 1000, locking_script := [1] }
        { value := 199999000, locking_script := [2] } [7] 0 0 5 5).txins =
      [{ txid := [7], vout := 0, unlocking_script := [] }] :=
  ⟨by decide, by decide,
    CreateCet_output_order stableCollab { value := 1000, locking_script := [1] }
      { value := 199999000, locking_script := [2] } [7] 0 0 5 5 (by decide) (by decide)⟩

/-- C9: the first three outputs of the funding transaction are the funding output, the
local change and the remote change, each with its script and value, arranged by a
stable sort on their serial ids: a permutation of the three in non-decreasing id order
in which the outputs of any one id keep the order funding, local change, remote
change. -/
theorem CreateFundTransaction_first_three_outputs (E : Collab)
    (local_fund_pubkey remote_fund_pubkey : Pubkey) (output_amount : Nat)
    (local_inputs_info : List TxInputInfo) (local_change_output : TxOut)
    (remote_inputs_info : List TxInputInfo) (remote_change_output : TxOut)
    (option_dest : Address) (option_premium : Nat) (lock_time : Nat)
    (local_serial_id remote_serial_id output_serial_id : Nat) :
    ∃ s : List TxOutputInfo,
      s.Perm
        [{ script := E.CreateP2wshLockingScript
              (CreateFundTxLockingScript E local_fund_pubkey remote_fund_pubkey),
           value := output_amount, output_serial_id := output_serial_id },
         { script := local_change_output.locking_script,
           value := local_change_output.value, output_serial_id := local_serial_id },
         { script := remote_change_output.locking_script,
           value := remote_change_output.value, output_serial_id := remote_serial_id }] ∧
      s.Pairwise (fun a b => a.output_serial_id ≤ b.output_serial_id) ∧
      (∀ k : Nat, s.filter (fun o => decide (o.output_serial_id = k)) =
        ([{ script := E.CreateP2wshLockingScript
              (CreateFundTxLockingScript E local_fund_pubkey remote_fund_pubkey),
            value := output_amount, output_serial_id := output_serial_id },
          { script := local_change_output.locking_script,
            value := local_change_output.value, output_serial_id := local_serial_id },
          { script := remote_change_output.locking_script,
            value := remote_change_output.value,
            output_serial_id := remote_serial_id }] : List TxOutputInfo).filter
          (fun o => decide (o.output_serial_id = k))) ∧
      (CreateFundTransaction E local_fund_pubkey remote_fund_pubkey output_amount
          local_inputs_info local_change_output remote_inputs_info remote_change_output
          option_dest option_premium lock_time local_serial_id remote_serial_id
          output_serial_id).txouts.take 3 =
        s.map fun o => { value := o.value, locking_script := o.script } := by
  refine ⟨insertionSort CompareOutputSerialId
    (fundOutputsInfo E local_fund_pubkey remote_fund_pubkey output_amount
      local_change_output remote_change_output local_serial_id remote_serial_id
      output_serial_id), insertionSort_perm _ _,
    insertionSort_sorted (fun o : TxOutputInfo => o.output_serial_id) _ (fun _ _ => rfl) _,
    fun k => insertionSort_filter (fun o : TxOutputInfo => o.output_serial_id) _
      (fun _ _ => rfl) k _, ?_⟩
  rw [CreateFundTransaction_txouts]
  have hlen : ((insertionSort CompareOutputSerialId
      (fundOutputsInfo E local_fund_pubkey remote_fund_pubkey output_amount
        local_change_output remote_change_output local_serial_id remote_serial_id
        output_serial_id)).map TxOutputInfo.toTxOut).length = 3 := by
    rw [List.length_map, (insertionSort_perm _ _).length_eq]
    rfl
  rw [List.take_append_of_le_length (Nat.le_of_eq hlen.symm), List.take_of_length_le
    (Nat.le_of_eq hlen)]
  rfl

/-- C10, as stated, fails: `std::sort` promises a sorted permutation and nothing about
elements that compare equal.  With a conforming `std::sort` that reverses runs of equal
elements on a range of 17, seventeen inputs of serial id 0 do not come out in the order
they were passed, so no arrangement that keeps equal ids in concatenation order is the
input list of the result. -/
theorem CreateFundTransaction_equal_ids_reordered :
    reversingCollab.SortConforms ∧
    ¬ ∃ s : List TxInputInfo,
      s.Perm (seventeenInputs ++ []) ∧
      s.Pairwise (fun a b => a.input_serial_id ≤ b.input_serial_id) ∧
      (∀ k : Nat, s.filter (fun i => decide (i.input_serial_id = k)) =
        (seventeenInputs ++ []).filter (fun i => decide (i.input_serial_id = k))) ∧
      (CreateFundTransaction reversingCollab { hex := "0279be" } { hex := "02c604" }
          200000170 seventeenInputs { value := 1, locking_script := [1] } []
          { value := 2, locking_script := [3] } Address.empty 0 0 0 0 0).txins =
        s.map fun i => i.input := by
  refine ⟨reversingCollab_conforms, ?_⟩
  rintro ⟨s, hperm, -, hfilter, htx⟩
  have hzero : ∀ i ∈ seventeenInputs ++ [], decide (i.input_serial_id = 0) = true := by
    decide
  have hall : ∀ i ∈ s, decide (i.input_serial_id = 0) = true :=
    fun i hi => hzero i (hperm.mem_iff.mp hi)
  have hs : s = seventeenInputs := by
    have h0 := hfilter 0
    rw [List.filter_eq_self.mpr hall] at h0
    rw [h0]
    decide
  rw [hs] at htx
  revert htx
  decide

/-- C10, amended: the inputs of the funding transaction are the inputs of a list `s`
that is a permutation of the local inputs followed by the remote inputs, in
non-decreasing order of `input_serial_id`; when there are at most 16 inputs in total,
inputs of equal serial id keep their concatenation order. -/
theorem CreateFundTransaction_inputs_sorted (E : Collab) (hE : E.SortConforms)
    (local_fund_pubkey remote_fund_pubkey : Pubkey) (output_amount : Nat)
    (local_inputs_info : List TxInputInfo) (local_change_output : TxOut)
    (remote_inputs_info : List TxInputInfo) (remote_change_output : TxOut)
    (option_dest : Address) (option_premium : Nat) (lock_time : Nat)
    (local_serial_id remote_serial_id output_serial_id : Nat) :
    ∃ s : List TxInputInfo,
      s.Perm (local_inputs_info ++ remote_inputs_info) ∧
      s.Pairwise (fun a b => a.input_serial_id ≤ b.input_serial_id) ∧
      (local_inputs_info.length + remote_inputs_info.length ≤ 16 →
        ∀ k : Nat, s.filter (fun i => decide (i.input_serial_id = k)) =
          (local_inputs_info ++ remote_inputs_info).filter
            (fun i => decide (i.input_serial_id = k))) ∧
      (CreateFundTransaction E local_fund_pubkey remote_fund_pubkey output_amount
          local_inputs_info local_change_output remote_inputs_info remote_change_output
          option_dest option_premium lock_time local_serial_id remote_serial_id
          output_serial_id).txins =
        s.map fun i => i.input := by
  refine ⟨stdSort E CompareSerialId (local_inputs_info ++ remote_inputs_info), ?_, ?_, ?_,
    CreateFundTransaction_txins _ _ _ _ _ _ _ _ _ _ _ _ _ _⟩
  · unfold stdSort
    split_ifs
    · exact insertionSort_perm _ _
    · exact (hE TxInputInfo (fun i => i.input_serial_id) _).1
  · unfold stdSort
    split_ifs
    · exact insertionSort_sorted (fun i : TxInputInfo => i.input_serial_id) _
        (fun _ _ => rfl) _
    · exact (hE TxInputInfo (fun i => i.input_serial_id) _).2
  · intro hlen k
    have hlen2 : (local_inputs_info ++ remote_inputs_info).length ≤ 16 := by
      rw [List.length_append]
      exact hlen
    unfold stdSort
    rw [if_pos hlen2]
    exact insertionSort_filter (fun i : TxInputInfo => i.input_serial_id) _
      (fun _ _ => rfl) k _

/-- Witness for C10: one local and one remote input, both of serial id 0. -/
theorem CreateFundTransaction_inputs_sorted_witness :
    stableCollab.SortConforms ∧
    ∃ s : List TxInputInfo,
      s.Perm ([sampleInput 1 0] ++ [sampleInput 2 0]) ∧
      s.Pairwise (fun a b => a.input_serial_id ≤ b.input_serial_id) ∧
      ([sampleInput 1 0].length + [sampleInput 2 0].length ≤ 16 →
        ∀ k : Nat, s.filter (fun i => decide (i.input_serial_id = k)) =
          ([sampleInput 1 0] ++ [sampleInput 2 0]).filter
            (fun i => decide (i.input_serial_id = k))) ∧
      (CreateFundTransaction stableCollab { hex := "0279be" } { hex := "02c604" } 200000170
          [sampleInput 1 0] { value := 4899999789, locking_script := [1] }
          [sampleInput 2 0] { value := 4899999789, locking_script := [3] }
          Address.empty 0 0 0 0 0).txins =
        s.map fun i => i.input :=
  ⟨stableCollab_conforms,
    CreateFundTransaction_inputs_sorted stableCollab stableCollab_conforms { hex := "0279be" }
      { hex := "02c604" } 200000170 [sampleInput 1 0]
      { value := 4899999789, locking_script := [1] } [sampleInput 2 0]
      { value := 4899999789, locking_script := [3] } Address.empty 0 0 0 0 0⟩

/-- C11: the funding transaction has exactly 3 outputs when the premium is 0 or below
1000 sats, and exactly 4 when the premium is at least 1000 sats; in that case output 3
pays the premium to the locking script of `option_dest`, whatever the serial ids are. -/
theorem CreateFundTransaction_output_count (E : Collab)
    (local_fund_pubkey remote_fund_pubkey : Pubkey) (output_amount : Nat)
    (local_inputs_info : List TxInputInfo) (local_change_output : TxOut)
    (remote_inputs_info : List TxInputInfo) (remote_change_output : TxOut)
    (option_dest : Address) (option_premium : Nat) (lock_time : Nat)
    (local_serial_id remote_serial_id output_serial_id : Nat) :
    (CreateFundTransaction E local_fund_pubkey remote_fund_pubkey output_amount
        local_inputs_info local_change_output remote_inputs_info remote_change_output
        option_dest option_premium lock_time local_serial_id remote_serial_id
        output_serial_id).txouts.length = (if 1000 ≤ option_premium then 4 else 3) ∧
    (CreateFundTransaction E local_fund_pubkey remote_fund_pubkey output_amount
        local_inputs_info local_change_output remote_inputs_info remote_change_output
        option_dest option_premium lock_time local_serial_id remote_serial_id
        output_serial_id).txouts[3]? =
      (if 1000 ≤ option_premium then
        some { value := option_premium, locking_script := option_dest.locking_script }
      else none) := by
  obtain ⟨a, b, c, h⟩ := CreateFundTransaction_txouts_split E local_fund_pubkey
    remote_fund_pubkey output_amount local_inputs_info local_change_output
    remote_inputs_info remote_change_output option_dest option_premium lock_time
    local_serial_id remote_serial_id output_serial_id
  rw [h]
  simp only [DUST_LIMIT]
  split_ifs <;> simp

/-- C12: the fund locking script is the same for `(a, b)` and `(b, a)`, and it is the
2-of-2 multisig redeem script over the two keys in ascending order of their hex
strings: the key list handed to `CreateMultisigRedeemScript` is `[a, b]` or `[b, a]`
and its second key is not below its first. -/
theorem CreateFundTxLockingScript_symmetric (E : Collab) (a b : Pubkey) :
    CreateFundTxLockingScript E a b = CreateFundTxLockingScript E b a ∧
    ∃ x y : Pubkey, (([x, y] : List Pubkey) = [a, b] ∨ ([x, y] : List Pubkey) = [b, a]) ∧
      stringLess y.hex.data x.hex.data = false ∧
      CreateFundTxLockingScript E a b = E.CreateMultisigRedeemScript 2 [x, y] := by
  refine ⟨CreateFundTxLockingScript_comm E a b, ?_⟩
  unfold CreateFundTxLockingScript GetOrderedPubkeys
  by_cases hab : stringLess a.hex.data b.hex.data = true
  · exact ⟨a, b, Or.inl rfl, stringLess_asymm _ _ hab, by rw [if_pos hab]⟩
  · exact ⟨b, a, Or.inr rfl, Bool.not_eq_true _ ▸ hab, by rw [if_neg hab]⟩

/-- C13, as stated, fails: with all serial ids 0 (the reference scenario) equal ids keep
their insertion order, so passing the parties the other way round exchanges the two
change outputs and the two inputs. -/
theorem CreateFundTransaction_swap_differs :
    CreateFundTransaction stableCollab sampleLocal.fund_pubkey sampleRemote.fund_pubkey
        200000170 sampleLocal.inputs_info
        { value := 4899999789, locking_script := sampleLocal.change_script_pubkey }
        sampleRemote.inputs_info
        { value := 4899999789, locking_script := sampleRemote.change_script_pubkey }
        Address.empty 0 0 0 0 0 ≠
      CreateFundTransaction stableCollab sampleRemote.fund_pubkey sampleLocal.fund_pubkey
        200000170 sampleRemote.inputs_info
        { value := 4899999789, locking_script := sampleRemote.change_script_pubkey }
        sampleLocal.inputs_info
        { value := 4899999789, locking_script := sampleLocal.change_script_pubkey }
        Address.empty 0 0 0 0 0 := by
  decide

/-- C13, amended: exchanging the two parties (fund pubkeys, input lists, change outputs
and change serial ids) leaves the funding transaction unchanged provided the two change
serial ids differ and the input serial ids do not tie across the parties: either all
input serial ids are pairwise distinct, or there are at most 16 inputs and no local input
has the serial id of a remote input. -/
theorem CreateFundTransaction_swap (E : Collab) (hE : E.SortConforms)
    (local_fund_pubkey remote_fund_pubkey : Pubkey) (output_amount : Nat)
    (local_inputs_info : List TxInputInfo) (local_change_output : TxOut)
    (remote_inputs_info : List TxInputInfo) (remote_change_output : TxOut)
    (option_dest : Address) (option_premium : Nat) (lock_time : Nat)
    (local_serial_id remote_serial_id output_serial_id : Nat)
    (hchange : local_serial_id ≠ remote_serial_id)
    (hinputs :
      (local_inputs_info.length + remote_inputs_info.length ≤ 16 ∧
        ∀ i ∈ local_inputs_info, ∀ j ∈ remote_inputs_info,
          i.input_serial_id ≠ j.input_serial_id) ∨
      (local_inputs_info ++ remote_inputs_info).Pairwise
        fun a b => a.input_serial_id ≠ b.input_serial_id) :
    CreateFundTransaction E local_fund_pubkey remote_fund_pubkey output_amount
        local_inputs_info local_change_output remote_inputs_info remote_change_output
        option_dest option_premium lock_time local_serial_id remote_serial_id
        output_serial_id =
      CreateFundTransaction E remote_fund_pubkey local_fund_pubkey output_amount
        remote_inputs_info remote_change_output local_inputs_info local_change_output
        option_dest option_premium lock_time remote_serial_id local_serial_id
        output_serial_id := by
  apply TransactionController.eq_of_fields
  · rw [(CreateFundTransaction_version _ _ _ _ _ _ _ _ _ _ _ _ _ _).1,
      (CreateFundTransaction_version _ _ _ _ _ _ _ _ _ _ _ _ _ _).1]
  · rw [(CreateFundTransaction_version _ _ _ _ _ _ _ _ _ _ _ _ _ _).2,
      (CreateFundTransaction_version _ _ _ _ _ _ _ _ _ _ _ _ _ _).2]
  · rw [CreateFundTransaction_txins, CreateFundTransaction_txins]
    exact congrArg (List.map fun i => i.input)
      (stdSort_append_comm E hE (fun i : TxInputInfo => i.input_serial_id) local_inputs_info
        remote_inputs_info hinputs)
  · rw [CreateFundTransaction_txouts, CreateFundTransaction_txouts]
    simp only [fundOutputsInfo]
    rw [CreateFundTxLockingScript_comm E remote_fund_pubkey local_fund_pubkey,
      insertionSort_change_swap _ _ _ hchange]

/-- Witness for C13: the serial ids of the unique-id reference scenario (change 4593 and
2332, inputs 3043 and 2302, funding output 8702). -/
theorem CreateFundTransaction_swap_witness :
    stableCollab.SortConforms ∧ (4593 : Nat) ≠ 2332 ∧
    (([sampleInput 1 3043].length + [sampleInput 2 2302].length ≤ 16 ∧
        ∀ i ∈ [sampleInput 1 3043], ∀ j ∈ [sampleInput 2 2302],
          i.input_serial_id ≠ j.input_serial_id) ∨
      ([sampleInput 1 3043] ++ [sampleInput 2 2302]).Pairwise
        fun a b => a.input_serial_id ≠ b.input_serial_id) ∧
    CreateFundTransaction stableCollab sampleLocal.fund_pubkey sampleRemote.fund_pubkey
        200000170 [sampleInput 1 3043]
        { value := 4899999789, locking_script := sampleLocal.change_script_pubkey }
        [sampleInput 2 2302]
        { value := 4899999789, locking_script := sampleRemote.change_script_pubkey }
        Address.empty 0 0 4593 2332 8702 =
      CreateFundTransaction stableCollab sampleRemote.fund_pubkey sampleLocal.fund_pubkey
        200000170 [sampleInput 2 2302]
        { value := 4899999789, locking_script := sampleRemote.change_script_pubkey }
        [sampleInput 1 3043]
        { value := 4899999789, locking_script := sampleLocal.change_script_pubkey }
        Address.empty 0 0 2332 4593 8702 :=
  ⟨stableCollab_conforms, by decide, Or.inl (by decide),
    CreateFundTransaction_swap stableCollab stableCollab_conforms sampleLocal.fund_pubkey
      sampleRemote.fund_pubkey 200000170 [sampleInput 1 3043]
      { value := 4899999789, locking_script := sampleLocal.change_script_pubkey }
      [sampleInput 2 2302]
      { value := 4899999789, locking_script := sampleRemote.change_script_pubkey }
      Address.empty 0 0 4593 2332 8702 (by decide) (Or.inl (by decide))⟩

/-- C14: `CreateRefundTransaction` returns a version-2 transaction with the given (32-bit)
locktime, one input spending `(fund_tx_id, fund_vout)` and the two outputs (local final
script, local amount), (remote final script, remote amount) in that order, unsorted and
unfiltered.  In `CreateDlcTransactions` the refund outputs carry the two collaterals, and
the refund transaction is the same for all payout serial ids. -/
theorem CreateRefundTransaction_shape (E : Collab) (outcomes : List DlcOutcome)
    (local_params remote_params : PartyParams) (refund_locktime fee_rate : Nat)
    (option_dest : Address)
    (option_premium fund_lock_time cet_lock_time fund_output_serial_id : Nat)
    (local_final_script_pubkey remote_final_script_pubkey : Script)
    (local_amount remote_amount lock_time : Nat) (fund_tx_id : Txid) (fund_vout : Nat)
    (local_payout_id remote_payout_id : Nat) (hlock : lock_time < 2 ^ 32) :
    CreateRefundTransaction local_final_script_pubkey remote_final_script_pubkey
        local_amount remote_amount lock_time fund_tx_id fund_vout =
      { version := 2, lock_time := lock_time
        txins := [{ txid := fund_tx_id, vout := fund_vout, unlocking_script := [] }]
        txouts := [{ value := local_amount, locking_script := local_final_script_pubkey },
          { value := remote_amount, locking_script := remote_final_script_pubkey }] } ∧
    (CreateDlcTransactions E outcomes local_params remote_params refund_locktime fee_rate
        option_dest option_premium fund_lock_time cet_lock_time
        fund_output_serial_id).map (fun r => r.refund_transaction.txouts) =
      (CreateDlcTransactions E outcomes local_params remote_params refund_locktime fee_rate
        option_dest option_premium fund_lock_time cet_lock_time
        fund_output_serial_id).map (fun _ =>
          [{ value := local_params.collateral,
             locking_script := local_params.final_script_pubkey },
           { value := remote_params.collateral,
             locking_script := remote_params.final_script_pubkey }]) ∧
    (CreateDlcTransactions E outcomes
        { local_params with payout_serial_id := local_payout_id }
        { remote_params with payout_serial_id := remote_payout_id } refund_locktime fee_rate
        option_dest option_premium fund_lock_time cet_lock_time
        fund_output_serial_id).map (fun r => r.refund_transaction) =
      (CreateDlcTransactions E outcomes local_params remote_params refund_locktime fee_rate
        option_dest option_premium fund_lock_time cet_lock_time
        fund_output_serial_id).map (fun r => r.refund_transaction) := by
  refine ⟨?_, ?_, ?_⟩
  · simp only [CreateRefundTransaction, TransactionController.create,
      TransactionController.AddTxIn, TransactionController.AddTxInScript,
      TransactionController.AddTxOut, TX_VERSION, Nat.mod_eq_of_lt hlock]
    rfl
  · rw [CreateDlcTransactions_cases]
    split_ifs <;> rfl
  · rw [CreateDlcTransactions_cases, CreateDlcTransactions_cases]
    split_ifs <;> first
      | rfl
      | contradiction

/-- Witness for C14: the refund transaction of the reference scenario, locktime 100. -/
theorem CreateRefundTransaction_shape_witness :
    (100 : Nat) < 2 ^ 32 ∧
    CreateRefundTransaction (List.replicate 22 2) (List.replicate 22 4) 100000000 100000000
        100 [2, 0, 2, 3] 0 =
      { version := 2, lock_time := 100
        txins := [{ txid := [2, 0, 2, 3], vout := 0, unlocking_script := [] }]
        txouts := [{ value := 100000000, locking_script := List.replicate 22 2 },
          { value := 100000000, locking_script := List.replicate 22 4 }] } ∧
    (CreateDlcTransactions stableCollab sampleOutcomes sampleLocal sampleRemote 100 1
        Address.empty 0 0 0 0).map (fun r => r.refund_transaction.txouts) =
      (CreateDlcTransactions stableCollab sampleOutcomes sampleLocal sampleRemote 100 1
        Address.empty 0 0 0 0).map (fun _ =>
          [{ value := sampleLocal.collateral,
             locking_script := sampleLocal.final_script_pubkey },
           { value := sampleRemote.collateral,
             locking_script := sampleRemote.final_script_pubkey }]) ∧
    (CreateDlcTransactions stableCollab sampleOutcomes
        { sampleLocal with payout_serial_id := 7 }
        { sampleRemote with payout_serial_id := 3 } 100 1 Address.empty 0 0 0 0).map
        (fun r => r.refund_transaction) =
      (CreateDlcTransactions stableCollab sampleOutcomes sampleLocal sampleRemote 100 1
        Address.empty 0 0 0 0).map (fun r => r.refund_transaction) :=
  ⟨by decide, CreateRefundTransaction_shape stableCollab sampleOutcomes sampleLocal
    sampleRemote 100 1 Address.empty 0 0 0 0 (List.replicate 22 2) (List.replicate 22 4)
    100000000 100000000 100 [2, 0, 2, 3] 0 7 3 (by decide)⟩

/-- C15: `CreateCets` returns one CET per outcome, in order: the list obtained by
applying `CreateCet` to the payouts of each outcome with the same fund txid, fund vout,
locktime and serial ids.  No outcomes give no CETs, and `CreateDlcTransactions` on an
empty outcomes vector returns (with an empty CET vector) exactly when the change
computation of both parties succeeds. -/
theorem CreateCets_maps_CreateCet (E : Collab) (fund_tx_id : Txid) (fund_vout : Nat)
    (local_final_script_pubkey remote_final_script_pubkey : Script)
    (outcomes : List DlcOutcome) (lock_time local_serial_id remote_serial_id : Nat)
    (local_params remote_params : PartyParams) (refund_locktime fee_rate : Nat)
    (option_dest : Address)
    (option_premium fund_lock_time cet_lock_time fund_output_serial_id : Nat) :
    CreateCets E fund_tx_id fund_vout local_final_script_pubkey remote_final_script_pubkey
        outcomes lock_time local_serial_id remote_serial_id =
      outcomes.map (fun o =>
        CreateCet E { value := o.local_payout, locking_script := local_final_script_pubkey }
          { value := o.remote_payout, locking_script := remote_final_script_pubkey }
          fund_tx_id fund_vout lock_time local_serial_id remote_serial_id) ∧
    (CreateCets E fund_tx_id fund_vout local_final_script_pubkey remote_final_script_pubkey
        outcomes lock_time local_serial_id remote_serial_id).length = outcomes.length ∧
    CreateCets E fund_tx_id fund_vout local_final_script_pubkey remote_final_script_pubkey
        [] lock_time local_serial_id remote_serial_id = [] ∧
    ((∃ r, CreateDlcTransactions E [] local_params remote_params refund_locktime fee_rate
          option_dest option_premium fund_lock_time cet_lock_time fund_output_serial_id =
        .ok r ∧ r.cets = []) ↔
      (∃ a, GetChangeOutputAndFees local_params fee_rate option_premium option_dest =
          .ok a) ∧
        ∃ b, GetChangeOutputAndFees remote_params fee_rate 0 Address.empty = .ok b) := by
  refine ⟨rfl, by simp [CreateCets], rfl, ?_⟩
  rw [CreateDlcTransactions_cases, GetChangeOutputAndFees_cases,
    GetChangeOutputAndFees_cases]
  by_cases hl : changeFails local_params fee_rate option_premium option_dest <;>
    by_cases hr : changeFails remote_params fee_rate 0 Address.empty <;>
    simp [hl, hr, CreateCets]

/-- C16: every CET of a successful `CreateDlcTransactions` belongs to one outcome, and
the values of its outputs plus the payouts of that outcome that were dropped as dust
(below 1000 sats) add up to local collateral + remote collateral; with both payouts at
least 1000 sats the outputs alone add up to the total collateral. -/
theorem CreateDlcTransactions_cet_conservation (E : Collab) (outcomes : List DlcOutcome)
    (local_params remote_params : PartyParams) (refund_locktime fee_rate : Nat)
    (option_dest : Address)
    (option_premium fund_lock_time cet_lock_time fund_output_serial_id : Nat)
    (r : DlcTransactions)
    (h : CreateDlcTransactions E outcomes local_params remote_params refund_locktime fee_rate
        option_dest option_premium fund_lock_time cet_lock_time fund_output_serial_id =
      .ok r) :
    List.Forall₂
      (fun (o : DlcOutcome) (cet : TransactionController) =>
        (cet.txouts.map fun out => out.value).sum +
            (if o.local_payout < 1000 then o.local_payout else 0) +
            (if o.remote_payout < 1000 then o.remote_payout else 0) =
          local_params.collateral + remote_params.collateral ∧
        (1000 ≤ o.local_payout → 1000 ≤ o.remote_payout →
          (cet.txouts.map fun out => out.value).sum =
            local_params.collateral + remote_params.collateral))
      outcomes r.cets := by
  have hsum := CreateDlcTransactions_ok_outcomes _ _ _ _ _ _ _ _ _ _ _ _ h
  obtain ⟨-, -, -, hcets, -⟩ := CreateDlcTransactions_ok _ _ _ _ _ _ _ _ _ _ _ _ h
  rw [hcets]
  unfold CreateCets
  rw [List.forall₂_map_right_iff, List.forall₂_same]
  intro o ho
  have ho2 := hsum o ho
  rw [CreateCet_txouts]
  simp only [DUST_LIMIT]
  by_cases hid : local_params.payout_serial_id < remote_params.payout_serial_id <;>
    by_cases h1 : 1000 ≤ o.local_payout <;>
    by_cases h2 : 1000 ≤ o.remote_payout <;>
    simp [h1, h2, List.filter_cons, Nat.not_lt.mpr, Nat.lt_of_not_le] <;>
    split_ifs <;>
    simp [h1, h2, List.filter_cons] <;>
    omega

/-- Witness for C16: the two CETs of the reference scenario. -/
theorem CreateDlcTransactions_cet_conservation_witness :
    CreateDlcTransactions stableCollab sampleOutcomes sampleLocal sampleRemote 100 1
        Address.empty 0 0 0 0 = .ok sampleTransactions ∧
    List.Forall₂
      (fun (o : DlcOutcome) (cet : TransactionController) =>
        (cet.txouts.map fun out => out.value).sum +
            (if o.local_payout < 1000 then o.local_payout else 0) +
            (if o.remote_payout < 1000 then o.remote_payout else 0) =
          sampleLocal.collateral + sampleRemote.collateral ∧
        (1000 ≤ o.local_payout → 1000 ≤ o.remote_payout →
          (cet.txouts.map fun out => out.value).sum =
            sampleLocal.collateral + sampleRemote.collateral))
      sampleOutcomes sampleTransactions.cets :=
  ⟨rfl, CreateDlcTransactions_cet_conservation stableCollab sampleOutcomes sampleLocal
    sampleRemote 100 1 Address.empty 0 0 0 0 sampleTransactions rfl⟩

/-- C17, as stated, fails for the remote party: the premium enters the change
computation of the local party only.  With a premium of 100000 sats and a remote input
of exactly collateral + fund fee + CET fee, `CreateDlcTransactions` succeeds although
the remote input is below collateral + fund fee + CET fee + premium. -/
theorem CreateDlcTransactions_remote_below_premium :
    (∃ r, CreateDlcTransactions stableCollab sampleOutcomes sampleLocal tightRemote 100 1
        sampleDest 100000 0 0 0 = .ok r) ∧
    GetChangeOutputAndFees tightRemote 1 0 Address.empty =
      .ok ({ value := 0, locking_script := List.replicate 22 3 }, 126, 85) ∧
    tightRemote.input_amount < tightRemote.collateral + 126 + 85 + 100000 :=
  ⟨⟨_, rfl⟩, rfl, by decide⟩

/-- C17, amended: after a successful `CreateDlcTransactions` the local input amount is
at least local collateral + local fund fee + local CET fee + premium, and the remote
input amount is at least remote collateral + remote fund fee + remote CET fee. -/
theorem CreateDlcTransactions_inputs_cover (E : Collab) (outcomes : List DlcOutcome)
    (local_params remote_params : PartyParams) (refund_locktime fee_rate : Nat)
    (option_dest : Address)
    (option_premium fund_lock_time cet_lock_time fund_output_serial_id : Nat)
    (r : DlcTransactions)
    (h : CreateDlcTransactions E outcomes local_params remote_params refund_locktime fee_rate
        option_dest option_premium fund_lock_time cet_lock_time fund_output_serial_id =
      .ok r) :
    ∃ (local_change remote_change : TxOut)
        (local_fund_fee local_cet_fee remote_fund_fee remote_cet_fee : Nat),
      GetChangeOutputAndFees local_params fee_rate option_premium option_dest =
        .ok (local_change, local_fund_fee, local_cet_fee) ∧
      GetChangeOutputAndFees remote_params fee_rate 0 Address.empty =
        .ok (remote_change, remote_fund_fee, remote_cet_fee) ∧
      local_params.collateral + local_fund_fee + local_cet_fee + option_premium ≤
        local_params.input_amount ∧
      remote_params.collateral + remote_fund_fee + remote_cet_fee ≤
        remote_params.input_amount := by
  obtain ⟨hl, hr, -, -, -⟩ := CreateDlcTransactions_ok _ _ _ _ _ _ _ _ _ _ _ _ h
  refine ⟨_, _, _, _, _, _,
    (GetChangeOutputAndFees_ok_iff _ _ _ _ _ _ _).mpr ⟨hl, rfl, rfl, rfl⟩,
    (GetChangeOutputAndFees_ok_iff _ _ _ _ _ _ _).mpr ⟨hr, rfl, rfl, rfl⟩, ?_, ?_⟩
  · have hl2 : ¬ local_params.input_amount <
        requiredInput local_params fee_rate option_premium option_dest :=
      fun h => hl (Or.inr h)
    simp only [requiredInput] at hl2
    omega
  · have hr2 : ¬ remote_params.input_amount <
        requiredInput remote_params fee_rate 0 Address.empty :=
      fun h => hr (Or.inr h)
    simp only [requiredInput] at hr2
    omega

/-- Witness for C17: the reference scenario. -/
theorem CreateDlcTransactions_inputs_cover_witness :
    CreateDlcTransactions stableCollab sampleOutcomes sampleLocal sampleRemote 100 1
        Address.empty 0 0 0 0 = .ok sampleTransactions ∧
    ∃ (local_change remote_change : TxOut)
        (local_fund_fee local_cet_fee remote_fund_fee remote_cet_fee : Nat),
      GetChangeOutputAndFees sampleLocal 1 0 Address.empty =
        .ok (local_change, local_fund_fee, local_cet_fee) ∧
      GetChangeOutputAndFees sampleRemote 1 0 Address.empty =
        .ok (remote_change, remote_fund_fee, remote_cet_fee) ∧
      sampleLocal.collateral + local_fund_fee + local_cet_fee + 0 ≤
        sampleLocal.input_amount ∧
      sampleRemote.collateral + remote_fund_fee + remote_cet_fee ≤
        sampleRemote.input_amount :=
  ⟨rfl, CreateDlcTransactions_inputs_cover stableCollab sampleOutcomes sampleLocal
    sampleRemote 100 1 Address.empty 0 0 0 0 sampleTransactions rfl⟩

/-- C18: `ComputeAdaptorPoint` throws, and then `IllegalArgument`, exactly when the
number of nonces differs from the number of messages.  With one message and one nonce
it returns `ComputeSigPoint(m, R, P)`, with more than one message and as many nonces it
returns `ComputeSigPointBatch(msgs, r_values, P)`.  `CreateCetAdaptorSignature` and
`VerifyCetAdaptorSignature` throw `IllegalArgument` when given more nonces than
messages. -/
theorem ComputeAdaptorPoint_fails_iff (C : Crypto) (msgs : List ByteData256)
    (r_values : List SchnorrPubkey) (pubkey : SchnorrPubkey) (m : ByteData256)
    (R : SchnorrPubkey) (cet : TransactionController) (adaptor_pair : AdaptorPair)
    (funding_pubkey : Pubkey) (funding_sk : Privkey) (funding_script_pubkey : Script)
    (total_collateral : Nat) :
    (ComputeAdaptorPoint C msgs r_values pubkey = .error .kCfdIllegalArgumentError ↔
      r_values.length ≠ msgs.length) ∧
    ((∃ e, ComputeAdaptorPoint C msgs r_values pubkey = .error e) ↔
      r_values.length ≠ msgs.length) ∧
    ComputeAdaptorPoint C [m] [R] pubkey = .ok (C.ComputeSigPoint m R pubkey) ∧
    (r_values.length = msgs.length → 1 < msgs.length →
      ComputeAdaptorPoint C msgs r_values pubkey =
        .ok (C.ComputeSigPointBatch msgs r_values pubkey)) ∧
    (msgs.length < r_values.length →
      CreateCetAdaptorSignature C cet pubkey r_values funding_sk funding_script_pubkey
          total_collateral msgs = .error .kCfdIllegalArgumentError ∧
      VerifyCetAdaptorSignature C adaptor_pair cet funding_pubkey pubkey r_values
          funding_script_pubkey total_collateral msgs =
        .error .kCfdIllegalArgumentError) := by
  refine ⟨?_, ?_, rfl, ?_, ?_⟩
  · rw [ComputeAdaptorPoint_eq]
    split_ifs with h <;> simp [h]
  · rw [ComputeAdaptorPoint_eq]
    split_ifs with h <;> simp [h]
  · intro hlen hmany
    rw [ComputeAdaptorPoint_eq, if_neg (fun h => h hlen)]
    match msgs, hmany with
    | _ :: _ :: _, _ => rfl
  · intro hmore
    have hne : r_values.length ≠ msgs.length := by omega
    rw [CreateCetAdaptorSignature_eq, VerifyCetAdaptorSignature_eq, if_pos hne, if_pos hne]
    exact ⟨rfl, rfl⟩

/-- Witness for C18: one message against two nonces makes both single-CET routines
throw. -/
theorem ComputeAdaptorPoint_fails_iff_witness :
    CreateCetAdaptorSignature rejectingCrypto sampleTransactions.refund_transaction [7]
        [[9], [8]] [3] [2, 6, 6] 200000170 [[1]] = .error .kCfdIllegalArgumentError ∧
    VerifyCetAdaptorSignature rejectingCrypto samplePair
        sampleTransactions.refund_transaction sampleLocal.fund_pubkey [7] [[9], [8]]
        [2, 6, 6] 200000170 [[1]] = .error .kCfdIllegalArgumentError :=
  (ComputeAdaptorPoint_fails_iff rejectingCrypto [[1]] [[9], [8]] [7] [1] [9]
    sampleTransactions.refund_transaction samplePair sampleLocal.fund_pubkey [3] [2, 6, 6]
    200000170).2.2.2.2 (by decide)

/-- C19: `CreateCetAdaptorSignatures` throws `IllegalArgument` when the number of CETs
differs from the number of message lists and when some message list has more messages
than there are nonces.  Otherwise it returns one adaptor pair per CET, in CET order, each
made from its CET, its message list and the first nonces.  A vector it returns always
has one pair for every CET. -/
theorem CreateCetAdaptorSignatures_checks (C : Crypto) (cets : List TransactionController)
    (oracle_pubkey : SchnorrPubkey) (oracle_r_values : List SchnorrPubkey)
    (funding_sk : Privkey) (funding_script_pubkey : Script) (total_collateral : Nat)
    (msgs : List (List ByteData256)) :
    (cets.length ≠ msgs.length →
      CreateCetAdaptorSignatures C cets oracle_pubkey oracle_r_values funding_sk
        funding_script_pubkey total_collateral msgs = .error .kCfdIllegalArgumentError) ∧
    ((∃ m ∈ msgs, oracle_r_values.length < m.length) →
      CreateCetAdaptorSignatures C cets oracle_pubkey oracle_r_values funding_sk
        funding_script_pubkey total_collateral msgs = .error .kCfdIllegalArgumentError) ∧
    (cets.length = msgs.length → (∀ m ∈ msgs, m.length ≤ oracle_r_values.length) →
      ∃ sigs, CreateCetAdaptorSignatures C cets oracle_pubkey oracle_r_values funding_sk
          funding_script_pubkey total_collateral msgs = .ok sigs ∧
        sigs.length = cets.length ∧
        List.Forall₂
          (fun (x : TransactionController × List ByteData256) sig =>
            CreateCetAdaptorSignature C x.1 oracle_pubkey (oracle_r_values.take x.2.length)
              funding_sk funding_script_pubkey total_collateral x.2 = .ok sig)
          (List.zip cets msgs) sigs) ∧
    (∀ sigs, CreateCetAdaptorSignatures C cets oracle_pubkey oracle_r_values funding_sk
        funding_script_pubkey total_collateral msgs = .ok sigs →
      sigs.length = cets.length) := by
  have hok : cets.length = msgs.length → (∀ m ∈ msgs, m.length ≤ oracle_r_values.length) →
      ∃ sigs, CreateCetAdaptorSignatures C cets oracle_pubkey oracle_r_values funding_sk
          funding_script_pubkey total_collateral msgs = .ok sigs ∧
        sigs.length = cets.length ∧
        List.Forall₂
          (fun (x : TransactionController × List ByteData256) sig =>
            CreateCetAdaptorSignature C x.1 oracle_pubkey (oracle_r_values.take x.2.length)
              funding_sk funding_script_pubkey total_collateral x.2 = .ok sig)
          (List.zip cets msgs) sigs := by
    intro hlen hfit
    obtain ⟨sigs, hsigs, hall⟩ := createCetAdaptorSignaturesLoop_ok C oracle_pubkey
      oracle_r_values funding_sk funding_script_pubkey total_collateral cets msgs hlen hfit
    refine ⟨sigs, ?_, ?_, hall⟩
    · unfold CreateCetAdaptorSignatures
      rw [if_neg (fun h => h hlen), hsigs]
    · rw [← hall.length_eq, List.length_zip, ← hlen, Nat.min_self]
  have hlongcase : (∃ m ∈ msgs, oracle_r_values.length < m.length) →
      CreateCetAdaptorSignatures C cets oracle_pubkey oracle_r_values funding_sk
        funding_script_pubkey total_collateral msgs = .error .kCfdIllegalArgumentError := by
    intro hlong
    unfold CreateCetAdaptorSignatures
    by_cases hlen : cets.length = msgs.length
    · rw [if_neg (fun h => h hlen)]
      exact createCetAdaptorSignaturesLoop_long C oracle_pubkey oracle_r_values funding_sk
        funding_script_pubkey total_collateral cets msgs hlen hlong
    · rw [if_pos hlen]
  refine ⟨?_, hlongcase, hok, ?_⟩
  · intro hlen
    unfold CreateCetAdaptorSignatures
    rw [if_pos hlen]
  · intro sigs hsigs
    by_cases hlen : cets.length = msgs.length
    · by_cases hlong : ∃ m ∈ msgs, oracle_r_values.length < m.length
      · rw [hlongcase hlong] at hsigs
        cases hsigs
      · have hfit : ∀ m ∈ msgs, m.length ≤ oracle_r_values.length := by
          intro m hm
          by_contra hgt
          exact hlong ⟨m, hm, Nat.lt_of_not_le hgt⟩
        obtain ⟨sigs2, h2, hl2, -⟩ := hok hlen hfit
        rw [h2] at hsigs
        cases hsigs
        exact hl2
    · unfold CreateCetAdaptorSignatures at hsigs
      rw [if_pos hlen] at hsigs
      cases hsigs

/-- Witness for C19: two CETs, message lists of one and two messages, two nonces. -/
theorem CreateCetAdaptorSignatures_checks_witness :
    ∃ sigs, CreateCetAdaptorSignatures rejectingCrypto sampleTransactions.cets [7]
        [[9], [8]] [3] [2, 6, 6] 200000170 sampleMsgs = .ok sigs ∧
      sigs.length = sampleTransactions.cets.length ∧
      List.Forall₂
        (fun (x : TransactionController × List ByteData256) sig =>
          CreateCetAdaptorSignature rejectingCrypto x.1 [7]
            (([[9], [8]] : List SchnorrPubkey).take x.2.length) [3] [2, 6, 6] 200000170
            x.2 = .ok sig)
        (List.zip sampleTransactions.cets sampleMsgs) sigs :=
  (CreateCetAdaptorSignatures_checks rejectingCrypto sampleTransactions.cets [7] [[9], [8]]
    [3] [2, 6, 6] 200000170 sampleMsgs).2.2.1 (by decide) (by decide)

/-- C20, as stated, fails: the loop of `VerifyCetAdaptorSignatures` stops at the first
pair that does not verify.  With two CETs, a first pair that does not verify and a
second message list of two messages against one nonce, the call returns `false` and
does not throw. -/
theorem VerifyCetAdaptorSignatures_returns_false :
    sampleTransactions.cets.length = [samplePair, samplePair].length ∧
    sampleTransactions.cets.length = sampleMsgs.length ∧
    (∃ m ∈ sampleMsgs, ([[9]] : List SchnorrPubkey).length < m.length) ∧
    VerifyCetAdaptorSignatures rejectingCrypto sampleTransactions.cets
        [samplePair, samplePair] sampleMsgs sampleLocal.fund_pubkey [7] [[9]]
        [2, 6, 6] 200000170 = .ok false :=
  ⟨by decide, by decide, ⟨[[1], [2]], by decide, by decide⟩, rfl⟩

/-- C20, amended: `VerifyCetAdaptorSignatures` throws `IllegalArgument` when the numbers
of CETs, adaptor pairs and message lists are not all equal; with equal numbers it throws
`IllegalArgument` when some message list `msgs[i]` has more messages than there are
nonces and no pair before index `i` fails verification; and it returns `false` when the
pair at some index `i` fails verification and every pair before it verifies, whatever
the message lists behind index `i` are (each pair is checked against the first nonces,
as many as its messages). -/
theorem VerifyCetAdaptorSignatures_checks (C : Crypto) (cets : List TransactionController)
    (signature_and_proofs : List AdaptorPair) (msgs : List (List ByteData256))
    (pubkey : Pubkey) (oracle_pubkey : SchnorrPubkey)
    (oracle_r_values : List SchnorrPubkey) (funding_script_pubkey : Script)
    (total_collateral : Nat) :
    ((cets.length ≠ signature_and_proofs.length ∨ cets.length ≠ msgs.length) →
      VerifyCetAdaptorSignatures C cets signature_and_proofs msgs pubkey oracle_pubkey
          oracle_r_values funding_script_pubkey total_collateral =
        .error .kCfdIllegalArgumentError) ∧
    (cets.length = signature_and_proofs.length → cets.length = msgs.length →
      ∀ (i : Nat) (m : List ByteData256), msgs[i]? = some m →
        oracle_r_values.length < m.length →
        (∀ x ∈ (List.zip cets (List.zip signature_and_proofs msgs)).take i,
          VerifyCetAdaptorSignature C x.2.1 x.1 pubkey oracle_pubkey
            (oracle_r_values.take x.2.2.length) funding_script_pubkey total_collateral
            x.2.2 ≠ .ok false) →
        VerifyCetAdaptorSignatures C cets signature_and_proofs msgs pubkey oracle_pubkey
            oracle_r_values funding_script_pubkey total_collateral =
          .error .kCfdIllegalArgumentError) ∧
    (cets.length = signature_and_proofs.length → cets.length = msgs.length →
      ∀ (i : Nat) (x : TransactionController × AdaptorPair × List ByteData256),
        (List.zip cets (List.zip signature_and_proofs msgs))[i]? = some x →
        VerifyCetAdaptorSignature C x.2.1 x.1 pubkey oracle_pubkey
          (oracle_r_values.take x.2.2.length) funding_script_pubkey total_collateral
          x.2.2 = .ok false →
        (∀ y ∈ (List.zip cets (List.zip signature_and_proofs msgs)).take i,
          VerifyCetAdaptorSignature C y.2.1 y.1 pubkey oracle_pubkey
            (oracle_r_values.take y.2.2.length) funding_script_pubkey total_collateral
            y.2.2 = .ok true) →
        VerifyCetAdaptorSignatures C cets signature_and_proofs msgs pubkey oracle_pubkey
            oracle_r_values funding_script_pubkey total_collateral = .ok false) := by
  refine ⟨fun hlen => ?_, fun h1 h2 i m hm hlong hprev => ?_,
    fun h1 h2 i x hx hfalse hprev => ?_⟩
  · unfold VerifyCetAdaptorSignatures
    rw [if_pos hlen]
  · unfold VerifyCetAdaptorSignatures
    rw [if_neg (fun h => h.elim (fun h => h h1) (fun h => h h2))]
    exact verifyCetAdaptorSignaturesLoop_long C pubkey oracle_pubkey oracle_r_values
      funding_script_pubkey total_collateral cets signature_and_proofs msgs h1 h2 i m hm
      hlong hprev
  · unfold VerifyCetAdaptorSignatures
    rw [if_neg (fun h => h.elim (fun h => h h1) (fun h => h h2))]
    exact verifyCetAdaptorSignaturesLoop_false C pubkey oracle_pubkey oracle_r_values
      funding_script_pubkey total_collateral cets signature_and_proofs msgs i x hx hfalse
      hprev

/-- Witness for C20: two CETs, two pairs, a second message list of two messages against
one nonce.  With primitives under which the first pair verifies the second message list
is reached and the call throws; with primitives under which the first pair does not
verify the call returns `false`; with one pair too few it throws. -/
theorem VerifyCetAdaptorSignatures_checks_witness :
    VerifyCetAdaptorSignatures acceptingCrypto sampleTransactions.cets
        [samplePair, samplePair] sampleMsgs sampleLocal.fund_pubkey [7] [[9]]
        [2, 6, 6] 200000170 = .error .kCfdIllegalArgumentError ∧
    VerifyCetAdaptorSignatures rejectingCrypto sampleTransactions.cets
        [samplePair, samplePair] sampleMsgs sampleLocal.fund_pubkey [7] [[9]]
        [2, 6, 6] 200000170 = .ok false ∧
    VerifyCetAdaptorSignatures rejectingCrypto sampleTransactions.cets
        [samplePair] sampleMsgs sampleLocal.fund_pubkey [7] [[9]]
        [2, 6, 6] 200000170 = .error .kCfdIllegalArgumentError :=
  ⟨(VerifyCetAdaptorSignatures_checks acceptingCrypto sampleTransactions.cets
      [samplePair, samplePair] sampleMsgs sampleLocal.fund_pubkey [7] [[9]] [2, 6, 6]
      200000170).2.1 rfl rfl 1 [[1], [2]] rfl (by decide) (by
        intro x hx
        simp only [sampleTransactions, sampleMsgs, List.zip_cons_cons, List.take_succ_cons,
          List.take_zero, List.mem_singleton] at hx
        subst hx
        exact fun hfalse => absurd (Except.ok.inj hfalse) (by decide)),
    (VerifyCetAdaptorSignatures_checks rejectingCrypto sampleTransactions.cets
      [samplePair, samplePair] sampleMsgs sampleLocal.fund_pubkey [7] [[9]] [2, 6, 6]
      200000170).2.2 rfl rfl 0 _ rfl rfl (by
        intro y hy
        simp only [List.take_zero, List.not_mem_nil] at hy),
    (VerifyCetAdaptorSignatures_checks rejectingCrypto sampleTransactions.cets
      [samplePair] sampleMsgs sampleLocal.fund_pubkey [7] [[9]] [2, 6, 6]
      200000170).1 (Or.inl (by decide))⟩

/-- C21: when `CreateCetAdaptorSignatures` returns a list of pairs, there is one pair per
CET and per message list, and the pair at each position is what
`CreateCetAdaptorSignature` returns for the CET and the message list at that position
with the first nonces, as many as that list has messages; and with as many adaptor pairs
as CETs, `VerifyCetAdaptorSignatures` returns `true` exactly when
`VerifyCetAdaptorSignature` returns `true` for every CET, pair and message list at the
same position, again with the first nonces, as many as the list has messages. -/
theorem CreateCetAdaptorSignatures_first_nonces (C : Crypto)
    (cets : List TransactionController) (oracle_pubkey : SchnorrPubkey)
    (oracle_r_values : List SchnorrPubkey) (funding_sk : Privkey)
    (funding_script_pubkey : Script) (total_collateral : Nat)
    (msgs : List (List ByteData256)) (sigs : List AdaptorPair)
    (signature_and_proofs : List AdaptorPair) (pubkey : Pubkey)
    (hcreate : CreateCetAdaptorSignatures C cets oracle_pubkey oracle_r_values funding_sk
      funding_script_pubkey total_collateral msgs = .ok sigs)
    (hpairs : signature_and_proofs.length = cets.length) :
    cets.length = msgs.length ∧ sigs.length = cets.length ∧
    List.Forall₂
      (fun (x : TransactionController × List ByteData256) sig =>
        CreateCetAdaptorSignature C x.1 oracle_pubkey (oracle_r_values.take x.2.length)
          funding_sk funding_script_pubkey total_collateral x.2 = .ok sig)
      (List.zip cets msgs) sigs ∧
    (VerifyCetAdaptorSignatures C cets signature_and_proofs msgs pubkey oracle_pubkey
        oracle_r_values funding_script_pubkey total_collateral = .ok true ↔
      ∀ x ∈ List.zip cets (List.zip signature_and_proofs msgs),
        VerifyCetAdaptorSignature C x.2.1 x.1 pubkey oracle_pubkey
          (oracle_r_values.take x.2.2.length) funding_script_pubkey total_collateral
          x.2.2 = .ok true) := by
  unfold CreateCetAdaptorSignatures at hcreate
  by_cases hlen : cets.length = msgs.length
  · rw [if_neg (fun h => h hlen)] at hcreate
    have hall := createCetAdaptorSignaturesLoop_entries C oracle_pubkey oracle_r_values
      funding_sk funding_script_pubkey total_collateral cets msgs sigs hcreate
    refine ⟨hlen, ?_, hall, ?_⟩
    · rw [← hall.length_eq, List.length_zip, ← hlen, Nat.min_self]
    · unfold VerifyCetAdaptorSignatures
      rw [if_neg (by
        rintro (h | h)
        · exact h hpairs.symm
        · exact h hlen)]
      exact verifyCetAdaptorSignaturesLoop_true_iff C pubkey oracle_pubkey oracle_r_values
        funding_script_pubkey total_collateral cets signature_and_proofs msgs
  · rw [if_pos hlen] at hcreate
    cases hcreate

/-- Witness for C21: the two CETs of the reference scenario, message lists of one and two
messages, two nonces. -/
theorem CreateCetAdaptorSignatures_first_nonces_witness :
    List.Forall₂
      (fun (x : TransactionController × List ByteData256) sig =>
        CreateCetAdaptorSignature additiveCrypto x.1 [7]
          (([[9], [8]] : List SchnorrPubkey).take x.2.length) [3] [2, 6, 6] 200000170
          x.2 = .ok sig)
      (List.zip sampleTransactions.cets sampleMsgs)
      [{ signature := [2, 0, 200000170, 2, 2, 6, 6], proof := [3] },
       { signature := [4, 0, 200000170, 2, 2, 6, 6], proof := [3] }] :=
  (CreateCetAdaptorSignatures_first_nonces additiveCrypto sampleTransactions.cets [7]
    [[9], [8]] [3] [2, 6, 6] 200000170 sampleMsgs
    [{ signature := [2, 0, 200000170, 2, 2, 6, 6], proof := [3] },
     { signature := [4, 0, 200000170, 2, 2, 6, 6], proof := [3] }]
    [samplePair, samplePair] sampleLocal.fund_pubkey rfl rfl).2.2.1

/-- C22: for a call of `SignCet` with at least one oracle signature and a multisig script
that holds two pubkeys of which one is the public key of the funding key, the call
returns and the witness it adds for the outpoint `(fund_tx_id, fund_vout)` is the empty
element, two DER signatures and the script: the own signature before the adapted one when
the own key is the first key of the script, the adapted one before the own one when it is
the second and not the first. -/
theorem SignCet_witness_stack (C : Crypto) (S : Signer) (cet : WitnessedTransaction)
    (adaptor_sig : AdaptorSignature) (first : SchnorrSignature)
    (rest : List SchnorrSignature) (funding_sk : Privkey) (funding_script_pubkey : Script)
    (fund_tx_id : Txid) (fund_vout : Nat) (fund_amount : Nat)
    (first_pubkey second_pubkey : Pubkey)
    (hkeys : S.ExtractPubkeysFromMultisigScript funding_script_pubkey =
      [first_pubkey, second_pubkey])
    (hown : S.GeneratePubkey funding_sk = first_pubkey ∨
      S.GeneratePubkey funding_sk = second_pubkey) :
    SignCet C S cet adaptor_sig (first :: rest) funding_sk funding_script_pubkey fund_tx_id
        fund_vout fund_amount =
      .ok
        { transaction := cet.transaction
          witness := cet.witness ++
            [{ txid := fund_tx_id, vout := fund_vout
               stack :=
                if S.GeneratePubkey funding_sk = first_pubkey then
                  [.bytes [],
                   .bytes (S.ConvertSignatureToDer
                     (S.CalculateEcSignature
                       (C.GetSignatureHash cet.transaction 0 funding_script_pubkey
                         fund_amount) funding_sk)
                     { algorithm := .kSigHashAll }),
                   .bytes (S.ConvertSignatureToDer
                     (S.Adapt adaptor_sig (adaptorSecret S first rest))
                     { algorithm := .kSigHashAll }),
                   .bytes funding_script_pubkey]
                else
                  [.bytes [],
                   .bytes (S.ConvertSignatureToDer
                     (S.Adapt adaptor_sig (adaptorSecret S first rest))
                     { algorithm := .kSigHashAll }),
                   .bytes (S.ConvertSignatureToDer
                     (S.CalculateEcSignature
                       (C.GetSignatureHash cet.transaction 0 funding_script_pubkey
                         fund_amount) funding_sk)
                     { algorithm := .kSigHashAll }),
                   .bytes funding_script_pubkey] }] } := by
  unfold SignCet
  simp only [hkeys, List.getElem?_cons_zero, List.getElem?_cons_succ]
  by_cases h0 : S.GeneratePubkey funding_sk = first_pubkey
  · rw [if_pos h0, if_pos h0]
    rfl
  · have h1 : S.GeneratePubkey funding_sk = second_pubkey := hown.resolve_left h0
    rw [if_neg h0, if_pos h1, if_neg h0]
    rfl

/-- Witness for C22: a funding key that is the second key of the script. -/
theorem SignCet_witness_stack_witness :
    SignCet additiveCrypto sampleSigner { transaction := sampleCet, witness := [] } [4, 7]
        sampleOracleSignatures [66] [65, 66] [2, 0, 2, 3] 0 200000170 =
      .ok
        { transaction := sampleCet
          witness :=
            [{ txid := [2, 0, 2, 3], vout := 0
               stack := [.bytes [], .bytes [48, 0, 7, 1],
                 .bytes [48, 66, 0, 200000170, 2, 65, 66, 1], .bytes [65, 66]] }] } :=
  SignCet_witness_stack additiveCrypto sampleSigner
    { transaction := sampleCet, witness := [] } [4, 7] { nonce := [9], privkey := [1, 9] }
    [{ nonce := [8], privkey := [2, 8] }] [66] [65, 66] [2, 0, 2, 3] 0 200000170
    { hex := "A" } { hex := "B" } rfl (Or.inr rfl)

/-- C23, the two failures of `SignCet` on the CET of the reference scenario: without an
oracle signature the call throws a `CfdException` of kind `IllegalArgument`; with a
funding key that is neither key of the script the statement that runs is
`throw new CfdException(...)`, which throws a pointer and not a `CfdException`.  No
witness is added in either case. -/
theorem SignCet_failures :
    SignCet additiveCrypto sampleSigner { transaction := sampleCet, witness := [] } [4, 7]
        [] [67] [65, 66] [2, 0, 2, 3] 0 200000170 =
      .error (.exception .kCfdIllegalArgumentError) ∧
    SignCet additiveCrypto sampleSigner { transaction := sampleCet, witness := [] } [4, 7]
        sampleOracleSignatures [67] [65, 66] [2, 0, 2, 3] 0 200000170 =
      .error (.exceptionPointer .kCfdIllegalArgumentError) :=
  ⟨rfl, rfl⟩

/-- C25: `SignFundTransactionInput` gives the transaction `AddSignatureToFundTransaction`
gives for the raw signature of `GetRawFundingTransactionInputSignature` and the public
key of the private key: the transaction with the witness made of the DER signature
under `SIGHASH_ALL` and that public key added for the outpoint. -/
theorem SignFundTransactionInput_eq_AddSignature (S : Signer)
    (fund_transaction : WitnessedTransaction) (privkey : Privkey) (prev_tx_id : Txid)
    (prev_tx_vout : Nat) (value : Nat) :
    SignFundTransactionInput S fund_transaction privkey prev_tx_id prev_tx_vout value =
      AddSignatureToFundTransaction S fund_transaction
        (GetRawFundingTransactionInputSignature S fund_transaction privkey prev_tx_id
          prev_tx_vout value)
        (S.GeneratePubkey privkey) prev_tx_id prev_tx_vout ∧
    SignFundTransactionInput S fund_transaction privkey prev_tx_id prev_tx_vout value =
      { transaction := fund_transaction.transaction
        witness := fund_transaction.witness ++
          [{ txid := prev_tx_id, vout := prev_tx_vout
             stack :=
              [.bytes (S.ConvertSignatureToDer
                (GetRawFundingTransactionInputSignature S fund_transaction privkey
                  prev_tx_id prev_tx_vout value) { algorithm := .kSigHashAll }),
               .pubkey (S.GeneratePubkey privkey)] }] } :=
  ⟨rfl, rfl⟩

/-- C26: let the curve be a commutative group with base point `g`, in which
`CreateTweakAdd` adds scalars, the batch sig point is the sum of the sig points of the
message and nonce pairs, and `Adapt` applied to an adaptor signature of `AdaptorSign` and
the discrete logarithm of its adaptor point gives a signature that ECDSA verification
accepts for the same hash and key.  Then for an adaptor pair that
`CreateCetAdaptorSignature` returns and oracle signatures over the messages with the
nonces (the scalar of each is the discrete logarithm of the sig point of its message and
nonce), the adaptor signature adapted with the secret `SignCet` folds from the oracle
scalars verifies under the funding public key for the segwit v0 `SIGHASH_ALL` hash of
input 0 of the CET with the same script and amount. -/
theorem CreateCetAdaptorSignature_adapted_verifies (C : Crypto) (S : Signer) {G : Type}
    [AddCommGroup G] (g : G) (point : Pubkey → G) (scalar : Privkey → ℤ)
    (cet : TransactionController) (oracle_pubkey : SchnorrPubkey)
    (oracle_r_values : List SchnorrPubkey) (funding_sk : Privkey)
    (funding_script_pubkey : Script) (total_collateral : Nat) (msgs : List ByteData256)
    (pair : AdaptorPair) (first : SchnorrSignature) (rest : List SchnorrSignature)
    (htweak : ∀ a b, scalar (S.CreateTweakAdd a b) • g = (scalar a + scalar b) • g)
    (hbatch : ∀ (ms : List ByteData256) (rs : List SchnorrPubkey) (P : SchnorrPubkey),
      ms ≠ [] → ms.length = rs.length →
      point (C.ComputeSigPointBatch ms rs P) =
        ((List.zip ms rs).map fun x => point (C.ComputeSigPoint x.1 x.2 P)).sum)
    (hadapt : ∀ (h : ByteData256) (sk : Privkey) (T : Pubkey) (t : Privkey),
      scalar t • g = point T →
      S.VerifyEcSignature h (S.GeneratePubkey sk)
        (S.Adapt (C.AdaptorSign h sk T).signature t) = true)
    (hcreate : CreateCetAdaptorSignature C cet oracle_pubkey oracle_r_values funding_sk
      funding_script_pubkey total_collateral msgs = .ok pair)
    (hsigs : List.Forall₂
      (fun (x : ByteData256 × SchnorrPubkey) (sig : SchnorrSignature) =>
        sig.nonce = x.2 ∧
          scalar sig.privkey • g = point (C.ComputeSigPoint x.1 x.2 oracle_pubkey))
      (List.zip msgs oracle_r_values) (first :: rest)) :
    S.VerifyEcSignature (C.GetSignatureHash cet 0 funding_script_pubkey total_collateral)
      (S.GeneratePubkey funding_sk)
      (S.Adapt pair.signature (adaptorSecret S first rest)) = true := by
  rw [CreateCetAdaptorSignature_eq] at hcreate
  by_cases hlen : oracle_r_values.length = msgs.length
  · rw [if_neg (fun h => h hlen)] at hcreate
    cases Except.ok.inj hcreate
    apply hadapt
    have hsum := sum_smul_of_forall2 C g point scalar oracle_pubkey _ _ hsigs
    have hsecret : scalar (adaptorSecret S first rest) • g =
        ((List.zip msgs oracle_r_values).map fun x =>
          point (C.ComputeSigPoint x.1 x.2 oracle_pubkey)).sum := by
      unfold adaptorSecret
      rw [foldl_CreateTweakAdd_smul S g scalar htweak, ← hsum, List.map_cons, List.sum_cons]
    rw [hsecret]
    have hne : msgs ≠ [] := by
      intro h
      rw [h] at hsigs
      cases hsigs
    unfold adaptorPointOf
    split
    · simp only [List.zip_cons_cons, List.zip_nil_left, List.map_cons, List.map_nil,
        List.sum_cons, List.sum_nil, add_zero]
    · exact (hbatch msgs oracle_r_values oracle_pubkey hne hlen.symm).symm
  · rw [if_pos hlen] at hcreate
    cases hcreate

/-- Witness for C26: two messages and two nonces; a scalar counts as the number of its
bytes and a point as the number of characters of its hex string, in the group of the
integers with base point 1. -/
theorem CreateCetAdaptorSignature_adapted_verifies_witness :
    sampleSigner.VerifyEcSignature
      (additiveCrypto.GetSignatureHash sampleCet 0 [65, 66] 200000170)
      (sampleSigner.GeneratePubkey [65])
      (sampleSigner.Adapt
        ({ signature := [4, 0, 200000170, 2, 65, 66], proof := [65] } : AdaptorPair).signature
        (adaptorSecret sampleSigner { nonce := [9], privkey := [1, 9] }
          [{ nonce := [8], privkey := [2, 8] }])) = true :=
  CreateCetAdaptorSignature_adapted_verifies additiveCrypto sampleSigner (1 : ℤ)
    (fun p => (p.hex.length : ℤ)) (fun s => (s.length : ℤ)) sampleCet [7] [[9], [8]] [65]
    [65, 66] 200000170 [[1], [2]] { signature := [4, 0, 200000170, 2, 65, 66], proof := [65] }
    { nonce := [9], privkey := [1, 9] } [{ nonce := [8], privkey := [2, 8] }]
    (fun a b => by simp [sampleSigner])
    (fun ms rs P _ _ => by
      simp only [additiveCrypto, String.length, List.length_replicate, Nat.cast_list_sum,
        List.map_map]
      rfl)
    (fun h sk T t ht => by
      have hlen : T.hex.length = t.length := by
        simp only [smul_eq_mul, mul_one, Nat.cast_inj] at ht
        exact ht.symm
      simp [sampleSigner, additiveCrypto, hlen])
    rfl
    (List.Forall₂.cons ⟨rfl, by decide⟩ (List.Forall₂.cons ⟨rfl, by decide⟩ List.Forall₂.nil))

/-- C27: when `CreateCetAdaptorSignatures` returns pairs for a funding key, creation and
verification derive the same adaptor point and the same signature hash at every CET.
The pair created for a CET is what `AdaptorSign` makes from the signature hash of that
CET (input 0, the funding script, the total collateral) and the adaptor point of its
messages and the first nonces; `VerifyCetAdaptorSignatures`, on the same CETs, messages,
oracle key, nonces, script and amount and on any pairs and any public key, returns the
conjunction over the CETs of what `AdaptorVerify` answers on that same adaptor point and
that same signature hash.  Hence, when `AdaptorVerify` accepts every pair `AdaptorSign`
makes for the same hash, adaptor point and key, the created pairs pass
`VerifyCetAdaptorSignatures` with the public key of the funding key. -/
theorem VerifyCetAdaptorSignatures_accepts_created (C : Crypto) (S : Signer)
    (cets : List TransactionController) (oracle_pubkey : SchnorrPubkey)
    (oracle_r_values : List SchnorrPubkey) (funding_sk : Privkey)
    (funding_script_pubkey : Script) (total_collateral : Nat)
    (msgs : List (List ByteData256)) (sigs : List AdaptorPair)
    (hlaw : ∀ (h : ByteData256) (sk : Privkey) (T : Pubkey),
      C.AdaptorVerify (C.AdaptorSign h sk T).signature (C.AdaptorSign h sk T).proof T h
        (S.GeneratePubkey sk) = true)
    (hcreate : CreateCetAdaptorSignatures C cets oracle_pubkey oracle_r_values funding_sk
      funding_script_pubkey total_collateral msgs = .ok sigs) :
    List.Forall₂
      (fun (x : TransactionController × List ByteData256) sig =>
        sig = C.AdaptorSign
          (C.GetSignatureHash x.1 0 funding_script_pubkey total_collateral) funding_sk
          (adaptorPointOf C x.2 (oracle_r_values.take x.2.length) oracle_pubkey))
      (List.zip cets msgs) sigs ∧
    (∀ (pairs : List AdaptorPair) (pubkey : Pubkey), pairs.length = cets.length →
      VerifyCetAdaptorSignatures C cets pairs msgs pubkey oracle_pubkey oracle_r_values
          funding_script_pubkey total_collateral =
        .ok ((List.zip (List.zip cets msgs) pairs).all fun x =>
          C.AdaptorVerify x.2.signature x.2.proof
            (adaptorPointOf C x.1.2 (oracle_r_values.take x.1.2.length) oracle_pubkey)
            (C.GetSignatureHash x.1.1 0 funding_script_pubkey total_collateral) pubkey)) ∧
    VerifyCetAdaptorSignatures C cets sigs msgs (S.GeneratePubkey funding_sk) oracle_pubkey
      oracle_r_values funding_script_pubkey total_collateral = .ok true := by
  unfold CreateCetAdaptorSignatures at hcreate
  by_cases hlen : cets.length = msgs.length
  · rw [if_neg (fun h => h hlen)] at hcreate
    obtain ⟨hfit, hsign⟩ := createCetAdaptorSignaturesLoop_signs C oracle_pubkey
      oracle_r_values funding_sk funding_script_pubkey total_collateral cets msgs sigs
      hcreate
    have hverify : ∀ (pairs : List AdaptorPair) (pubkey : Pubkey),
        pairs.length = cets.length →
        VerifyCetAdaptorSignatures C cets pairs msgs pubkey oracle_pubkey oracle_r_values
            funding_script_pubkey total_collateral =
          .ok ((List.zip (List.zip cets msgs) pairs).all fun x =>
            C.AdaptorVerify x.2.signature x.2.proof
              (adaptorPointOf C x.1.2 (oracle_r_values.take x.1.2.length) oracle_pubkey)
              (C.GetSignatureHash x.1.1 0 funding_script_pubkey total_collateral)
              pubkey) := by
      intro pairs pubkey hp
      unfold VerifyCetAdaptorSignatures
      rw [if_neg (by
        rintro (h | h)
        · exact h hp.symm
        · exact h hlen)]
      exact verifyCetAdaptorSignaturesLoop_all C pubkey oracle_pubkey oracle_r_values
        funding_script_pubkey total_collateral cets pairs msgs hfit hp
    have hsigs : sigs.length = cets.length := by
      rw [← hsign.length_eq, List.length_zip, ← hlen, Nat.min_self]
    refine ⟨hsign, hverify, ?_⟩
    rw [hverify sigs (S.GeneratePubkey funding_sk) hsigs]
    congr 1
    rw [List.all_eq_true]
    intro x hx
    have hx2 : x.2 = C.AdaptorSign
        (C.GetSignatureHash x.1.1 0 funding_script_pubkey total_collateral) funding_sk
        (adaptorPointOf C x.1.2 (oracle_r_values.take x.1.2.length) oracle_pubkey) := by
      clear hverify hcreate hfit hsigs hlen
      generalize List.zip cets msgs = l at hsign hx
      induction hsign with
      | nil => simp at hx
      | cons hab _ ih =>
        rw [List.zip_cons_cons, List.mem_cons] at hx
        rcases hx with rfl | hx
        · exact hab
        · exact ih hx
    rw [hx2]
    exact hlaw _ _ _
  · rw [if_pos hlen] at hcreate
    cases hcreate

/-- Witness for C27: under primitives whose `AdaptorVerify` compares the signature with
the hash and the adaptor point and the key with the proof, the pairs made for the two
CETs of the reference scenario are the ones `AdaptorSign` makes, they verify, and the
same pairs with the first signature made for another adaptor point do not. -/
theorem VerifyCetAdaptorSignatures_accepts_created_witness :
    VerifyCetAdaptorSignatures additiveCrypto sampleTransactions.cets
      [{ signature := [2, 0, 200000170, 2, 2, 6, 6], proof := [3] },
       { signature := [4, 0, 200000170, 2, 2, 6, 6], proof := [3] }]
      sampleMsgs (sampleSigner.GeneratePubkey [3]) [7] [[9], [8]] [2, 6, 6] 200000170 =
      .ok true ∧
    VerifyCetAdaptorSignatures additiveCrypto sampleTransactions.cets
      [{ signature := [3, 0, 200000170, 2, 2, 6, 6], proof := [3] },
       { signature := [4, 0, 200000170, 2, 2, 6, 6], proof := [3] }]
      sampleMsgs (sampleSigner.GeneratePubkey [3]) [7] [[9], [8]] [2, 6, 6] 200000170 =
      .ok false :=
  ⟨(VerifyCetAdaptorSignatures_accepts_created additiveCrypto sampleSigner
      sampleTransactions.cets [7] [[9], [8]] [3] [2, 6, 6] 200000170 sampleMsgs
      [{ signature := [2, 0, 200000170, 2, 2, 6, 6], proof := [3] },
       { signature := [4, 0, 200000170, 2, 2, 6, 6], proof := [3] }]
      (fun h sk T => by simp [additiveCrypto, sampleSigner]) rfl).2.2,
   ((VerifyCetAdaptorSignatures_accepts_created additiveCrypto sampleSigner
      sampleTransactions.cets [7] [[9], [8]] [3] [2, 6, 6] 200000170 sampleMsgs
      [{ signature := [2, 0, 200000170, 2, 2, 6, 6], proof := [3] },
       { signature := [4, 0, 200000170, 2, 2, 6, 6], proof := [3] }]
      (fun h sk T => by simp [additiveCrypto, sampleSigner]) rfl).2.1
      [{ signature := [3, 0, 200000170, 2, 2, 6, 6], proof := [3] },
       { signature := [4, 0, 200000170, 2, 2, 6, 6], proof := [3] }]
      (sampleSigner.GeneratePubkey [3]) rfl).trans rfl⟩

/-- C28, as stated, fails: the only lengths `CreateBatchDlcTransactions` compares are
those of the outcomes list and of the two `fund_pubkeys` vectors.  A batch of two
contracts with a third payout serial id, with a third final script, or with a third
remote collateral is built without an error. -/
theorem CreateBatchDlcTransactions_unchecked_lengths :
    ([0, 0, 7] : List Nat).length ≠ [sampleOutcomes, sampleOutcomes].length ∧
    (∃ r, CreateBatchDlcTransactions stableCollab [sampleOutcomes, sampleOutcomes]
      { sampleBatchLocal with payout_serial_ids := [0, 0, 7] } sampleBatchRemote
      [100, 100] 1 0 0 [] = .ok r) ∧
    (∃ r, CreateBatchDlcTransactions stableCollab [sampleOutcomes, sampleOutcomes]
      { sampleBatchLocal with
        final_script_pubkeys :=
          [List.replicate 22 2, List.replicate 22 6, List.replicate 22 9] }
      sampleBatchRemote [100, 100] 1 0 0 [] = .ok r) ∧
    (∃ r, CreateBatchDlcTransactions stableCollab [sampleOutcomes, sampleOutcomes]
      sampleBatchLocal { sampleBatchRemote with collaterals := [100000000, 100000000, 5] }
      [100, 100] 1 0 0 [] = .ok r) :=
  ⟨by decide, ⟨_, rfl⟩, ⟨_, rfl⟩, ⟨_, rfl⟩⟩

/-- C28, amended: `CreateBatchDlcTransactions` throws `IllegalArgument` whenever the
outcomes list, the local `fund_pubkeys` and the remote `fund_pubkeys` do not all have the
same length. -/
theorem CreateBatchDlcTransactions_length_check (E : Collab)
    (outcomes_list : List (List DlcOutcome)) (local_params remote_params : BatchPartyParams)
    (refund_locktimes : List Nat) (fee_rate fund_lock_time cet_lock_time : Nat)
    (fund_output_serial_ids : List Nat)
    (h : outcomes_list.length ≠ local_params.fund_pubkeys.length ∨
      outcomes_list.length ≠ remote_params.fund_pubkeys.length ∨
      local_params.fund_pubkeys.length ≠ remote_params.fund_pubkeys.length) :
    CreateBatchDlcTransactions E outcomes_list local_params remote_params refund_locktimes
        fee_rate fund_lock_time cet_lock_time fund_output_serial_ids =
      .error (.exception .kCfdIllegalArgumentError) := by
  rw [CreateBatchDlcTransactions_eq, if_pos]
  by_contra hne
  have h1 : outcomes_list.length = local_params.fund_pubkeys.length := by
    by_contra hx
    exact hne (Or.inl hx)
  have h2 : outcomes_list.length = remote_params.fund_pubkeys.length := by
    by_contra hx
    exact hne (Or.inr hx)
  rcases h with h | h | h
  · exact h h1
  · exact h h2
  · exact h (h1.symm.trans h2)

/-- Witness for C28: one outcome list against two contracts. -/
theorem CreateBatchDlcTransactions_length_check_witness :
    CreateBatchDlcTransactions stableCollab [sampleOutcomes] sampleBatchLocal
        sampleBatchRemote [100, 100] 1 0 0 [] =
      .error (.exception .kCfdIllegalArgumentError) :=
  CreateBatchDlcTransactions_length_check stableCollab [sampleOutcomes] sampleBatchLocal
    sampleBatchRemote [100, 100] 1 0 0 [] (Or.inl (by decide))

/-- C29, as stated, fails, in two ways.  With three inputs of declared witness length
2000000000 the 32-bit accumulator of `GetInputsWeight` wraps, the call succeeds, and the
fund fee it returns is 426258379 where the formula over the unreduced sum of the input
weights gives 1500000203.  And at the fee rate `2 ^ 53 + 1` the products are taken in
double precision: the local party of the reference batch (with enough funds) is charged
a fund fee of `148 * 2 ^ 53` and a CET fee of `169 * 2 ^ 53`, 148 and 169 sats less than
the formula. -/
theorem GetBatchChangeOutputAndFees_fund_fee_wraps :
    (∃ co ff cf, GetBatchChangeOutputAndFees heavyBatchParams 1 = .ok (co, ff, cf) ∧
      ff = 426258379 ∧
      ff ≠ ((21 + 86 * heavyBatchParams.fund_pubkeys.length +
          (heavyBatchParams.inputs_info.map fun i =>
            164 + 4 * i.input.unlocking_script.length + i.max_witness_length).sum +
          4 * heavyBatchParams.change_script_pubkey.length + 36 + 3) / 4) * 1) ∧
    ∃ co ff cf,
      GetBatchChangeOutputAndFees richBatchLocal (2 ^ 53 + 1) = .ok (co, ff, cf) ∧
      ff = 1333065489701666816 ∧ cf = 1522216674051227648 ∧
      ff ≠ ((21 + 86 * richBatchLocal.fund_pubkeys.length +
          (richBatchLocal.inputs_info.map fun i =>
            164 + 4 * i.input.unlocking_script.length + i.max_witness_length).sum +
          4 * richBatchLocal.change_script_pubkey.length + 36 + 3) / 4) * (2 ^ 53 + 1) ∧
      cf ≠ (((richBatchLocal.final_script_pubkeys.map fun s => 249 + 4 * s.length).sum + 3) /
          4) * (2 ^ 53 + 1) :=
  ⟨⟨_, _, _, rfl, rfl, by decide⟩, _, _, _, rfl, rfl, rfl, by decide, by decide⟩

/-- C29, amended: with `N` the number of fund pubkeys, when the sum of the input weights
`164 + 4 * unlocking_script_size + max_witness_length` is below `2 ^ 32` (the 32-bit
accumulator does not wrap) and the fund weight times the fee rate as well as the CET
weight times the fee rate are below `2 ^ 53` (the double arithmetic is exact), the fund
fee of `GetBatchChangeOutputAndFees` is `ceil(W / 4) * fee_rate` for `W = 21 + 86 * N`
plus the sum of the input weights plus `4 * change_script_size + 36`; the CET fee is
`ceil(Σ (249 + 4 * final_script_size) / 4) * fee_rate` over the final scripts; the call
throws `IllegalArgument` exactly when the input amount is below the sum of the
collaterals and the two fees, and otherwise returns the two fees and a change output on
the change script of value input − collaterals − fund fee − CET fee. -/
theorem GetBatchChangeOutputAndFees_fees (params : BatchPartyParams) (fee_rate : Nat)
    (hwrap : (params.inputs_info.map fun i =>
      164 + 4 * i.input.unlocking_script.length + i.max_witness_length).sum < 2 ^ 32)
    (hfund : (21 + 86 * params.fund_pubkeys.length +
        (params.inputs_info.map fun i =>
          164 + 4 * i.input.unlocking_script.length + i.max_witness_length).sum +
        4 * params.change_script_pubkey.length + 36) * fee_rate < 2 ^ 53)
    (hcet : (params.final_script_pubkeys.map fun s => 249 + 4 * s.length).sum * fee_rate <
      2 ^ 53) :
    GetBatchChangeOutputAndFees params fee_rate =
      if params.input_amount <
          params.collaterals.sum +
            ((21 + 86 * params.fund_pubkeys.length +
                (params.inputs_info.map fun i =>
                  164 + 4 * i.input.unlocking_script.length + i.max_witness_length).sum +
                4 * params.change_script_pubkey.length + 36 + 3) / 4) * fee_rate +
            (((params.final_script_pubkeys.map fun s => 249 + 4 * s.length).sum + 3) / 4) *
              fee_rate then
        .error .kCfdIllegalArgumentError
      else
        .ok
          ({ value := params.input_amount - params.collaterals.sum -
                ((21 + 86 * params.fund_pubkeys.length +
                    (params.inputs_info.map fun i =>
                      164 + 4 * i.input.unlocking_script.length +
                        i.max_witness_length).sum +
                    4 * params.change_script_pubkey.length + 36 + 3) / 4) * fee_rate -
                (((params.final_script_pubkeys.map fun s => 249 + 4 * s.length).sum + 3) /
                  4) * fee_rate,
             locking_script := params.change_script_pubkey },
            ((21 + 86 * params.fund_pubkeys.length +
                (params.inputs_info.map fun i =>
                  164 + 4 * i.input.unlocking_script.length + i.max_witness_length).sum +
                4 * params.change_script_pubkey.length + 36 + 3) / 4) * fee_rate,
            (((params.final_script_pubkeys.map fun s => 249 + 4 * s.length).sum + 3) / 4) *
              fee_rate) := by
  have hW : batchFundWeight params =
      21 + 86 * params.fund_pubkeys.length +
        (params.inputs_info.map fun i =>
          164 + 4 * i.input.unlocking_script.length + i.max_witness_length).sum +
        4 * params.change_script_pubkey.length + 36 := by
    unfold batchFundWeight
    have hmod : (params.inputs_info.map inputWeight).sum % 2 ^ 32 =
        (params.inputs_info.map fun i =>
          164 + 4 * i.input.unlocking_script.length + i.max_witness_length).sum :=
      Nat.mod_eq_of_lt hwrap
    rw [hmod]
  have hff : batchFundFee params fee_rate =
      ((21 + 86 * params.fund_pubkeys.length +
          (params.inputs_info.map fun i =>
            164 + 4 * i.input.unlocking_script.length + i.max_witness_length).sum +
          4 * params.change_script_pubkey.length + 36 + 3) / 4) * fee_rate := by
    rw [← hW]
    unfold batchFundFee
    exact feeOfWeight_small _ _ _ (roundToDouble_of_lt _) (by rw [hW]; exact hfund)
  have hcf : batchCetFee params fee_rate =
      (((params.final_script_pubkeys.map fun s => 249 + 4 * s.length).sum + 3) / 4) *
        fee_rate := by
    unfold batchCetFee
    exact feeOfWeight_small _ _ _ (batchCetWeightDouble_of_lt params) hcet
  rw [GetBatchChangeOutputAndFees_eq]
  unfold batchChangeOutput batchRequiredInput
  rw [hff, hcf]
  have hv : ∀ a b c d : Nat, a - (b + c + d) = a - b - c - d := fun a b c d => by omega
  rw [hv]

/-- Witness for C29: the local party of the reference batch at fee rate 1 pays a fund fee
of 148 and a CET fee of 169 and gets 4799999683 back. -/
theorem GetBatchChangeOutputAndFees_fees_witness :
    ((sampleBatchLocal.inputs_info.map fun i =>
      164 + 4 * i.input.unlocking_script.length + i.max_witness_length).sum < 2 ^ 32) ∧
    GetBatchChangeOutputAndFees sampleBatchLocal 1 =
      .ok ({ value := 4799999683, locking_script := List.replicate 22 1 }, 148, 169) :=
  ⟨by decide,
    GetBatchChangeOutputAndFees_fees sampleBatchLocal 1 (by decide) (by decide)
      (by decide)⟩

set_option maxRecDepth 100000 in
/-- C32, as stated, fails, in two ways.  With the fund output serial ids `[5, 5]` both
contracts of the reference batch resolve index 2, the funding output of contract 0, so
the CETs of contract 1 spend an output on the script of contract 0.  And on fifteen
contracts with the serial ids 1 to 15 and a local change serial id of 3, the `std::sort`
of GNU libstdc++ orders the seventeen records (funding outputs 0 to 14, local change 15,
remote change 16) as 16, 0, 1, 15, 2, …, 14: the local change output of serial id 3
comes in front of the funding output of serial id 3, so the CETs and the refund
transaction of contract 2 spend index 3, the local change output, while the funding
output of contract 2 is output 4. -/
theorem CreateBatchDlcTransactions_fund_vouts_collide :
    (∃ r,
      CreateBatchDlcTransactions stableCollab [sampleOutcomes, sampleOutcomes]
        sampleBatchLocal sampleBatchRemote [100, 100] 1 0 0 [5, 5] = .ok r ∧
      (r.cets_list.map fun cets => cets.map fun cet => cet.txins.map fun i => i.vout) =
        [[[2], [2]], [[2], [2]]] ∧
      r.fund_transaction.txouts[2]? =
        some { value := 200000170, locking_script := [0, 32, 2, 6, 6] } ∧
      stableCollab.CreateP2wshLockingScript
          (CreateFundTxLockingScript stableCollab { hex := "02f9308a" }
            { hex := "02e493db" }) =
        [0, 32, 2, 8, 8]) ∧
    (libstdcxxSort (fun (a b : Nat × Nat) => decide (a.1 < b.1))
        ((List.range' 1 15 ++ [3, 0]).zip (List.range 17))).map (fun p => p.2) =
      [16, 0, 1, 15, 2, 3, 4, 5, 6, 7, 8, 9, 10, 11, 12, 13, 14] ∧
    ∃ r,
      CreateBatchDlcTransactions libstdcxxCollab (List.replicate 15 sampleOutcomes)
        { uniformBatch 15 'a' 1 1 [34, 34, 34] with change_serial_id := 3 }
        (uniformBatch 15 'b' 3 2 [34, 34, 34]) (List.replicate 15 100) 1 0 0
        (List.range' 1 15) = .ok r ∧
      (r.cets_list[2]?.map fun cets => cets.map fun cet => cet.txins.map fun i => i.vout) =
        some [[3], [3]] ∧
      (r.refund_transactions[2]?.map fun t => t.txins.map fun i => i.vout) = some [3] ∧
      r.fund_transaction.txouts[3]? =
        some { value := 3499998273, locking_script := List.replicate 22 1 } ∧
      r.fund_transaction.txouts[4]? =
        some
          { value := 200000174
            locking_script :=
              libstdcxxCollab.CreateP2wshLockingScript
                (CreateFundTxLockingScript libstdcxxCollab { hex := "aaa" }
                  { hex := "bbb" }) } :=
  ⟨⟨_, rfl, rfl, rfl, rfl⟩, by decide, _, rfl, rfl, rfl, rfl, rfl⟩

/-- C32, amended: when `CreateBatchDlcTransactions` returns on `N` contracts with `N`
fund output serial ids that are pairwise different, under a `std::sort` that sorts, and
either the batch has at most 14 contracts (so that `std::sort` keeps ties in order) or
no change serial id equals a fund output serial id, then for every contract `i` the CETs
and the refund transaction of contract `i` spend one index `fund_vout` of the funding
transaction, and the output at that index is the funding output of contract `i`: the
P2WSH of the multisig of the two fund pubkeys of contract `i` with the fund output value
of contract `i`. -/
theorem CreateBatchDlcTransactions_fund_vouts (E : Collab) (hE : E.SortConforms)
    (outcomes_list : List (List DlcOutcome)) (local_params remote_params : BatchPartyParams)
    (refund_locktimes : List Nat) (fee_rate fund_lock_time cet_lock_time : Nat)
    (fund_output_serial_ids : List Nat) (r : BatchDlcTransactions) (i : Nat)
    (h : CreateBatchDlcTransactions E outcomes_list local_params remote_params
      refund_locktimes fee_rate fund_lock_time cet_lock_time fund_output_serial_ids =
      .ok r)
    (hlen : fund_output_serial_ids.length = outcomes_list.length)
    (hnodup : fund_output_serial_ids.Nodup)
    (htie : fund_output_serial_ids.length + 2 ≤ 16 ∨
      (local_params.change_serial_id ∉ fund_output_serial_ids ∧
        remote_params.change_serial_id ∉ fund_output_serial_ids))
    (hi : i < outcomes_list.length) :
    ∃ fund_vout lpk rpk lc rc cets refund,
      local_params.fund_pubkeys[i]? = some lpk ∧
      remote_params.fund_pubkeys[i]? = some rpk ∧
      local_params.collaterals[i]? = some lc ∧
      remote_params.collaterals[i]? = some rc ∧
      r.cets_list[i]? = some cets ∧
      r.refund_transactions[i]? = some refund ∧
      (∀ cet ∈ cets, cet.txins =
        [{ txid := E.GetTxid r.fund_transaction, vout := fund_vout,
           unlocking_script := [] }]) ∧
      refund.txins =
        [{ txid := E.GetTxid r.fund_transaction, vout := fund_vout,
           unlocking_script := [] }] ∧
      r.fund_transaction.txouts[fund_vout]? =
        some
          { value := lc + rc +
              ceilDiv (batchCetFee local_params fee_rate) outcomes_list.length +
              ceilDiv (batchCetFee remote_params fee_rate) outcomes_list.length,
            locking_script :=
              E.CreateP2wshLockingScript (CreateFundTxLockingScript E lpk rpk) } := by
  obtain ⟨ha, -, -, -, -, -, values, contracts, hval, -, hfund, hcon, hcl, hrl⟩ :=
    CreateBatchDlcTransactions_ok E outcomes_list local_params remote_params
      refund_locktimes fee_rate fund_lock_time cet_lock_time fund_output_serial_ids r h
  obtain ⟨-, hlv, infos, hinfos, houts, -, -, -⟩ :=
    CreateBatchFundTransaction_ok E _ _ _ _ _ _ _ _ _ _ _ _ hfund
  obtain ⟨hilen, hiall⟩ := forEachIndex_range_ok _ _ _ hinfos
  obtain ⟨-, hvall⟩ := forEachIndex_range_ok _ _ _ hval
  have hne : fund_output_serial_ids ≠ [] := by
    intro h0
    rw [h0] at hlen
    simp only [List.length_nil] at hlen
    omega
  have hkeys := batchFundOutputInfo_serial_ids E _ _ _ _ infos (by omega) hne hinfos
  have hio : i < infos.length := by omega
  have hinfo_i : infos[i]? = some infos[i] := List.getElem?_eq_getElem hio
  obtain ⟨lpk, rpk, amount, serial_id, hlpk, hrpk, hamount, -, hoeq⟩ :=
    (batchFundOutputInfo_ok_iff E _ _ _ _ _ _).mp (hiall i _ hinfo_i)
  obtain ⟨lc, rc, hlc, hrc, hv⟩ := (batchFundOutputValue_ok_iff _ _ _ _ _ _).mp
    (hvall i amount hamount)
  have hvouts : batchFundVouts E local_params remote_params fund_output_serial_ids
      values.length =
      fund_output_serial_ids.map fun x =>
        findBatchVout x
          (stdSort E (fun a b : Nat => decide (a < b))
            (fund_output_serial_ids ++
              [local_params.change_serial_id, remote_params.change_serial_id])) 0 := by
    unfold batchFundVouts
    rw [if_neg]
    intro hemp
    exact hne (List.isEmpty_iff.mp hemp)
  rw [hvouts] at hcon
  obtain ⟨hclen, hcall⟩ := forEachIndex_range_ok _ _ _ hcon
  have hci : i < contracts.length := by
    rw [hclen, List.length_map]
    omega
  obtain ⟨fund_vout, hfv, hcets, hrefund⟩ := batchContract_ok E _ _ _ _ _ _ _ _
    contracts[i].1 contracts[i].2 (hcall i _ (List.getElem?_eq_getElem hci))
  have hidi : fund_output_serial_ids[i]? = some infos[i].output_serial_id := by
    rw [← hkeys, List.getElem?_map, hinfo_i]
    rfl
  rw [List.getElem?_map, hidi] at hfv
  have hfv2 : findBatchVout infos[i].output_serial_id
      (stdSort E (fun a b : Nat => decide (a < b))
        (fund_output_serial_ids ++
          [local_params.change_serial_id, remote_params.change_serial_id])) 0 =
      fund_vout := Option.some.inj hfv
  have hcmp : CompareOutputSerialId =
      fun a b : TxOutputInfo => decide (a.output_serial_id < b.output_serial_id) := rfl
  rw [hcmp] at houts
  have hsk := stdSort_map_key E hE (fun o : TxOutputInfo => o.output_serial_id)
    (infos ++
      [{ script := (batchChangeOutput local_params fee_rate).locking_script,
         value := (batchChangeOutput local_params fee_rate).value,
         output_serial_id := local_params.change_serial_id },
       { script := (batchChangeOutput remote_params fee_rate).locking_script,
         value := (batchChangeOutput remote_params fee_rate).value,
         output_serial_id := remote_params.change_serial_id }])
  rw [List.map_append, hkeys] at hsk
  have hperm := stdSort_perm E hE (fun o : TxOutputInfo => o.output_serial_id)
    (infos ++
      [{ script := (batchChangeOutput local_params fee_rate).locking_script,
         value := (batchChangeOutput local_params fee_rate).value,
         output_serial_id := local_params.change_serial_id },
       { script := (batchChangeOutput remote_params fee_rate).locking_script,
         value := (batchChangeOutput remote_params fee_rate).value,
         output_serial_id := remote_params.change_serial_id }])
  have hmem : infos[i] ∈ stdSort E
      (fun a b : TxOutputInfo => decide (a.output_serial_id < b.output_serial_id))
      (infos ++
        [{ script := (batchChangeOutput local_params fee_rate).locking_script,
           value := (batchChangeOutput local_params fee_rate).value,
           output_serial_id := local_params.change_serial_id },
         { script := (batchChangeOutput remote_params fee_rate).locking_script,
           value := (batchChangeOutput remote_params fee_rate).value,
           output_serial_id := remote_params.change_serial_id }]) :=
    hperm.mem_iff.mpr (List.mem_append_left _ (List.getElem_mem hio))
  obtain ⟨j, hj, hjl⟩ := findBatchVout_map (fun o : TxOutputInfo => o.output_serial_id)
    infos[i].output_serial_id _ 0 ⟨infos[i], hmem, rfl⟩
  rw [hsk] at hj
  have hjv : j = fund_vout := by
    have hj2 : findBatchVout infos[i].output_serial_id
        (stdSort E (fun a b : Nat => decide (a < b))
          (fund_output_serial_ids ++
            [local_params.change_serial_id, remote_params.change_serial_id])) 0 = 0 + j :=
      hj
    omega
  rw [hjv] at hjl
  have hfilter_infos := filter_key_of_nodup (fun o : TxOutputInfo => o.output_serial_id)
    infos (by rw [hkeys]; exact hnodup) i infos[i] hinfo_i
  have hhead : ((stdSort E
      (fun a b : TxOutputInfo => decide (a.output_serial_id < b.output_serial_id))
      (infos ++
        [{ script := (batchChangeOutput local_params fee_rate).locking_script,
           value := (batchChangeOutput local_params fee_rate).value,
           output_serial_id := local_params.change_serial_id },
         { script := (batchChangeOutput remote_params fee_rate).locking_script,
           value := (batchChangeOutput remote_params fee_rate).value,
           output_serial_id := remote_params.change_serial_id }])).filter
      fun o => decide (o.output_serial_id = infos[i].output_serial_id)).head? =
      some infos[i] := by
    rcases htie with hshort | ⟨hlcid, hrcid⟩
    · unfold stdSort
      rw [if_pos (by
        rw [List.length_append]
        simp only [List.length_cons, List.length_nil]
        omega)]
      rw [insertionSort_filter (fun o : TxOutputInfo => o.output_serial_id) _
        (fun _ _ => rfl), List.filter_append, hfilter_infos]
      rfl
    · have hmem_ids : infos[i].output_serial_id ∈ fund_output_serial_ids := by
        obtain ⟨hlt, heq⟩ := List.getElem?_eq_some_iff.mp hidi
        rw [← heq]
        exact List.getElem_mem hlt
      have hp := hperm.filter
        (fun o => decide (o.output_serial_id = infos[i].output_serial_id))
      rw [List.filter_append, hfilter_infos] at hp
      have hchange : List.filter
          (fun o : TxOutputInfo => decide (o.output_serial_id = infos[i].output_serial_id))
          [{ script := (batchChangeOutput local_params fee_rate).locking_script,
             value := (batchChangeOutput local_params fee_rate).value,
             output_serial_id := local_params.change_serial_id },
           { script := (batchChangeOutput remote_params fee_rate).locking_script,
             value := (batchChangeOutput remote_params fee_rate).value,
             output_serial_id := remote_params.change_serial_id }] = [] := by
        rw [List.filter_eq_nil_iff]
        intro o ho
        simp only [List.mem_cons, List.mem_singleton, List.not_mem_nil, or_false] at ho
        simp only [decide_eq_true_eq]
        rcases ho with rfl | rfl
        · intro heq
          have h2 : local_params.change_serial_id = infos[i].output_serial_id := heq
          exact hlcid (h2 ▸ hmem_ids)
        · intro heq
          have h2 : remote_params.change_serial_id = infos[i].output_serial_id := heq
          exact hrcid (h2 ▸ hmem_ids)
      rw [hchange, List.append_nil] at hp
      rw [List.perm_singleton.mp hp]
      rfl
  rw [hhead] at hjl
  refine ⟨fund_vout, lpk, rpk, lc, rc, contracts[i].1, contracts[i].2, hlpk, hrpk, hlc, hrc,
    ?_, ?_, hcets, hrefund, ?_⟩
  · rw [hcl, List.getElem?_map, List.getElem?_eq_getElem hci]
    rfl
  · rw [hrl, List.getElem?_map, List.getElem?_eq_getElem hci]
    rfl
  · rw [houts, List.getElem?_map, hjl, hoeq, hv]
    rfl

/-- Witness for C32: the reference batch of two contracts with the fund output serial
ids 7 and 5: contract 0 spends output 3, the last one, which is its funding output. -/
theorem CreateBatchDlcTransactions_fund_vouts_witness :
    ∃ r,
      CreateBatchDlcTransactions stableCollab [sampleOutcomes, sampleOutcomes]
        sampleBatchLocal sampleBatchRemote [100, 100] 1 0 0 [7, 5] = .ok r ∧
      [7, 5].length = [sampleOutcomes, sampleOutcomes].length ∧
      [7, 5].Nodup ∧
      ([7, 5].length + 2 ≤ 16 ∨
        (sampleBatchLocal.change_serial_id ∉ [7, 5] ∧
          sampleBatchRemote.change_serial_id ∉ [7, 5])) ∧
      0 < [sampleOutcomes, sampleOutcomes].length ∧
      r.fund_transaction.txouts[3]? =
        some { value := 200000170, locking_script := [0, 32, 2, 6, 6] } ∧
      ∃ fund_vout lpk rpk lc rc cets refund,
        sampleBatchLocal.fund_pubkeys[0]? = some lpk ∧
        sampleBatchRemote.fund_pubkeys[0]? = some rpk ∧
        sampleBatchLocal.collaterals[0]? = some lc ∧
        sampleBatchRemote.collaterals[0]? = some rc ∧
        r.cets_list[0]? = some cets ∧
        r.refund_transactions[0]? = some refund ∧
        (∀ cet ∈ cets, cet.txins =
          [{ txid := stableCollab.GetTxid r.fund_transaction, vout := fund_vout,
             unlocking_script := [] }]) ∧
        refund.txins =
          [{ txid := stableCollab.GetTxid r.fund_transaction, vout := fund_vout,
             unlocking_script := [] }] ∧
        r.fund_transaction.txouts[fund_vout]? =
          some
            { value := lc + rc +
                ceilDiv (batchCetFee sampleBatchLocal 1)
                  [sampleOutcomes, sampleOutcomes].length +
                ceilDiv (batchCetFee sampleBatchRemote 1)
                  [sampleOutcomes, sampleOutcomes].length,
              locking_script :=
                stableCollab.CreateP2wshLockingScript
                  (CreateFundTxLockingScript stableCollab lpk rpk) } :=
  ⟨_, rfl, rfl, by decide, Or.inl (by decide), by decide, rfl,
    CreateBatchDlcTransactions_fund_vouts stableCollab stableCollab_conforms
      [sampleOutcomes, sampleOutcomes] sampleBatchLocal sampleBatchRemote [100, 100] 1 0 0
      [7, 5] _ 0 rfl rfl (by decide) (Or.inl (by decide)) (by decide)⟩

set_option maxRecDepth 100000 in
/-- C33: on a batch of at most fourteen contracts with no fund output serial ids the
claim holds for all change serial ids: when `CreateBatchDlcTransactions` returns, the
funding output of contract `i` is output `i` of the funding transaction, the CETs and
the refund transaction of contract `i` spend index `i`, and the two change outputs
follow.  On a batch of fifteen contracts (all change serial ids 0) it does not: under a
`std::sort` that sorts and reverses the seventeen records of serial id 0 the call
returns, contract `i` spends index `i`, but output 0 is the remote change output, output
1 the local one, and the funding output of contract 0 is the last output, index 16;
under a `std::sort` that keeps ties in order the funding output of contract 0 is
output 0.  The `std::sort` of GNU libstdc++ orders the seventeen records of serial id 0
(funding outputs 0 to 14, local change 15, remote change 16) as 8, 16, 15, 14, …, 9, 0,
7, 6, …, 1: the call returns, contract `i` spends index `i`, but output 0 is the funding
output of contract 8, output 1 the remote change output, output 2 the local change
output, and the funding output of contract 0 is output 9. -/
theorem CreateBatchDlcTransactions_empty_ids_long_batch :
    (∀ (E : Collab) (outcomes_list : List (List DlcOutcome))
        (local_params remote_params : BatchPartyParams) (refund_locktimes : List Nat)
        (fee_rate fund_lock_time cet_lock_time : Nat) (r : BatchDlcTransactions) (i : Nat),
      CreateBatchDlcTransactions E outcomes_list local_params remote_params
        refund_locktimes fee_rate fund_lock_time cet_lock_time [] = .ok r →
      outcomes_list.length + 2 ≤ 16 → i < outcomes_list.length →
        ∃ lpk rpk lc rc cets refund,
          local_params.fund_pubkeys[i]? = some lpk ∧
          remote_params.fund_pubkeys[i]? = some rpk ∧
          local_params.collaterals[i]? = some lc ∧
          remote_params.collaterals[i]? = some rc ∧
          r.cets_list[i]? = some cets ∧
          r.refund_transactions[i]? = some refund ∧
          (∀ cet ∈ cets, cet.txins =
            [{ txid := E.GetTxid r.fund_transaction, vout := i, unlocking_script := [] }]) ∧
          refund.txins =
            [{ txid := E.GetTxid r.fund_transaction, vout := i, unlocking_script := [] }] ∧
          r.fund_transaction.txouts[i]? =
            some
              { value := lc + rc +
                  ceilDiv (batchCetFee local_params fee_rate) outcomes_list.length +
                  ceilDiv (batchCetFee remote_params fee_rate) outcomes_list.length,
                locking_script :=
                  E.CreateP2wshLockingScript (CreateFundTxLockingScript E lpk rpk) } ∧
          r.fund_transaction.txouts.length = outcomes_list.length + 2 ∧
          (r.fund_transaction.txouts.drop outcomes_list.length).Perm
            [batchChangeOutput local_params fee_rate,
              batchChangeOutput remote_params fee_rate]) ∧
    reversingCollab.SortConforms ∧
    (∃ r,
      CreateBatchDlcTransactions reversingCollab (List.replicate 15 sampleOutcomes)
        (uniformBatch 15 'a' 1 1 [34, 34, 34]) (uniformBatch 15 'b' 3 2 [34, 34, 34])
        (List.replicate 15 100) 1 0 0 [] = .ok r ∧
      (r.cets_list.map fun cets => cets.map fun cet => cet.txins.map fun i => i.vout) =
        (List.range 15).map (fun i => [[i], [i]]) ∧
      (r.refund_transactions.map fun t => t.txins.map fun i => i.vout) =
        (List.range 15).map (fun i => [i]) ∧
      r.fund_transaction.txouts.length = 17 ∧
      r.fund_transaction.txouts[0]? =
        some { value := 3499998273, locking_script := List.replicate 22 3 } ∧
      r.fund_transaction.txouts[1]? =
        some { value := 3499998273, locking_script := List.replicate 22 1 } ∧
      r.fund_transaction.txouts[16]? =
        some
          { value := 200000174
            locking_script :=
              reversingCollab.CreateP2wshLockingScript
                (CreateFundTxLockingScript reversingCollab { hex := "a" }
                  { hex := "b" }) }) ∧
    (∃ r,
      CreateBatchDlcTransactions stableCollab (List.replicate 15 sampleOutcomes)
        (uniformBatch 15 'a' 1 1 [34, 34, 34]) (uniformBatch 15 'b' 3 2 [34, 34, 34])
        (List.replicate 15 100) 1 0 0 [] = .ok r ∧
      r.fund_transaction.txouts[0]? =
        some
          { value := 200000174
            locking_script :=
              stableCollab.CreateP2wshLockingScript
                (CreateFundTxLockingScript stableCollab { hex := "a" } { hex := "b" }) }) ∧
    (libstdcxxSort (fun (a b : Nat × Nat) => decide (a.1 < b.1))
        ((List.replicate 17 0).zip (List.range 17))).map (fun p => p.2) =
      [8, 16, 15, 14, 13, 12, 11, 10, 9, 0, 7, 6, 5, 4, 3, 2, 1] ∧
    ∃ r,
      CreateBatchDlcTransactions libstdcxxCollab (List.replicate 15 sampleOutcomes)
        (uniformBatch 15 'a' 1 1 [34, 34, 34]) (uniformBatch 15 'b' 3 2 [34, 34, 34])
        (List.replicate 15 100) 1 0 0 [] = .ok r ∧
      (r.cets_list.map fun cets => cets.map fun cet => cet.txins.map fun i => i.vout) =
        (List.range 15).map (fun i => [[i], [i]]) ∧
      (r.refund_transactions.map fun t => t.txins.map fun i => i.vout) =
        (List.range 15).map (fun i => [i]) ∧
      r.fund_transaction.txouts.length = 17 ∧
      r.fund_transaction.txouts[0]? =
        some
          { value := 200000174
            locking_script :=
              libstdcxxCollab.CreateP2wshLockingScript
                (CreateFundTxLockingScript libstdcxxCollab { hex := "aaaaaaaaa" }
                  { hex := "bbbbbbbbb" }) } ∧
      r.fund_transaction.txouts[1]? =
        some { value := 3499998273, locking_script := List.replicate 22 3 } ∧
      r.fund_transaction.txouts[2]? =
        some { value := 3499998273, locking_script := List.replicate 22 1 } ∧
      r.fund_transaction.txouts[9]? =
        some
          { value := 200000174
            locking_script :=
              libstdcxxCollab.CreateP2wshLockingScript
                (CreateFundTxLockingScript libstdcxxCollab { hex := "a" }
                  { hex := "b" }) } :=
  ⟨fun E outcomes_list local_params remote_params refund_locktimes fee_rate fund_lock_time
      cet_lock_time r i h hshort hi =>
    CreateBatchDlcTransactions_empty_ids_short E outcomes_list local_params remote_params
      refund_locktimes fee_rate fund_lock_time cet_lock_time r i h hshort hi,
    reversingCollab_conforms, ⟨_, rfl, rfl, rfl, rfl, rfl, rfl, rfl⟩, ⟨_, rfl, rfl⟩,
    by decide, _, rfl, rfl, rfl, rfl, rfl, rfl, rfl, rfl⟩

/-- C34, as stated, fails: on the inputs of the scenario each party's CET fees are 169
sats, `ceil(169 / 2)` is 85, and each funding output is worth
`100000000 + 100000000 + 85 + 85 = 200000170` sats, not 200000168. -/
theorem CreateBatchDlcTransactions_scenario_not_168 :
    ∃ r, CreateBatchDlcTransactions stableCollab [sampleOutcomes, sampleOutcomes]
        sampleBatchLocal sampleBatchRemote [100, 100] 1 0 0 [] = .ok r ∧
      r.fund_transaction.txouts.map (fun o => o.value) ≠
        [200000168, 200000168, 4799999683, 4799999683] :=
  ⟨_, rfl, by decide⟩

/-- C34, amended: on the inputs of the scenario (two contracts, one input per party with
an empty unlocking script, a witness of 108 bytes and serial id 0, change and final
scripts of 22 bytes, 5000000000 sats in, 100000000 sats of collateral per contract, fee
rate 1, all serial ids 0, no fund output serial ids) `CreateBatchDlcTransactions` returns
a funding transaction with exactly 4 outputs whose values are, in order, 200000170,
200000170, 4799999683 and 4799999683 sats, whatever the script and hash primitives. -/
theorem CreateBatchDlcTransactions_scenario_values (E : Collab) :
    ∃ r, CreateBatchDlcTransactions E [sampleOutcomes, sampleOutcomes] sampleBatchLocal
        sampleBatchRemote [100, 100] 1 0 0 [] = .ok r ∧
      r.fund_transaction.txouts.length = 4 ∧
      r.fund_transaction.txouts.map (fun o => o.value) =
        [200000170, 200000170, 4799999683, 4799999683] :=
  ⟨_, rfl, rfl, rfl⟩

/-- C35, as stated, fails: with one local input whose weight is `2 ^ 32 - 50` the single
DLC wraps `107 + inputs_size` to 57 (fund fee 46 at fee rate 1) while the batch adds its
base weight outside the 32-bit sum (fund fee 1073741870); both calls return, with
different funding transactions. -/
theorem CreateBatchDlcTransactions_of_one_differs :
    ∃ b r,
      CreateBatchDlcTransactions stableCollab [sampleOutcomes] wrappingLocal.toBatch
        sampleRemote.toBatch [100] 1 0 0 [] = .ok b ∧
      CreateDlcTransactions stableCollab sampleOutcomes wrappingLocal sampleRemote 100 1
        Address.empty 0 0 0 0 = .ok r ∧
      b.fund_transaction.txouts.map (fun o => o.value) =
        [200000170, 3826258045, 4899999789] ∧
      r.fund_transaction.txouts.map (fun o => o.value) =
        [200000170, 4899999869, 4899999789] ∧
      b.fund_transaction ≠ r.fund_transaction :=
  ⟨_, _, rfl, rfl, rfl, rfl, by decide⟩

/-- C35, amended: when for each party the base weight 107 plus the weight of the inputs
(reduced modulo `2 ^ 32`) stays below `2 ^ 32`, a batch of one contract is built exactly
like a single DLC without premium: for outcomes, refund locktime, fee rate, locktimes
and fund output serial id `x`, with `fund_output_serial_ids = [x]` (or empty when
`x = 0`) and `refund_locktimes = [refund_locktime]`, either both calls throw a
`CfdException` of the same kind, or both return, with the same funding transaction, the
same CETs and the same refund transaction. -/
theorem CreateBatchDlcTransactions_of_one (E : Collab)
    (outcomes : List DlcOutcome) (local_params remote_params : PartyParams)
    (refund_locktime fee_rate : Nat) (option_dest : Address)
    (fund_lock_time cet_lock_time x : Nat) (ids : List Nat)
    (hids : ids = [x] ∨ (ids = [] ∧ x = 0))
    (hl : 107 + (local_params.inputs_info.map inputWeight).sum % 2 ^ 32 < 2 ^ 32)
    (hr : 107 + (remote_params.inputs_info.map inputWeight).sum % 2 ^ 32 < 2 ^ 32) :
    CreateBatchDlcTransactions E [outcomes] local_params.toBatch remote_params.toBatch
        [refund_locktime] fee_rate fund_lock_time cet_lock_time ids =
      match CreateDlcTransactions E outcomes local_params remote_params refund_locktime
          fee_rate option_dest 0 fund_lock_time cet_lock_time x with
      | .error e => .error (.exception e)
      | .ok r => .ok r.toBatch := by
  obtain ⟨hlc, hlf, hlr, hlo⟩ := batch_of_one_fees local_params fee_rate option_dest hl
  obtain ⟨hrc, hrf, hrr, hro⟩ := batch_of_one_fees remote_params fee_rate Address.empty hr
  rw [CreateBatchDlcTransactions_eq, CreateDlcTransactions_cases]
  have hlen : ¬ (([outcomes] : List (List DlcOutcome)).length ≠
      local_params.toBatch.fund_pubkeys.length ∨
      ([outcomes] : List (List DlcOutcome)).length ≠
        remote_params.toBatch.fund_pubkeys.length) := by
    simp [PartyParams.toBatch]
  have hrange : List.range ([outcomes] : List (List DlcOutcome)).length = [0] := rfl
  have hchk : batchCheckOutcomes [outcomes] local_params.toBatch.collaterals
      remote_params.toBatch.collaterals 0 =
      liftCfd (checkOutcomes (local_params.collateral + remote_params.collateral)
        outcomes) := rfl
  rw [if_neg hlen, hrange, forEachIndex_singleton, hchk, checkOutcomes_eq]
  by_cases hc : ∃ o ∈ outcomes,
      o.local_payout + o.remote_payout ≠ local_params.collateral + remote_params.collateral
  · rw [if_pos hc, if_pos hc]
    rfl
  rw [if_neg hc, if_neg hc]
  simp only [liftCfd]
  rw [hlr, hrr]
  by_cases hfl : changeFails local_params fee_rate 0 option_dest
  · have h1 : local_params.toBatch.input_amount < requiredInput local_params fee_rate 0
        option_dest := by
      rcases hfl with h | h
      · exact absurd h.1 (Nat.lt_irrefl 0)
      · exact h
    rw [if_pos hfl, if_pos h1]
  have h1 : ¬ local_params.toBatch.input_amount < requiredInput local_params fee_rate 0
      option_dest := fun h => hfl (Or.inr h)
  rw [if_neg hfl, if_neg h1]
  by_cases hfr : changeFails remote_params fee_rate 0 Address.empty
  · have h2 : remote_params.toBatch.input_amount < requiredInput remote_params fee_rate 0
        Address.empty := by
      rcases hfr with h | h
      · exact absurd h.1 (Nat.lt_irrefl 0)
      · exact h
    rw [if_pos hfr, if_pos h2]
  have h2 : ¬ remote_params.toBatch.input_amount < requiredInput remote_params fee_rate 0
      Address.empty := fun h => hfr (Or.inr h)
  rw [if_neg hfr, if_neg h2]
  have hzero : ¬ (([outcomes] : List (List DlcOutcome)).length = 0 ∧
      local_params.toBatch.collaterals ≠ []) := by
    simp
  rw [if_neg hzero]
  have hrange2 : List.range local_params.toBatch.collaterals.length = [0] := rfl
  have hone : ([outcomes] : List (List DlcOutcome)).length = 1 := rfl
  rw [hrange2, forEachIndex_singleton, hone, ceilDiv_one, ceilDiv_one, hlc, hrc]
  have hval : batchFundOutputValue local_params.toBatch.collaterals
      remote_params.toBatch.collaterals (cetFee local_params fee_rate)
      (cetFee remote_params fee_rate) 0 =
      .ok (local_params.collateral + remote_params.collateral + cetFee local_params fee_rate +
        cetFee remote_params fee_rate) := rfl
  rw [hval]
  simp only
  have hdiff : ¬ 20 < Int.natAbs
      (((local_params.toBatch.collaterals.sum + remote_params.toBatch.collaterals.sum +
          cetFee local_params fee_rate + cetFee remote_params fee_rate : Nat) : Int) -
        ((([local_params.collateral + remote_params.collateral +
          cetFee local_params fee_rate + cetFee remote_params fee_rate] : List Nat).sum :
          Nat) : Int)) := by
    simp [PartyParams.toBatch]
  rw [if_neg hdiff, hlo, hro]
  have hfund := CreateBatchFundTransaction_single E local_params.fund_pubkey
    remote_params.fund_pubkey
    (local_params.collateral + remote_params.collateral + cetFee local_params fee_rate +
      cetFee remote_params fee_rate)
    local_params.inputs_info (changeOutput local_params fee_rate 0 option_dest)
    remote_params.inputs_info (changeOutput remote_params fee_rate 0 Address.empty)
    option_dest fund_lock_time local_params.change_serial_id remote_params.change_serial_id
    x ids hids
  have hfund2 : CreateBatchFundTransaction E local_params.toBatch.fund_pubkeys
      remote_params.toBatch.fund_pubkeys
      [local_params.collateral + remote_params.collateral + cetFee local_params fee_rate +
        cetFee remote_params fee_rate]
      local_params.toBatch.inputs_info (changeOutput local_params fee_rate 0 option_dest)
      remote_params.toBatch.inputs_info (changeOutput remote_params fee_rate 0 Address.empty)
      fund_lock_time local_params.toBatch.change_serial_id
      remote_params.toBatch.change_serial_id ids =
      .ok (fundTransaction E local_params remote_params fee_rate option_dest 0 fund_lock_time
        x) := hfund
  rw [hfund2]
  simp only
  have hvouts : batchFundVouts E local_params.toBatch remote_params.toBatch ids
      ([local_params.collateral + remote_params.collateral + cetFee local_params fee_rate +
        cetFee remote_params fee_rate] : List Nat).length =
      [fundVout E local_params remote_params x] := by
    rcases hids with h | ⟨h, hx⟩
    · rw [h]
      simp only [batchFundVouts, List.isEmpty_cons, Bool.false_eq_true, if_false,
        List.map_cons, List.map_nil, fundVout, PartyParams.toBatch, List.singleton_append]
      rw [findFundVout_eq_findBatchVout]
      have hs : stdSort E (fun a b : Nat => decide (a < b))
          [x, local_params.change_serial_id, remote_params.change_serial_id] =
          insertionSort (fun a b : Nat => decide (a < b))
            [x, local_params.change_serial_id, remote_params.change_serial_id] := by
        unfold stdSort
        rw [if_pos (by simp)]
      rw [hs, (insertionSort_perm _ _).length_eq]
      norm_num
    · rw [h, hx, fundVout_zero]
      rfl
  rw [hvouts]
  have hrange3 : List.range ([fundVout E local_params remote_params x] : List Nat).length =
      [0] := rfl
  rw [hrange3, forEachIndex_singleton]
  rfl

/-- Witness for C35: the reference scenario with fund output serial id 7 and change
serial ids 0, where both calls return. -/
theorem CreateBatchDlcTransactions_of_one_witness :
    ([7] = [7] ∨ (([7] : List Nat) = [] ∧ 7 = 0)) ∧
    107 + (sampleLocal.inputs_info.map inputWeight).sum % 2 ^ 32 < 2 ^ 32 ∧
    107 + (sampleRemote.inputs_info.map inputWeight).sum % 2 ^ 32 < 2 ^ 32 ∧
    (∃ r, CreateDlcTransactions stableCollab sampleOutcomes sampleLocal sampleRemote 100 1
        Address.empty 0 0 0 7 = .ok r ∧ r.fund_transaction.txouts.length = 3) ∧
    CreateBatchDlcTransactions stableCollab [sampleOutcomes] sampleLocal.toBatch
        sampleRemote.toBatch [100] 1 0 0 [7] =
      match CreateDlcTransactions stableCollab sampleOutcomes sampleLocal sampleRemote 100
          1 Address.empty 0 0 0 7 with
      | .error e => .error (.exception e)
      | .ok r => .ok r.toBatch :=
  ⟨Or.inl rfl, by decide, by decide, ⟨_, rfl, rfl⟩,
    CreateBatchDlcTransactions_of_one stableCollab sampleOutcomes sampleLocal sampleRemote
      100 1 Address.empty 0 0 7 [7] (Or.inl rfl) (by decide) (by decide)⟩

/-- C36: a batch of twelve contracts with outcomes that add up to the collaterals and
input amounts that cover collaterals and fees, at fee rate 1, in which each party has
eleven final scripts of 22 bytes and one of 32 bytes: the CET fees are 1021 sats per
party, a twelfth of them rounded up is 86, the funding outputs exceed collaterals and
fees by `12 * (86 + 86) - (1021 + 1021) = 22` sats, and `CreateBatchDlcTransactions`
throws `Internal`. -/
theorem CreateBatchDlcTransactions_twelve_internal (E : Collab) :
    (∀ outcomes ∈ List.replicate 12 sampleOutcomes, ∀ o ∈ outcomes,
      o.local_payout + o.remote_payout = 100000000 + 100000000) ∧
    GetBatchChangeOutputAndFees (uniformBatch 12 'a' 1 1 [32]) 1 =
      .ok ({ value := 3799998616, locking_script := List.replicate 22 1 }, 363, 1021) ∧
    GetBatchChangeOutputAndFees (uniformBatch 12 'b' 3 2 [32]) 1 =
      .ok ({ value := 3799998616, locking_script := List.replicate 22 3 }, 363, 1021) ∧
    ceilDiv 1021 12 = 86 ∧
    12 * (100000000 + 100000000 + 86 + 86) -
      (12 * 100000000 + 12 * 100000000 + 1021 + 1021) = 22 ∧
    CreateBatchDlcTransactions E (List.replicate 12 sampleOutcomes)
        (uniformBatch 12 'a' 1 1 [32]) (uniformBatch 12 'b' 3 2 [32])
        (List.replicate 12 100) 1 0 0 [] =
      .error (.exception .kCfdInternalError) :=
  ⟨by decide, rfl, rfl, rfl, rfl, rfl⟩

/-- C38: in the result of a successful `CreateDlcTransactions` the CETs are the outcomes
mapped by `CreateCet`; with collaterals that add up to at least 1999 sats every CET has
at least one output; a CET has two outputs exactly when both payouts of its outcome are
at least 1000 sats; and an outcome whose two payouts are both below 1000 sats, which the
outcome check admits only with a total collateral of at most 1998 sats, gives a CET
without any output. -/
theorem CreateDlcTransactions_cet_output_count (E : Collab) (outcomes : List DlcOutcome)
    (local_params remote_params : PartyParams) (refund_locktime fee_rate : Nat)
    (option_dest : Address)
    (option_premium fund_lock_time cet_lock_time fund_output_serial_id : Nat)
    (r : DlcTransactions)
    (h : CreateDlcTransactions E outcomes local_params remote_params refund_locktime fee_rate
        option_dest option_premium fund_lock_time cet_lock_time fund_output_serial_id =
      .ok r) :
    List.Forall₂
      (fun (o : DlcOutcome) (cet : TransactionController) =>
        cet = CreateCet E
          { value := o.local_payout, locking_script := local_params.final_script_pubkey }
          { value := o.remote_payout, locking_script := remote_params.final_script_pubkey }
          (E.GetTxid r.fund_transaction)
          (fundVout E local_params remote_params fund_output_serial_id) cet_lock_time
          local_params.payout_serial_id remote_params.payout_serial_id ∧
        (1999 ≤ local_params.collateral + remote_params.collateral →
          1 ≤ cet.txouts.length) ∧
        (cet.txouts.length = 2 ↔ 1000 ≤ o.local_payout ∧ 1000 ≤ o.remote_payout) ∧
        (o.local_payout < 1000 ∧ o.remote_payout < 1000 →
          cet.txouts = [] ∧ local_params.collateral + remote_params.collateral ≤ 1998))
      outcomes r.cets := by
  have hsum := CreateDlcTransactions_ok_outcomes E outcomes local_params remote_params
    refund_locktime fee_rate option_dest option_premium fund_lock_time cet_lock_time
    fund_output_serial_id r h
  obtain ⟨-, -, -, hcets, -⟩ := CreateDlcTransactions_ok E outcomes local_params
    remote_params refund_locktime fee_rate option_dest option_premium fund_lock_time
    cet_lock_time fund_output_serial_id r h
  rw [hcets]
  unfold CreateCets
  rw [List.forall₂_map_right_iff, List.forall₂_same]
  intro o ho
  have hso := hsum o ho
  refine ⟨rfl, ?_, ?_, ?_⟩
  · intro hT
    rw [CreateCet_txouts]
    by_cases hs : remote_params.payout_serial_id < local_params.payout_serial_id <;>
      by_cases h1 : 1000 ≤ o.local_payout <;>
      by_cases h2 : 1000 ≤ o.remote_payout <;>
      simp [hs, h1, h2, List.filter_cons, DUST_LIMIT] <;> omega
  · rw [CreateCet_txouts]
    by_cases hs : remote_params.payout_serial_id < local_params.payout_serial_id <;>
      by_cases h1 : 1000 ≤ o.local_payout <;>
      by_cases h2 : 1000 ≤ o.remote_payout <;>
      simp [hs, h1, h2, List.filter_cons, DUST_LIMIT]
  · rintro ⟨h1, h2⟩
    refine ⟨?_, by omega⟩
    rw [CreateCet_txouts]
    by_cases hs : remote_params.payout_serial_id < local_params.payout_serial_id <;>
      simp [hs, h1, h2, List.filter_cons, DUST_LIMIT]

/-- Witness for C38: collaterals of 999 sats each and one outcome that pays 999 sats to
each party; its CET has no output. -/
theorem CreateDlcTransactions_cet_output_count_witness :
    List.Forall₂
      (fun (o : DlcOutcome) (cet : TransactionController) =>
        cet = CreateCet stableCollab
          { value := o.local_payout, locking_script := List.replicate 22 2 }
          { value := o.remote_payout, locking_script := List.replicate 22 4 }
          [2, 0, 2, 3] 0 0 0 0 ∧
        (1999 ≤ 999 + 999 → 1 ≤ cet.txouts.length) ∧
        (cet.txouts.length = 2 ↔ 1000 ≤ o.local_payout ∧ 1000 ≤ o.remote_payout) ∧
        (o.local_payout < 1000 ∧ o.remote_payout < 1000 →
          cet.txouts = [] ∧ 999 + 999 ≤ 1998))
      [{ local_payout := 999, remote_payout := 999 }]
      [{ version := 2, lock_time := 0
         txins := [{ txid := [2, 0, 2, 3], vout := 0, unlocking_script := [] }]
         txouts := [] }] :=
  CreateDlcTransactions_cet_output_count stableCollab
    [{ local_payout := 999, remote_payout := 999 }]
    { sampleLocal with collateral := 999 } { sampleRemote with collateral := 999 } 100 1
    Address.empty 0 0 0 0
    { fund_transaction :=
        { sampleTransactions.fund_transaction with
          txouts := [{ value := 2168, locking_script := [0, 32, 2, 6, 6] },
            { value := 4999998790, locking_script := List.replicate 22 1 },
            { value := 4999998790, locking_script := List.replicate 22 3 }] }
      cets :=
        [{ version := 2, lock_time := 0
           txins := [{ txid := [2, 0, 2, 3], vout := 0, unlocking_script := [] }]
           txouts := [] }]
      refund_transaction :=
        { version := 2, lock_time := 100
          txins := [{ txid := [2, 0, 2, 3], vout := 0, unlocking_script := [] }]
          txouts := [{ value := 999, locking_script := List.replicate 22 2 },
            { value := 999, locking_script := List.replicate 22 4 }] } }
    rfl

/-- C39: both overloads of `AddSignaturesToRefundTx` add, for the outpoint of the refund
input, the stack made of the empty element, the DER form of every signature in the
order the caller gave them, and the multisig script; the overload that takes the two
fund pubkeys builds the script with `CreateFundTxLockingScript`, which lists the keys in
the order of their hex strings whatever the order of the signatures; so with two
different keys the pair (local signature, remote signature) follows the order of the
keys in the script exactly when the hex of the local key is the smaller one. -/
theorem AddSignaturesToRefundTx_stack (E : Collab) (S : Signer)
    (refund_tx : WitnessedTransaction) (fund_lockscript : Script)
    (local_pubkey remote_pubkey : Pubkey) (signatures : List ByteData) (fund_tx_id : Txid)
    (fund_tx_vout : Nat) :
    AddSignaturesToRefundTx S refund_tx fund_lockscript signatures fund_tx_id fund_tx_vout =
      { transaction := refund_tx.transaction
        witness := refund_tx.witness ++
          [{ txid := fund_tx_id, vout := fund_tx_vout
             stack :=
              .bytes [] ::
                (signatures.map fun sig =>
                  WitnessItem.bytes
                    (S.ConvertSignatureToDer sig { algorithm := .kSigHashAll })) ++
                [.bytes fund_lockscript] }] } ∧
    AddSignaturesToRefundTxPubkeys E S refund_tx local_pubkey remote_pubkey signatures
        fund_tx_id fund_tx_vout =
      { transaction := refund_tx.transaction
        witness := refund_tx.witness ++
          [{ txid := fund_tx_id, vout := fund_tx_vout
             stack :=
              .bytes [] ::
                (signatures.map fun sig =>
                  WitnessItem.bytes
                    (S.ConvertSignatureToDer sig { algorithm := .kSigHashAll })) ++
                [.bytes
                  (E.CreateMultisigRedeemScript 2
                    (if stringLess local_pubkey.hex.data remote_pubkey.hex.data then
                      [local_pubkey, remote_pubkey]
                    else [remote_pubkey, local_pubkey]))] }] } ∧
    (local_pubkey ≠ remote_pubkey →
      (GetOrderedPubkeys local_pubkey remote_pubkey = [local_pubkey, remote_pubkey] ↔
        stringLess local_pubkey.hex.data remote_pubkey.hex.data = true)) := by
  refine ⟨rfl, rfl, fun hne => ?_⟩
  unfold GetOrderedPubkeys
  by_cases hlt : stringLess local_pubkey.hex.data remote_pubkey.hex.data = true
  · rw [if_pos hlt]
    exact ⟨fun _ => hlt, fun _ => rfl⟩
  · rw [if_neg hlt]
    constructor
    · intro heq
      exact absurd (List.cons.inj heq).1.symm hne
    · intro h
      exact absurd h hlt

end CfdDlc
